import Mathlib

/-!
# LOVSUB layer lock operations (lustre/lov/lovsub_lock.c)

A shallow embedding of the sub-lock side of the top-lock / sub-lock
hierarchy.  Locks live in two arenas indexed by natural numbers: top-locks
(a `struct lov_lock` together with the `struct cl_lock` it is a slice of) and
sub-locks (a `struct lovsub_lock` together with its `struct cl_lock`).
Pointers become arena indices; `NULL` becomes `none`.

The operations of the generic lock manager (cl_lock.c) and of lov_lock.c that
lovsub_lock.c calls are not part of lovsub_lock.c; each of them is modelled
below by its effect on the fields this file reads, and is recorded in a
chronological event trace.
-/

namespace Lovsub

/-! ## Enumerations -/

/-- Modelled from the spec: `enum cl_lock_state` is declared in a header
outside lovsub_lock.c.  A state is the integer value of the enumerator, so
that values outside the enumeration can be represented. -/
abbrev cl_lock_state := Nat

abbrev CLS_NEW : cl_lock_state := 0
abbrev CLS_QUEUING : cl_lock_state := 1
abbrev CLS_ENQUEUED : cl_lock_state := 2
abbrev CLS_HELD : cl_lock_state := 3
abbrev CLS_UNLOCKING : cl_lock_state := 4
abbrev CLS_CACHED : cl_lock_state := 5
abbrev CLS_FREEING : cl_lock_state := 6

/-- Modelled from the spec: `enum cl_lock_mode`, ordered by strength
(phantom, then read, then write). -/
abbrev cl_lock_mode := Nat

abbrev CLM_PHANTOM : cl_lock_mode := 0
abbrev CLM_READ : cl_lock_mode := 1
abbrev CLM_WRITE : cl_lock_mode := 2

/-- Ways in which an operation stops without returning to its caller. -/
inductive Halt where
  | LBUG
  | LASSERT
  | OUT_OF_FUEL
deriving DecidableEq, Repr

/-! ## Data model -/

/-- The `struct cl_lock_descr`: object, page extent and mode of a lock. -/
structure cl_lock_descr where
  cld_obj : Nat
  cld_start : Nat
  cld_end : Nat
  cld_mode : cl_lock_mode
deriving DecidableEq, Repr

/-- The `struct lov_lock_sub`: one slot of a top-lock. -/
structure lov_lock_sub where
  sub_got : cl_lock_descr
  sub_descr : cl_lock_descr
  sub_lock : Option Nat
deriving DecidableEq, Repr

/-- The `struct lov_lock_link`: a parent link kept in `lss_parents`. -/
structure lov_lock_link where
  lll_super : Nat
  lll_idx : Nat
deriving DecidableEq, Repr

/-- The `struct lov_stripe_md`, restricted to the fields read here. -/
structure lov_stripe_md where
  lsm_stripe_size : Nat
  lsm_stripe_count : Nat
deriving DecidableEq, Repr

/-- A top-lock: `struct lov_lock` merged with its `lls_cl.cls_lock`. -/
structure lov_lock where
  cll_state : cl_lock_state
  cll_error : Int
  cll_descr : cl_lock_descr
  lls_nr : Nat
  lls_sub : Nat → lov_lock_sub
  lls_nr_filled : Int
  lls_unuse_race : Int

/-- A sub-lock: `struct lovsub_lock` merged with its `lss_cl.cls_lock` and
with the `struct lovsub_object` behind `lss_cl.cls_obj` (stripe index and the
striping descriptor of the file it belongs to). -/
structure lovsub_lock where
  cll_error : Int
  cll_descr : cl_lock_descr
  lss_parents : List lov_lock_link
  lss_active : Option Nat
  lso_index : Int
  lso_lsm : lov_stripe_md

/-- Identity of a `struct cl_lock` (and of its mutex). -/
inductive LockId where
  | top (i : Nat)
  | sub (i : Nat)
deriving DecidableEq, Repr

/-- Calls into the generic lock manager, in the order they happen. -/
inductive Event where
  | get (p : Nat)
  | put (p : Nat)
  | mutex_get (m : LockId)
  | mutex_put (m : LockId)
  | signal (p : Nat)
  | state_set (p : Nat) (st : cl_lock_state)
  | error (p : Nat) (code : Int)
  | cancel (p : Nat)
  | delete (p : Nat)
  | unlink (p : Nat) (idx : Nat) (sub : Nat)
  | modify (p : Nat) (d : cl_lock_descr)
  | weigh (p : Nat)
  | closure_build (p : Nat)
deriving DecidableEq, Repr

/-- The memory the operations act on, as seen by the current thread. -/
structure State where
  top : Nat → lov_lock
  sub : Nat → lovsub_lock
  held : List LockId
  trace : List Event
  lti_ldescr : cl_lock_descr

/-- Collaborators of lovsub_lock.c whose code is elsewhere: the word size of
`pgoff_t`, the byte-to-page conversion `cl_index`, the extent comparison, and
the results reported by the top-lock layers for modify, weigh and closure. -/
structure Env where
  BITS_PER_LONG : Nat
  cl_index : Nat → Nat
  cl_lock_ext_match : cl_lock_descr → cl_lock_descr → Bool
  clo_modify : Nat → cl_lock_descr → Int
  cl_lock_weigh : Nat → Nat
  cl_lock_closure_build : Nat → Int

def State.set_top (s : State) (p : Nat) (l : lov_lock) : State :=
  { s with top := Function.update s.top p l }

def State.set_sub (s : State) (c : Nat) (l : lovsub_lock) : State :=
  { s with sub := Function.update s.sub c l }

def State.log (s : State) (e : Event) : State :=
  { s with trace := s.trace ++ [e] }

/-! ## Generic lock manager primitives -/

/-- Modelled from the spec: cl_lock_mutex_get, "acquire mutex for a given
lock handle"; the mutex joins the ones held by the current thread. -/
def cl_lock_mutex_get (s : State) (m : LockId) : State :=
  { s with held := m :: s.held, trace := s.trace ++ [Event.mutex_get m] }

/-- Modelled from the spec: cl_lock_mutex_put, "release mutex for a given
lock handle". -/
def cl_lock_mutex_put (s : State) (m : LockId) : State :=
  { s with held := s.held.erase m, trace := s.trace ++ [Event.mutex_put m] }

/-- Modelled from the spec: cl_lock_is_mutexed, "is mutex held by current
thread". -/
def cl_lock_is_mutexed (s : State) (m : LockId) : Bool :=
  decide (m ∈ s.held)

/-- Modelled from the spec: cl_lock_nr_mutexed, "count of mutices held by
current thread". -/
def cl_lock_nr_mutexed (s : State) : Nat :=
  s.held.length

/-- Modelled from the spec: cl_lock_signal, "signal (wake) a lock's waiters"
without changing state. -/
def cl_lock_signal (s : State) (p : Nat) : State :=
  s.log (Event.signal p)

/-- Modelled from the spec: cl_lock_state_set, "set lock state". -/
def cl_lock_state_set (s : State) (p : Nat) (st : cl_lock_state) : State :=
  (s.set_top p { s.top p with cll_state := st }).log (Event.state_set p st)

/-- Modelled from the spec: cl_lock_error, "deliver error to a lock" (fails
the top-lock with the same error code). -/
def cl_lock_error (s : State) (p : Nat) (code : Int) : State :=
  (s.set_top p { s.top p with cll_error := code }).log (Event.error p code)

/-- Modelled from the spec: cl_lock_cancel, "cancel a lock"; only the call is
recorded. -/
def cl_lock_cancel (s : State) (p : Nat) : State :=
  s.log (Event.cancel p)

/-- Modelled from the spec: cl_lock_delete, "delete/destroy a lock"; only the
call is recorded. -/
def cl_lock_delete (s : State) (p : Nat) : State :=
  s.log (Event.delete p)

/-- Modelled from the spec: lov_lock_unlink (lov_lock.c), "remove the
ParentLink (vacates the slot, decrements fill count)". -/
def lov_lock_unlink (s : State) (link : lov_lock_link) (sub : Nat) : State :=
  let lck := s.top link.lll_super
  let s1 := s.set_sub sub
    { s.sub sub with lss_parents := (s.sub sub).lss_parents.erase link }
  let s2 := s1.set_top link.lll_super
    { lck with
      lls_sub := Function.update lck.lls_sub link.lll_idx
        { lck.lls_sub link.lll_idx with sub_lock := none }
      lls_nr_filled := lck.lls_nr_filled - 1 }
  s2.log (Event.unlink link.lll_super link.lll_idx sub)

/-! ## lovsub_lock.c -/

/-- The body of lovsub_parent_lock: reference, then mutex of the parent. -/
def lovsub_parent_lock (s : State) (lov : Nat) : State :=
  cl_lock_mutex_get (s.log (Event.get lov)) (LockId.top lov)

/-- The body of lovsub_parent_unlock: mutex released, then the reference. -/
def lovsub_parent_unlock (s : State) (lov : Nat) : State :=
  (cl_lock_mutex_put s (LockId.top lov)).log (Event.put lov)

/-- The function lovsub_lock_delete_one: deals with one parent top-lock
after its link was removed.  Returns the new memory and `result`. -/
def lovsub_lock_delete_one (s : State) (child : Nat) (lov : Nat) :
    Except Halt (State × Int) :=
  let st := (s.top lov).cll_state
  if st = CLS_NEW ∨ st = CLS_QUEUING ∨ st = CLS_ENQUEUED ∨ st = CLS_FREEING then
    Except.ok (cl_lock_signal s lov, 0)
  else if st = CLS_UNLOCKING then
    Except.ok (s.set_top lov { s.top lov with lls_unuse_race := 1 }, 0)
  else if st = CLS_CACHED then
    let s1 := cl_lock_state_set s lov CLS_NEW
    if (s1.top lov).lls_nr_filled = 0 then
      if cl_lock_nr_mutexed s1 = 2 then
        let s2 := cl_lock_mutex_put s1 (LockId.sub child)
        let s3 := cl_lock_cancel s2 lov
        let s4 := cl_lock_delete s3 lov
        Except.ok (s4, 1)
      else
        Except.ok (s1, 0)
    else
      Except.ok (s1, 0)
  else
    Except.error Halt.LBUG

/-- One turn of the body of the list_for_each_entry_safe loop in
lovsub_lock_delete, up to and including lovsub_parent_unlock. -/
def lovsub_lock_delete_step (s : State) (sub : Nat) (scan : lov_lock_link) :
    Except Halt (State × Int) :=
  let lov := scan.lll_super
  let s1 := lovsub_parent_lock s lov
  let subdata := (s1.top lov).lls_sub scan.lll_idx
  let s2 := s1.set_top lov
    { s1.top lov with
      lls_sub := Function.update (s1.top lov).lls_sub scan.lll_idx
        { subdata with sub_got := subdata.sub_descr } }
  let s3 := lov_lock_unlink s2 scan sub
  match lovsub_lock_delete_one s3 sub lov with
  | Except.error e => Except.error e
  | Except.ok (s4, restart) => Except.ok (lovsub_parent_unlock s4 lov, restart)

/-- The list_for_each_entry_safe loop of lovsub_lock_delete over the
parent links; returns the memory and the last value of `restart`. -/
def lovsub_lock_delete_scan (sub : Nat) :
    List lov_lock_link → State → Except Halt (State × Int)
  | [], s => Except.ok (s, 0)
  | scan :: rest, s =>
    match lovsub_lock_delete_step s sub scan with
    | Except.error e => Except.error e
    | Except.ok (s1, restart) =>
      if restart ≠ 0 then
        Except.ok (cl_lock_mutex_get s1 (LockId.sub sub), restart)
      else
        lovsub_lock_delete_scan sub rest s1

/-- The do/while loop of lovsub_lock_delete; `fuel` bounds the number of
passes. -/
def lovsub_lock_delete_loop (sub : Nat) : Nat → State → Except Halt State
  | 0, _ => Except.error Halt.OUT_OF_FUEL
  | fuel + 1, s =>
    match lovsub_lock_delete_scan sub (s.sub sub).lss_parents s with
    | Except.error e => Except.error e
    | Except.ok (s1, restart) =>
      if restart ≠ 0 then lovsub_lock_delete_loop sub fuel s1 else Except.ok s1

/-- The function lovsub_lock_delete, the clo_delete method. -/
def lovsub_lock_delete (fuel : Nat) (s : State) (sub : Nat) : Except Halt State :=
  if cl_lock_is_mutexed s (LockId.sub sub) then
    lovsub_lock_delete_loop sub fuel s
  else
    Except.error Halt.LASSERT

/-- The function lovsub_lock_state_one. -/
def lovsub_lock_state_one (s : State) (lovsub : Nat) (lov : Nat) : State × Int :=
  if (s.sub lovsub).lss_active ≠ some lov then
    let s1 := lovsub_parent_lock s lov
    if (s1.sub lovsub).cll_error ≠ 0 ∧ (s1.top lov).cll_error = 0 then
      let s2 := cl_lock_mutex_put s1 (LockId.sub lovsub)
      let s3 := cl_lock_error s2 lov (s2.sub lovsub).cll_error
      (lovsub_parent_unlock s3 lov, 1)
    else
      (lovsub_parent_unlock (cl_lock_signal s1 lov) lov, 0)
  else
    (s, 0)

/-- The list_for_each_entry loop of lovsub_lock_state. -/
def lovsub_lock_state_scan (sub : Nat) : List lov_lock_link → State → State × Int
  | [], s => (s, 0)
  | scan :: rest, s =>
    let r := lovsub_lock_state_one s sub scan.lll_super
    if r.2 ≠ 0 then
      (cl_lock_mutex_get r.1 (LockId.sub sub), r.2)
    else
      lovsub_lock_state_scan sub rest r.1

/-- The do/while loop of lovsub_lock_state; `fuel` bounds the number of
passes. -/
def lovsub_lock_state_loop (sub : Nat) : Nat → State → Except Halt State
  | 0, _ => Except.error Halt.OUT_OF_FUEL
  | fuel + 1, s =>
    let r := lovsub_lock_state_scan sub (s.sub sub).lss_parents s
    if r.2 ≠ 0 then lovsub_lock_state_loop sub fuel r.1 else Except.ok r.1

/-- The function lovsub_lock_state, the clo_state method; the new state of
the sub-lock is not read by the body. -/
def lovsub_lock_state (fuel : Nat) (s : State) (sub : Nat) : Except Halt State :=
  if cl_lock_is_mutexed s (LockId.sub sub) then
    lovsub_lock_state_loop sub fuel s
  else
    Except.error Halt.LASSERT

/-! ### Extent mapping -/

/-- Modelled from the spec: CL_PAGE_EOF, the "to end of file" sentinel, the
word with all bits set. -/
def CL_PAGE_EOF (w : Nat) : Nat := 2 ^ w - 1

/-- Conversion of a C `int` to `unsigned long` of `w` bits. -/
def to_ulong (w : Nat) (i : Int) : Nat := (i % ((2 ^ w : Nat) : Int)).toNat

/-- Addition of `unsigned long` values of `w` bits. -/
def uadd (w a b : Nat) : Nat := (a + b) % 2 ^ w

/-- Multiplication of `unsigned long` values of `w` bits. -/
def umul (w a b : Nat) : Nat := (a * b) % 2 ^ w

/-- The function lovsub_lock_descr_map: maps start/end offsets within a
stripe to offsets within a file.  Offsets are `pgoff_t` words of
`BITS_PER_LONG` bits; a stripe size of zero pages (a division trap in C) is
outside the model. -/
def lovsub_lock_descr_map (E : Env) (d : cl_lock_descr) (lsm : lov_stripe_md)
    (stripe : Int) (out : cl_lock_descr) : cl_lock_descr :=
  let w := E.BITS_PER_LONG
  let start := d.cld_start
  let end_ := d.cld_end
  if lsm.lsm_stripe_count > 1 then
    let size := E.cl_index lsm.lsm_stripe_size
    let skip := umul w (lsm.lsm_stripe_count - 1) size
    let start1 := uadd w start (uadd w (umul w (start / size) skip)
      (umul w (to_ulong w stripe) size))
    if end_ ≠ CL_PAGE_EOF w then
      let end1 := uadd w end_ (uadd w (umul w (end_ / size) skip)
        (umul w (to_ulong w stripe) size))
      if end1 < d.cld_end then
        { out with cld_start := start1, cld_end := CL_PAGE_EOF w }
      else
        { out with cld_start := start1, cld_end := end1 }
    else
      { out with cld_start := start1, cld_end := end_ }
  else
    { out with cld_start := start, cld_end := end_ }

/-- Reference definition of §4.2 on unbounded naturals: identity for at most
one stripe; otherwise both offsets are moved by
floor(offset/size)*skip + index*size, the sentinel `eof` mapping to itself. -/
def map_extent (eof : Nat) (start end_ : Nat) (stripe_count stripe_size
    stripe_index : Nat) : Nat × Nat :=
  if stripe_count ≤ 1 then (start, end_)
  else
    let skip := (stripe_count - 1) * stripe_size
    (start + (start / stripe_size) * skip + stripe_index * stripe_size,
     if end_ = eof then eof
     else end_ + (end_ / stripe_size) * skip + stripe_index * stripe_size)

/-! ### Modification -/

/-- Modelled from the spec: cl_lock_mode_match(has, need) of cl_lock.c.
Modes are ordered by strength and a lock that has mode `has` serves a need
for mode `need` when `need` is no stronger than `has`; under this reading "a
read top lock matched against a write sub-lock remains a read lock" (§4.3 and
the comment above lov_sublock_modify) describes a call that returns. -/
def cl_lock_mode_match (has need : cl_lock_mode) : Bool :=
  decide (need ≤ has)

/-- Modelled from the spec: cl_lock_modify, "invoke the TopLock's modify
operation with the new extent".  The layers of the top-lock report a result;
when it is zero the descriptor of the top-lock becomes the one passed. -/
def cl_lock_modify (E : Env) (s : State) (p : Nat) (desc : cl_lock_descr) :
    State × Int :=
  let s1 := s.log (Event.modify p desc)
  let rc := E.clo_modify p desc
  if rc ≠ 0 then (s1, rc)
  else (s1.set_top p { s1.top p with cll_descr := desc }, 0)

/-- The function lov_sublock_modify: adjusts the parent lock extent when a
sub-lock is attached to a parent. -/
def lov_sublock_modify (E : Env) (s : State) (lov : Nat) (sublock : Nat)
    (d : cl_lock_descr) (idx : Nat) : Except Halt (State × Int) :=
  let parent_descr := (s.top lov).cll_descr
  if cl_lock_mode_match d.cld_mode parent_descr.cld_mode then
    let pd0 : cl_lock_descr :=
      { s.lti_ldescr with cld_obj := parent_descr.cld_obj,
                          cld_mode := parent_descr.cld_mode }
    let pd := lovsub_lock_descr_map E d (s.sub sublock).lso_lsm
      (s.sub sublock).lso_index pd0
    let s1 : State := { s with lti_ldescr := pd }
    let s2 := s1.set_top lov
      { s1.top lov with
        lls_sub := Function.update (s1.top lov).lls_sub idx
          { (s1.top lov).lls_sub idx with sub_got := d } }
    if E.cl_lock_ext_match (s2.top lov).cll_descr pd then
      Except.ok (s2, 0)
    else
      Except.ok (cl_lock_modify E s2 lov pd)
  else
    Except.error Halt.LASSERT

/-! ## Predicates used in the statements -/

/-- The states lovsub_lock_delete_one has a non-fatal case for. -/
def delete_state_handled (st : cl_lock_state) : Prop :=
  st = CLS_NEW ∨ st = CLS_QUEUING ∨ st = CLS_ENQUEUED ∨ st = CLS_UNLOCKING ∨
    st = CLS_CACHED ∨ st = CLS_FREEING

instance (st : cl_lock_state) : Decidable (delete_state_handled st) := by
  unfold delete_state_handled; infer_instance

/-- The invariant of §8 for one top-lock: CACHED implies every slot filled. -/
def cached_full (l : lov_lock) : Prop :=
  l.cll_state = CLS_CACHED → l.lls_nr_filled = (l.lls_nr : Int)

/-! ## Concrete memories for the scenarios -/

def descr_zero : cl_lock_descr :=
  { cld_obj := 0, cld_start := 0, cld_end := 0, cld_mode := CLM_READ }

def lsm_one : lov_stripe_md := { lsm_stripe_size := 1, lsm_stripe_count := 1 }

/-- A top-lock with `n` slots, slot `i` filled by sub-lock `10 + i`. -/
def top_filled (st : cl_lock_state) (n : Nat) : lov_lock :=
  { cll_state := st, cll_error := 0, cll_descr := descr_zero, lls_nr := n,
    lls_sub := fun i =>
      { sub_got := descr_zero, sub_descr := descr_zero,
        sub_lock := if i < n then some (10 + i) else none },
    lls_nr_filled := n, lls_unuse_race := 0 }

/-- A top-lock without slots. -/
def top_empty (st : cl_lock_state) : lov_lock :=
  { cll_state := st, cll_error := 0, cll_descr := descr_zero, lls_nr := 0,
    lls_sub := fun _ =>
      { sub_got := descr_zero, sub_descr := descr_zero, sub_lock := none },
    lls_nr_filled := 0, lls_unuse_race := 0 }

/-- A sub-lock with the given parent links and error. -/
def sub_with (parents : List lov_lock_link) (err : Int) : lovsub_lock :=
  { cll_error := err, cll_descr := descr_zero, lss_parents := parents,
    lss_active := none, lso_index := 0, lso_lsm := lsm_one }

/-- Memory for the destroy path of lovsub_lock_delete_one: top-lock 0 is
CACHED with no filled slot, and the thread holds its mutex and that of
sub-lock 7. -/
def mem_cached_empty : State :=
  { top := fun _ => top_empty CLS_CACHED,
    sub := fun _ => sub_with [] 0,
    held := [LockId.top 0, LockId.sub 7],
    trace := [],
    lti_ldescr := descr_zero }

/-- Memory of Scenario A: top-lock 0 is CACHED with 4 slots filled by the
sub-locks 10..13, each of which has top-lock 0 as its only parent; the thread
holds the mutex of sub-lock 12 (stripe 2). -/
def mem_scenario_a : State :=
  { top := fun p => if p = 0 then top_filled CLS_CACHED 4 else top_empty CLS_NEW,
    sub := fun c =>
      if 10 ≤ c ∧ c < 14 then sub_with [{ lll_super := 0, lll_idx := c - 10 }] 0
      else sub_with [] 0,
    held := [LockId.sub 12],
    trace := [],
    lti_ldescr := descr_zero }

/-- Memory in which sub-lock 12 has the HELD top-lock 0 as a parent. -/
def mem_held_parent : State :=
  { mem_scenario_a with
    top := fun p => if p = 0 then top_filled CLS_HELD 4 else top_empty CLS_NEW }

/-- How the memory at the end of (part of) a run of lovsub_lock_delete on
`sub` relates to the memory at its start: a top-lock state only ever moves
from CACHED to NEW, the invariant of §8 is kept, a link leaves the parent
list only through a handled state and never leaves a CACHED top-lock behind,
no link is added, and other sub-locks are untouched. -/
def delete_rel (sub : Nat) (s t : State) : Prop :=
  (∀ q, (t.top q).cll_state = (s.top q).cll_state ∨
    ((s.top q).cll_state = CLS_CACHED ∧ (t.top q).cll_state = CLS_NEW)) ∧
  (∀ q, cached_full (s.top q) → cached_full (t.top q)) ∧
  (∀ l ∈ (s.sub sub).lss_parents, l ∈ (t.sub sub).lss_parents ∨
    ((t.top l.lll_super).cll_state ≠ CLS_CACHED ∧
      delete_state_handled (s.top l.lll_super).cll_state)) ∧
  (∀ l ∈ (t.sub sub).lss_parents, l ∈ (s.sub sub).lss_parents) ∧
  (∀ c, c ≠ sub → t.sub c = s.sub c)

/-- Between two deletions of Scenario B the caller releases the mutex of the
sub-lock just deleted and takes the mutex of the next one. -/
def scenario_b_switch (s : State) (prev next : Nat) : State :=
  cl_lock_mutex_get (cl_lock_mutex_put s (LockId.sub prev)) (LockId.sub next)

/-- One further deletion of Scenario B, on the sub-lock `next`. -/
def scenario_b_delete (r : Except Halt State) (prev next : Nat) : Except Halt State :=
  match r with
  | Except.error e => Except.error e
  | Except.ok s => lovsub_lock_delete 1 (scenario_b_switch s prev next) next

/-- Scenario B after Scenario A and the deletion of the sub-locks 10 and 11:
one filled slot is left. -/
def mem_scenario_b_two : Except Halt State :=
  scenario_b_delete (scenario_b_delete (lovsub_lock_delete 1 mem_scenario_a 12) 12 10) 10 11

/-- Scenario B after the deletion of the last sub-lock, 13. -/
def mem_scenario_b_end : Except Halt State :=
  scenario_b_delete mem_scenario_b_two 11 13

/-- Memory that Scenario A leaves behind, at the start of Scenario B:
top-lock 0 is NEW with slots 0, 1 and 3 of 4 filled by the sub-locks 10, 11
and 13; the thread holds the mutex of sub-lock 10. -/
def mem_scenario_b : State :=
  { top := fun p =>
      if p = 0 then
        { top_filled CLS_NEW 4 with
          lls_sub := fun i =>
            { sub_got := descr_zero, sub_descr := descr_zero,
              sub_lock := if i < 4 ∧ i ≠ 2 then some (10 + i) else none },
          lls_nr_filled := 3 }
      else top_empty CLS_NEW,
    sub := fun c =>
      if c = 10 ∨ c = 11 ∨ c = 13 then sub_with [{ lll_super := 0, lll_idx := c - 10 }] 0
      else sub_with [] 0,
    held := [LockId.sub 10],
    trace := [],
    lti_ldescr := descr_zero }

/-- A 64-bit client with 4096-byte pages; extents match by containment, and
the top-lock layers accept every modification. -/
def env64 : Env :=
  { BITS_PER_LONG := 64,
    cl_index := fun off => off / 4096,
    cl_lock_ext_match := fun has need =>
      decide (has.cld_start ≤ need.cld_start ∧ need.cld_end ≤ has.cld_end),
    clo_modify := fun _ _ => 0,
    cl_lock_weigh := fun _ => 0,
    cl_lock_closure_build := fun _ => 0 }

/-- Striping of Scenario C: 3 stripes of 1000 pages. -/
def lsm_scenario_c : lov_stripe_md :=
  { lsm_stripe_size := 1000 * 4096, lsm_stripe_count := 3 }

/-- A 32-bit client with 4096-byte pages, otherwise like `env64`. -/
def env32 : Env := { env64 with BITS_PER_LONG := 32 }

/-- Striping of the overflow example: 9 stripes of 256 pages (1 MiB). -/
def lsm_nine_mib : lov_stripe_md :=
  { lsm_stripe_size := 256 * 4096, lsm_stripe_count := 9 }

/-- Scenario C: the extent [0, 9999] of a stripe. -/
def descr_scenario_c : cl_lock_descr :=
  { cld_obj := 0, cld_start := 0, cld_end := 9999, cld_mode := CLM_READ }

/-- Scenario C with the end at the end-of-file sentinel. -/
def descr_scenario_c_eof : cl_lock_descr :=
  { cld_obj := 0, cld_start := 0, cld_end := CL_PAGE_EOF 64, cld_mode := CLM_READ }

/-- An extent ending at page 2^29 of a stripe (2 TiB into the object). -/
def descr_two_tib : cl_lock_descr :=
  { cld_obj := 0, cld_start := 0, cld_end := 2 ^ 29, cld_mode := CLM_READ }

/-- The error deliveries among a list of events. -/
def error_events (evs : List Event) : List Event :=
  evs.filter (fun e => match e with
    | Event.error _ _ => true
    | _ => false)

/-- Memory of Scenario D: sub-lock 20 carries error -5 and has two parents,
top-lock 1 already failed with -4 and top-lock 2 clean. -/
def mem_scenario_d : State :=
  { top := fun p =>
      if p = 1 then { top_empty CLS_ENQUEUED with cll_error := -4 }
      else top_empty CLS_ENQUEUED,
    sub := fun c =>
      if c = 20 then
        sub_with [{ lll_super := 1, lll_idx := 0 }, { lll_super := 2, lll_idx := 0 }] (-5)
      else sub_with [] 0,
    held := [LockId.sub 20],
    trace := [],
    lti_ldescr := descr_zero }

/-- A sub-lock descriptor granted as write over the pages [0, 9999]. -/
def descr_write : cl_lock_descr :=
  { cld_obj := 7, cld_start := 0, cld_end := 9999, cld_mode := CLM_WRITE }

/-! ## lovsub_lock.c: modify, closure, weigh and fini -/

/-- The list_for_each_entry loop of lovsub_lock_modify; `result` is the
value remembered so far (`result = result ?: rc`). -/
def lovsub_lock_modify_scan (E : Env) (lock : Nat) (d : cl_lock_descr) :
    List lov_lock_link → State → Int → Except Halt (State × Int)
  | [], s, result => Except.ok (s, result)
  | scan :: rest, s, result =>
    let lov := scan.lll_super
    match lov_sublock_modify E (lovsub_parent_lock s lov) lov lock d scan.lll_idx with
    | Except.error e => Except.error e
    | Except.ok (s1, rc) =>
      lovsub_lock_modify_scan E lock d rest (lovsub_parent_unlock s1 lov)
        (if result ≠ 0 then result else rc)

/-- The function lovsub_lock_modify, the clo_modify method. -/
def lovsub_lock_modify (E : Env) (s : State) (lock : Nat) (d : cl_lock_descr) :
    Except Halt (State × Int) :=
  if cl_lock_mode_match d.cld_mode (s.sub lock).cll_descr.cld_mode then
    lovsub_lock_modify_scan E lock d (s.sub lock).lss_parents s 0
  else
    Except.error Halt.LASSERT

/-- Modelled from the spec: cl_lock_closure_build, "request inclusion of a
lock into a closure accumulator"; the call is recorded and the result is the
one the generic lock manager reports for that lock. -/
def cl_lock_closure_build (E : Env) (s : State) (p : Nat) : State × Int :=
  (s.log (Event.closure_build p), E.cl_lock_closure_build p)

/-- The list_for_each_entry loop of lovsub_lock_closure. -/
def lovsub_lock_closure_scan (E : Env) : List lov_lock_link → State → State × Int
  | [], s => (s, 0)
  | scan :: rest, s =>
    let r := cl_lock_closure_build E s scan.lll_super
    if r.2 ≠ 0 then r else lovsub_lock_closure_scan E rest r.1

/-- The function lovsub_lock_closure, the clo_closure method. -/
def lovsub_lock_closure (E : Env) (s : State) (sub : Nat) : Except Halt (State × Int) :=
  if cl_lock_is_mutexed s (LockId.sub sub) then
    Except.ok (lovsub_lock_closure_scan E (s.sub sub).lss_parents s)
  else
    Except.error Halt.LASSERT

/-- Modelled from the spec: cl_lock_weigh of the generic lock manager, the
weight a top-lock reports; the call is recorded. -/
def cl_lock_weigh (E : Env) (s : State) (p : Nat) : State × Nat :=
  (s.log (Event.weigh p), E.cl_lock_weigh p)

/-- The function lovsub_lock_weigh, the clo_weigh method. -/
def lovsub_lock_weigh (E : Env) (s : State) (lock : Nat) : Except Halt (State × Nat) :=
  if cl_lock_is_mutexed s (LockId.sub lock) then
    match (s.sub lock).lss_parents with
    | first :: _ =>
      let lov := first.lll_super
      let s1 := lovsub_parent_lock s lov
      let r := cl_lock_weigh E s1 lov
      Except.ok (lovsub_parent_unlock r.1 lov, r.2)
    | [] => Except.ok (s, 0)
  else
    Except.error Halt.LASSERT

/-- The function lovsub_lock_fini, the clo_fini method: asserts that no
parent link is left; the release of the storage is not modelled. -/
def lovsub_lock_fini (s : State) (lsl : Nat) : Except Halt State :=
  if (s.sub lsl).lss_parents = [] then Except.ok s else Except.error Halt.LASSERT

/-! ## Reference definitions for the statements of the second part -/

/-- The first non-zero value of a list of results, 0 when there is none. -/
def first_nonzero : List Int → Int
  | [] => 0
  | x :: xs => if x ≠ 0 then x else first_nonzero xs

/-- Reference reading of §4.3: lov_sublock_modify is applied to every parent
in turn, under lovsub_parent_lock and lovsub_parent_unlock, and every result
is kept. -/
def modify_each_parent (E : Env) (lock : Nat) (d : cl_lock_descr) :
    List lov_lock_link → State → Except Halt (State × List Int)
  | [], s => Except.ok (s, [])
  | scan :: rest, s =>
    match lov_sublock_modify E (lovsub_parent_lock s scan.lll_super) scan.lll_super
        lock d scan.lll_idx with
    | Except.error e => Except.error e
    | Except.ok (s1, rc) =>
      match modify_each_parent E lock d rest (lovsub_parent_unlock s1 scan.lll_super) with
      | Except.error e => Except.error e
      | Except.ok (s2, rcs) => Except.ok (s2, rc :: rcs)

/-- The parents visited (lovsub_parent_lock taking the reference) among a
list of events. -/
def parent_visits : List Event → List Nat
  | [] => []
  | Event.get p :: es => p :: parent_visits es
  | _ :: es => parent_visits es

/-- The descriptor of a write top-lock. -/
def descr_zero_write : cl_lock_descr := { descr_zero with cld_mode := CLM_WRITE }

/-- Memory in which top-lock 0 was requested as write. -/
def mem_write_top : State :=
  { mem_scenario_a with
    top := fun _ => { top_filled CLS_ENQUEUED 4 with cll_descr := descr_zero_write } }

/-- Memory in which sub-lock 12 is a lock on stripe 1 of a file of 3 stripes
of 1000 pages, filling slot 1 of the read top-lock 0. -/
def mem_striped : State :=
  { mem_scenario_a with
    sub := fun _ =>
      { sub_with [{ lll_super := 0, lll_idx := 1 }] 0 with
        lso_index := 1, lso_lsm := lsm_scenario_c } }

/-- A client whose top-lock layers refuse every modification, with -5 for
top-lock 1 and -7 for the others. -/
def env_refusing : Env :=
  { env64 with clo_modify := fun p _ => if p = 1 then -5 else -7 }

/-- Memory in which top-lock 0 is being unlocked (UNLOCKING), race-flag 0. -/
def mem_unlocking : State :=
  { mem_scenario_a with
    top := fun _ => top_filled CLS_UNLOCKING 4,
    held := [LockId.top 0, LockId.sub 12] }

/-- Memory in which sub-lock 20 has the three parents 1, 2 and 3. -/
def mem_three_parents : State :=
  { top := fun _ => top_empty CLS_ENQUEUED,
    sub := fun _ =>
      sub_with [{ lll_super := 1, lll_idx := 0 }, { lll_super := 2, lll_idx := 0 },
        { lll_super := 3, lll_idx := 0 }] 0,
    held := [LockId.sub 20],
    trace := [],
    lti_ldescr := descr_zero }

/-- A client whose closure-builder fails with -11 on top-lock 2 only, and
where top-lock `p` weighs `100 + p`. -/
def env_closure : Env :=
  { env64 with
    cl_lock_closure_build := fun p => if p = 2 then -11 else 0,
    cl_lock_weigh := fun p => 100 + p }

/-- Memory in which sub-lock 10 fills the only slot of the CACHED top-lock 0
and the thread holds the mutex of sub-lock 10 only. -/
def mem_last_sublock : State :=
  { top := fun _ => top_filled CLS_CACHED 1,
    sub := fun _ => sub_with [{ lll_super := 0, lll_idx := 0 }] 0,
    held := [LockId.sub 10],
    trace := [],
    lti_ldescr := descr_zero }

/-! ## The mutex protocol of the restart loops, as a checker of traces -/

/-- What a run of lovsub_lock_state or lovsub_lock_delete on a sub-lock has
in hand at one moment: the top-lock it took a reference on, the top-lock
whose mutex it took, and whether the mutex of the sub-lock is held. -/
structure Protocol where
  ref : Option Nat
  mtx : Option Nat
  child : Bool
deriving DecidableEq, Repr

/-- Between two parents: nothing of a top-lock in hand, sub-lock mutex held. -/
def protocol_idle : Protocol := { ref := none, mtx := none, child := true }

/-- After the sub-lock mutex was released and the parent unlocked. -/
def protocol_released : Protocol := { ref := none, mtx := none, child := false }

/-- One event checked against the protocol for sub-lock `c`.  A reference is
taken only with nothing in hand and the sub-lock mutex held (a new parent is
started only after the re-acquire); the mutex of a top-lock is taken only
for the referenced top-lock and only while no top-lock mutex taken by the
run is held; it is released only if it is the one the run holds; the reference is dropped only after
the mutex; the sub-lock mutex is released only while held and re-acquired
only while released and no top-lock mutex is held.  Any other event leaves
the protocol state alone; `none` is a violation. -/
def protocol_step (c : Nat) (st : Protocol) : Event → Option Protocol
  | Event.get p =>
    if st.ref = none ∧ st.mtx = none ∧ st.child = true then
      some { st with ref := some p } else none
  | Event.mutex_get (LockId.top p) =>
    if st.ref = some p ∧ st.mtx = none then some { st with mtx := some p } else none
  | Event.mutex_put (LockId.top p) =>
    if st.mtx = some p then some { st with mtx := none } else none
  | Event.put p =>
    if st.ref = some p ∧ st.mtx = none then some { st with ref := none } else none
  | Event.mutex_put (LockId.sub q) =>
    if q = c then (if st.child = true then some { st with child := false } else none)
    else some st
  | Event.mutex_get (LockId.sub q) =>
    if q = c then
      (if st.child = false ∧ st.mtx = none then some { st with child := true } else none)
    else some st
  | _ => some st

/-- A list of events checked against the protocol, from state `st`. -/
def protocol_run (c : Nat) : Protocol → List Event → Option Protocol
  | st, [] => some st
  | st, e :: es =>
    match protocol_step c st e with
    | none => none
    | some st1 => protocol_run c st1 es

/-! ## The mutices held along a run, replayed from its events -/

/-- The effect of one event on the list of mutices held by the thread:
cl_lock_mutex_get adds the mutex, cl_lock_mutex_put removes it. -/
def held_step (h : List LockId) : Event → List LockId
  | Event.mutex_get m => m :: h
  | Event.mutex_put m => h.erase m
  | _ => h

/-- The mutices held after the events `evs`, starting from the list `h`. -/
def held_replay (h : List LockId) (evs : List Event) : List LockId :=
  evs.foldl held_step h

/-- Whether a mutex is the mutex of a top-lock. -/
def is_top_mutex : LockId → Bool
  | LockId.top _ => true
  | LockId.sub _ => false

/-- The number of top-lock mutices in a list of held mutices. -/
def top_mutices (h : List LockId) : Nat := h.countP is_top_mutex

/-- The largest number of top-lock mutices held at any point of the events
`evs` (before the first, between two, after the last), starting from `h`. -/
def max_top_mutices : List LockId → List Event → Nat
  | h, [] => top_mutices h
  | h, e :: es => max (top_mutices h) (max_top_mutices (held_step h e) es)

/-- A stretch of a run on sub-lock `c` that starts with the mutices `h` held
and ends with `h1` held is balanced when its events pass the protocol checker
from idle to idle, replaying them from `h` gives `h1`, `h1` holds the same
mutices as `h`, and at no point more than one top-lock mutex is held beyond
the ones in `h`. -/
def balanced_run (c : Nat) (h : List LockId) (evs : List Event) (h1 : List LockId) : Prop :=
  protocol_run c protocol_idle evs = some protocol_idle ∧
  held_replay h evs = h1 ∧
  h1.Perm h ∧
  max_top_mutices h evs ≤ top_mutices h + 1

/-- Memory of the last sub-lock of a CACHED top-lock, entered by a thread
that also holds the mutex of top-lock 5. -/
def mem_caller_holds_top : State :=
  { mem_last_sublock with held := [LockId.top 5, LockId.sub 10] }

/-! ## Theorems -/

section primitives

@[simp] theorem set_top_top (s : State) (p : Nat) (l : lov_lock) :
    (s.set_top p l).top = Function.update s.top p l := rfl

@[simp] theorem set_top_sub (s : State) (p : Nat) (l : lov_lock) :
    (s.set_top p l).sub = s.sub := rfl

@[simp] theorem set_top_held (s : State) (p : Nat) (l : lov_lock) :
    (s.set_top p l).held = s.held := rfl

@[simp] theorem set_top_trace (s : State) (p : Nat) (l : lov_lock) :
    (s.set_top p l).trace = s.trace := rfl

@[simp] theorem set_sub_top (s : State) (c : Nat) (l : lovsub_lock) :
    (s.set_sub c l).top = s.top := rfl

@[simp] theorem set_sub_sub (s : State) (c : Nat) (l : lovsub_lock) :
    (s.set_sub c l).sub = Function.update s.sub c l := rfl

@[simp] theorem set_sub_held (s : State) (c : Nat) (l : lovsub_lock) :
    (s.set_sub c l).held = s.held := rfl

@[simp] theorem set_sub_trace (s : State) (c : Nat) (l : lovsub_lock) :
    (s.set_sub c l).trace = s.trace := rfl

@[simp] theorem log_top (s : State) (e : Event) : (s.log e).top = s.top := rfl

@[simp] theorem log_sub (s : State) (e : Event) : (s.log e).sub = s.sub := rfl

@[simp] theorem log_held (s : State) (e : Event) : (s.log e).held = s.held := rfl

@[simp] theorem log_trace (s : State) (e : Event) :
    (s.log e).trace = s.trace ++ [e] := rfl

@[simp] theorem mutex_get_top (s : State) (m : LockId) :
    (cl_lock_mutex_get s m).top = s.top := rfl

@[simp] theorem mutex_get_sub (s : State) (m : LockId) :
    (cl_lock_mutex_get s m).sub = s.sub := rfl

@[simp] theorem mutex_get_held (s : State) (m : LockId) :
    (cl_lock_mutex_get s m).held = m :: s.held := rfl

@[simp] theorem mutex_get_trace (s : State) (m : LockId) :
    (cl_lock_mutex_get s m).trace = s.trace ++ [Event.mutex_get m] := rfl

@[simp] theorem mutex_put_top (s : State) (m : LockId) :
    (cl_lock_mutex_put s m).top = s.top := rfl

@[simp] theorem mutex_put_sub (s : State) (m : LockId) :
    (cl_lock_mutex_put s m).sub = s.sub := rfl

@[simp] theorem mutex_put_held (s : State) (m : LockId) :
    (cl_lock_mutex_put s m).held = s.held.erase m := rfl

@[simp] theorem mutex_put_trace (s : State) (m : LockId) :
    (cl_lock_mutex_put s m).trace = s.trace ++ [Event.mutex_put m] := rfl

end primitives

section delete_one

/-- The CACHED branch that destroys the emptied top-lock. -/
theorem delete_one_cached_destroy (s : State) (child lov : Nat)
    (hst : (s.top lov).cll_state = CLS_CACHED)
    (h0 : (s.top lov).lls_nr_filled = 0) (h2 : cl_lock_nr_mutexed s = 2) :
    lovsub_lock_delete_one s child lov =
      Except.ok (cl_lock_delete (cl_lock_cancel (cl_lock_mutex_put
        (cl_lock_state_set s lov CLS_NEW) (LockId.sub child)) lov) lov, 1) := by
  have h2a : s.held.length = 2 := h2
  simp [lovsub_lock_delete_one, hst, cl_lock_state_set, cl_lock_nr_mutexed, h0, h2a]

/-- The CACHED branch that only demotes the top-lock. -/
theorem delete_one_cached_keep (s : State) (child lov : Nat)
    (hst : (s.top lov).cll_state = CLS_CACHED)
    (h : ¬ ((s.top lov).lls_nr_filled = 0 ∧ cl_lock_nr_mutexed s = 2)) :
    lovsub_lock_delete_one s child lov =
      Except.ok (cl_lock_state_set s lov CLS_NEW, 0) := by
  have h2a : ¬ ((s.top lov).lls_nr_filled = 0 ∧ s.held.length = 2) := h
  by_cases h0 : (s.top lov).lls_nr_filled = 0
  · have : ¬ s.held.length = 2 := fun h2 => h2a ⟨h0, h2⟩
    simp [lovsub_lock_delete_one, hst, cl_lock_state_set, cl_lock_nr_mutexed, h0, this]
  · simp [lovsub_lock_delete_one, hst, cl_lock_state_set, cl_lock_nr_mutexed, h0]

/-- C1: in lovsub_lock_delete_one a CACHED parent always becomes NEW; it is
cancelled and deleted exactly when its fill count is zero and exactly two
mutices are held, in which case the sub-lock mutex is released before the
cancel and the result is 1; in every other CACHED case nothing is cancelled,
the held mutices are unchanged and the result is 0. -/
theorem lovsub_lock_delete_one_cached (s : State) (child lov : Nat)
    (hst : (s.top lov).cll_state = CLS_CACHED) :
    ∃ s1 r evs, lovsub_lock_delete_one s child lov = Except.ok (s1, r) ∧
      s1.trace = s.trace ++ evs ∧
      (s1.top lov).cll_state = CLS_NEW ∧
      ((Event.cancel lov ∈ evs ∧ Event.delete lov ∈ evs) ↔
        ((s.top lov).lls_nr_filled = 0 ∧ cl_lock_nr_mutexed s = 2)) ∧
      (((s.top lov).lls_nr_filled = 0 ∧ cl_lock_nr_mutexed s = 2) →
        r = 1 ∧
        evs = [Event.state_set lov CLS_NEW, Event.mutex_put (LockId.sub child),
               Event.cancel lov, Event.delete lov] ∧
        s1.held = s.held.erase (LockId.sub child)) ∧
      (¬ ((s.top lov).lls_nr_filled = 0 ∧ cl_lock_nr_mutexed s = 2) →
        r = 0 ∧ evs = [Event.state_set lov CLS_NEW] ∧ s1.held = s.held ∧
        (∀ q, Event.cancel q ∉ evs ∧ Event.delete q ∉ evs)) := by
  by_cases h : (s.top lov).lls_nr_filled = 0 ∧ cl_lock_nr_mutexed s = 2
  · refine ⟨_, 1, [Event.state_set lov CLS_NEW, Event.mutex_put (LockId.sub child),
      Event.cancel lov, Event.delete lov],
      delete_one_cached_destroy s child lov hst h.1 h.2, ?_, ?_, ?_, ?_, ?_⟩
    · simp [cl_lock_delete, cl_lock_cancel, cl_lock_state_set]
    · simp [cl_lock_delete, cl_lock_cancel, cl_lock_state_set]
    · simp [h]
    · intro _; simp [cl_lock_delete, cl_lock_cancel, cl_lock_state_set]
    · intro h1; exact absurd h h1
  · refine ⟨_, 0, [Event.state_set lov CLS_NEW],
      delete_one_cached_keep s child lov hst h, ?_, ?_, ?_, ?_, ?_⟩
    · simp [cl_lock_state_set]
    · simp [cl_lock_state_set]
    · simp [h]
    · intro h1; exact absurd h1 h
    · intro _; simp [cl_lock_state_set]

end delete_one

/-- Witness for C1: the destroy path on a concrete memory. -/
theorem lovsub_lock_delete_one_cached_witness :
    (mem_cached_empty.top 0).cll_state = CLS_CACHED ∧
    ∃ s1 r evs, lovsub_lock_delete_one mem_cached_empty 7 0 = Except.ok (s1, r) ∧
      s1.trace = mem_cached_empty.trace ++ evs ∧
      (s1.top 0).cll_state = CLS_NEW ∧
      ((Event.cancel 0 ∈ evs ∧ Event.delete 0 ∈ evs) ↔
        ((mem_cached_empty.top 0).lls_nr_filled = 0 ∧
          cl_lock_nr_mutexed mem_cached_empty = 2)) ∧
      (((mem_cached_empty.top 0).lls_nr_filled = 0 ∧
          cl_lock_nr_mutexed mem_cached_empty = 2) →
        r = 1 ∧
        evs = [Event.state_set 0 CLS_NEW, Event.mutex_put (LockId.sub 7),
               Event.cancel 0, Event.delete 0] ∧
        s1.held = mem_cached_empty.held.erase (LockId.sub 7)) ∧
      (¬ ((mem_cached_empty.top 0).lls_nr_filled = 0 ∧
          cl_lock_nr_mutexed mem_cached_empty = 2) →
        r = 0 ∧ evs = [Event.state_set 0 CLS_NEW] ∧ s1.held = mem_cached_empty.held ∧
        (∀ q, Event.cancel q ∉ evs ∧ Event.delete q ∉ evs)) :=
  ⟨rfl, lovsub_lock_delete_one_cached mem_cached_empty 7 0 rfl⟩

section delete_cases

/-- The five ways lovsub_lock_delete_one can go, by the state of the parent. -/
theorem delete_one_cases (s : State) (child lov : Nat) :
    (((s.top lov).cll_state = CLS_NEW ∨ (s.top lov).cll_state = CLS_QUEUING ∨
        (s.top lov).cll_state = CLS_ENQUEUED ∨ (s.top lov).cll_state = CLS_FREEING) ∧
      lovsub_lock_delete_one s child lov = Except.ok (cl_lock_signal s lov, 0)) ∨
    ((s.top lov).cll_state = CLS_UNLOCKING ∧
      lovsub_lock_delete_one s child lov =
        Except.ok (s.set_top lov { s.top lov with lls_unuse_race := 1 }, 0)) ∨
    ((s.top lov).cll_state = CLS_CACHED ∧
      ((s.top lov).lls_nr_filled = 0 ∧ cl_lock_nr_mutexed s = 2) ∧
      lovsub_lock_delete_one s child lov =
        Except.ok (cl_lock_delete (cl_lock_cancel (cl_lock_mutex_put
          (cl_lock_state_set s lov CLS_NEW) (LockId.sub child)) lov) lov, 1)) ∨
    ((s.top lov).cll_state = CLS_CACHED ∧
      ¬ ((s.top lov).lls_nr_filled = 0 ∧ cl_lock_nr_mutexed s = 2) ∧
      lovsub_lock_delete_one s child lov =
        Except.ok (cl_lock_state_set s lov CLS_NEW, 0)) ∨
    (¬ delete_state_handled (s.top lov).cll_state ∧
      lovsub_lock_delete_one s child lov = Except.error Halt.LBUG) := by
  by_cases h1 : (s.top lov).cll_state = CLS_NEW ∨ (s.top lov).cll_state = CLS_QUEUING ∨
      (s.top lov).cll_state = CLS_ENQUEUED ∨ (s.top lov).cll_state = CLS_FREEING
  · left
    exact ⟨h1, by simp only [lovsub_lock_delete_one, if_pos h1]⟩
  · right
    by_cases h2 : (s.top lov).cll_state = CLS_UNLOCKING
    · left
      exact ⟨h2, by simp only [lovsub_lock_delete_one, if_neg h1, if_pos h2]⟩
    · right
      by_cases h3 : (s.top lov).cll_state = CLS_CACHED
      · by_cases h : (s.top lov).lls_nr_filled = 0 ∧ cl_lock_nr_mutexed s = 2
        · left
          exact ⟨h3, h, delete_one_cached_destroy s child lov h3 h.1 h.2⟩
        · right; left
          exact ⟨h3, h, delete_one_cached_keep s child lov h3 h⟩
      · right; right
        refine ⟨?_, by simp only [lovsub_lock_delete_one, if_neg h1, if_neg h2, if_neg h3]⟩
        unfold delete_state_handled
        tauto

end delete_cases

section delete_step

/-- The memory lovsub_lock_delete_one is called on inside one turn of the
loop of lovsub_lock_delete. -/
theorem delete_step_unfold (s : State) (sub : Nat) (scan : lov_lock_link) :
    ∃ s3 : State,
      s3.sub = Function.update s.sub sub
        { s.sub sub with lss_parents := (s.sub sub).lss_parents.erase scan } ∧
      (∀ q, q ≠ scan.lll_super → s3.top q = s.top q) ∧
      (s3.top scan.lll_super).cll_state = (s.top scan.lll_super).cll_state ∧
      (s3.top scan.lll_super).cll_error = (s.top scan.lll_super).cll_error ∧
      (s3.top scan.lll_super).cll_descr = (s.top scan.lll_super).cll_descr ∧
      (s3.top scan.lll_super).lls_nr = (s.top scan.lll_super).lls_nr ∧
      (s3.top scan.lll_super).lls_unuse_race = (s.top scan.lll_super).lls_unuse_race ∧
      (s3.top scan.lll_super).lls_nr_filled = (s.top scan.lll_super).lls_nr_filled - 1 ∧
      (s3.top scan.lll_super).lls_sub =
        Function.update (s.top scan.lll_super).lls_sub scan.lll_idx
          { sub_got := ((s.top scan.lll_super).lls_sub scan.lll_idx).sub_descr,
            sub_descr := ((s.top scan.lll_super).lls_sub scan.lll_idx).sub_descr,
            sub_lock := none } ∧
      s3.held = LockId.top scan.lll_super :: s.held ∧
      s3.trace = s.trace ++ [Event.get scan.lll_super,
        Event.mutex_get (LockId.top scan.lll_super),
        Event.unlink scan.lll_super scan.lll_idx sub] ∧
      lovsub_lock_delete_step s sub scan =
        (match lovsub_lock_delete_one s3 sub scan.lll_super with
         | Except.error e => Except.error e
         | Except.ok (s4, restart) =>
            Except.ok (lovsub_parent_unlock s4 scan.lll_super, restart)) := by
  refine ⟨_, ?_, ?_, ?_, ?_, ?_, ?_, ?_, ?_, ?_, ?_, ?_, rfl⟩
  · simp [lov_lock_unlink, lovsub_parent_lock]
  · intro q hq
    simp [lov_lock_unlink, lovsub_parent_lock, Function.update_noteq hq]
  all_goals simp [lov_lock_unlink, lovsub_parent_lock]

/-- What one turn of the loop of lovsub_lock_delete does when it returns. -/
theorem delete_step_ok (s : State) (sub : Nat) (scan : lov_lock_link)
    (s1 : State) (r : Int)
    (h : lovsub_lock_delete_step s sub scan = Except.ok (s1, r)) :
    s1.sub = Function.update s.sub sub
      { s.sub sub with lss_parents := (s.sub sub).lss_parents.erase scan } ∧
    (∀ q, q ≠ scan.lll_super → s1.top q = s.top q) ∧
    delete_state_handled (s.top scan.lll_super).cll_state ∧
    (s1.top scan.lll_super).cll_state =
      (if (s.top scan.lll_super).cll_state = CLS_CACHED then CLS_NEW
       else (s.top scan.lll_super).cll_state) ∧
    (s1.top scan.lll_super).cll_error = (s.top scan.lll_super).cll_error ∧
    (s1.top scan.lll_super).cll_descr = (s.top scan.lll_super).cll_descr ∧
    (s1.top scan.lll_super).lls_nr = (s.top scan.lll_super).lls_nr ∧
    (s1.top scan.lll_super).lls_nr_filled = (s.top scan.lll_super).lls_nr_filled - 1 ∧
    (s1.top scan.lll_super).lls_sub =
      Function.update (s.top scan.lll_super).lls_sub scan.lll_idx
        { sub_got := ((s.top scan.lll_super).lls_sub scan.lll_idx).sub_descr,
          sub_descr := ((s.top scan.lll_super).lls_sub scan.lll_idx).sub_descr,
          sub_lock := none } ∧
    (r = 0 ∨ r = 1) ∧
    (r = 1 ↔ ((s.top scan.lll_super).cll_state = CLS_CACHED ∧
      (s.top scan.lll_super).lls_nr_filled - 1 = 0 ∧ s.held.length + 1 = 2)) ∧
    (r = 0 → s1.held = s.held) ∧
    (∃ evs, s1.trace = s.trace ++ evs ∧
      (r = 0 → ∀ q, Event.cancel q ∉ evs ∧ Event.delete q ∉ evs)) := by
  obtain ⟨s3, hsub, htop, hst, herr, hdescr, hnr, hrace, hfill, hslots, hheld, htrace, heq⟩ :=
    delete_step_unfold s sub scan
  rw [heq] at h
  have hlen : cl_lock_nr_mutexed s3 = s.held.length + 1 := by
    simp [cl_lock_nr_mutexed, hheld]
  rcases delete_one_cases s3 sub scan.lll_super with
    ⟨hc, e⟩ | ⟨hc, e⟩ | ⟨hc, hd, e⟩ | ⟨hc, hd, e⟩ | ⟨hc, e⟩
  · rw [e] at h
    simp only [Except.ok.injEq, Prod.mk.injEq] at h
    obtain ⟨rfl, rfl⟩ := h
    rw [hst] at hc
    have hnc : (s.top scan.lll_super).cll_state ≠ CLS_CACHED := by
      rcases hc with h | h | h | h <;> rw [h] <;> decide
    refine ⟨?_, ?_, ?_, ?_, ?_, ?_, ?_, ?_, ?_, ?_, ?_, ?_, ?_⟩
    · simpa [lovsub_parent_unlock, cl_lock_signal] using hsub
    · intro q hq; simpa [lovsub_parent_unlock, cl_lock_signal] using htop q hq
    · unfold delete_state_handled; tauto
    · simp [lovsub_parent_unlock, cl_lock_signal, hst, hnc]
    · simpa [lovsub_parent_unlock, cl_lock_signal] using herr
    · simpa [lovsub_parent_unlock, cl_lock_signal] using hdescr
    · simpa [lovsub_parent_unlock, cl_lock_signal] using hnr
    · simpa [lovsub_parent_unlock, cl_lock_signal] using hfill
    · simpa [lovsub_parent_unlock, cl_lock_signal] using hslots
    · simp
    · simp [hnc]
    · intro _
      simp [lovsub_parent_unlock, cl_lock_signal, hheld]
    · refine ⟨[Event.get scan.lll_super, Event.mutex_get (LockId.top scan.lll_super),
        Event.unlink scan.lll_super scan.lll_idx sub, Event.signal scan.lll_super,
        Event.mutex_put (LockId.top scan.lll_super), Event.put scan.lll_super], ?_, ?_⟩
      · simp [lovsub_parent_unlock, cl_lock_signal, htrace]
      · intro _ q; simp
  · rw [e] at h
    simp only [Except.ok.injEq, Prod.mk.injEq] at h
    obtain ⟨rfl, rfl⟩ := h
    rw [hst] at hc
    have hnc : (s.top scan.lll_super).cll_state ≠ CLS_CACHED := by
      rw [hc]; decide
    refine ⟨?_, ?_, ?_, ?_, ?_, ?_, ?_, ?_, ?_, ?_, ?_, ?_, ?_⟩
    · simpa [lovsub_parent_unlock] using hsub
    · intro q hq
      simpa [lovsub_parent_unlock, Function.update_noteq hq] using htop q hq
    · unfold delete_state_handled; tauto
    · simp [lovsub_parent_unlock, hst, hnc]
    · simpa [lovsub_parent_unlock] using herr
    · simpa [lovsub_parent_unlock] using hdescr
    · simpa [lovsub_parent_unlock] using hnr
    · simpa [lovsub_parent_unlock] using hfill
    · simpa [lovsub_parent_unlock] using hslots
    · simp
    · simp [hnc]
    · intro _
      simp [lovsub_parent_unlock, hheld]
    · refine ⟨[Event.get scan.lll_super, Event.mutex_get (LockId.top scan.lll_super),
        Event.unlink scan.lll_super scan.lll_idx sub,
        Event.mutex_put (LockId.top scan.lll_super), Event.put scan.lll_super], ?_, ?_⟩
      · simp [lovsub_parent_unlock, htrace]
      · intro _ q; simp
  · rw [e] at h
    simp only [Except.ok.injEq, Prod.mk.injEq] at h
    obtain ⟨rfl, rfl⟩ := h
    rw [hst] at hc
    rw [hfill, hlen] at hd
    refine ⟨?_, ?_, ?_, ?_, ?_, ?_, ?_, ?_, ?_, ?_, ?_, ?_, ?_⟩
    · simpa [lovsub_parent_unlock, cl_lock_delete, cl_lock_cancel, cl_lock_state_set]
        using hsub
    · intro q hq
      simpa [lovsub_parent_unlock, cl_lock_delete, cl_lock_cancel, cl_lock_state_set,
        Function.update_noteq hq] using htop q hq
    · unfold delete_state_handled; tauto
    · simp [lovsub_parent_unlock, cl_lock_delete, cl_lock_cancel, cl_lock_state_set, hc]
    · simpa [lovsub_parent_unlock, cl_lock_delete, cl_lock_cancel, cl_lock_state_set]
        using herr
    · simpa [lovsub_parent_unlock, cl_lock_delete, cl_lock_cancel, cl_lock_state_set]
        using hdescr
    · simpa [lovsub_parent_unlock, cl_lock_delete, cl_lock_cancel, cl_lock_state_set]
        using hnr
    · simpa [lovsub_parent_unlock, cl_lock_delete, cl_lock_cancel, cl_lock_state_set]
        using hfill
    · simpa [lovsub_parent_unlock, cl_lock_delete, cl_lock_cancel, cl_lock_state_set]
        using hslots
    · simp
    · simp [hc, hd]
    · intro h0; simp at h0
    · refine ⟨[Event.get scan.lll_super, Event.mutex_get (LockId.top scan.lll_super),
        Event.unlink scan.lll_super scan.lll_idx sub,
        Event.state_set scan.lll_super CLS_NEW, Event.mutex_put (LockId.sub sub),
        Event.cancel scan.lll_super, Event.delete scan.lll_super,
        Event.mutex_put (LockId.top scan.lll_super), Event.put scan.lll_super], ?_, ?_⟩
      · simp [lovsub_parent_unlock, cl_lock_delete, cl_lock_cancel, cl_lock_state_set, htrace]
      · intro h0; simp at h0
  · rw [e] at h
    simp only [Except.ok.injEq, Prod.mk.injEq] at h
    obtain ⟨rfl, rfl⟩ := h
    rw [hst] at hc
    rw [hfill, hlen] at hd
    refine ⟨?_, ?_, ?_, ?_, ?_, ?_, ?_, ?_, ?_, ?_, ?_, ?_, ?_⟩
    · simpa [lovsub_parent_unlock, cl_lock_state_set] using hsub
    · intro q hq
      simpa [lovsub_parent_unlock, cl_lock_state_set, Function.update_noteq hq]
        using htop q hq
    · unfold delete_state_handled; tauto
    · simp [lovsub_parent_unlock, cl_lock_state_set, hc]
    · simpa [lovsub_parent_unlock, cl_lock_state_set] using herr
    · simpa [lovsub_parent_unlock, cl_lock_state_set] using hdescr
    · simpa [lovsub_parent_unlock, cl_lock_state_set] using hnr
    · simpa [lovsub_parent_unlock, cl_lock_state_set] using hfill
    · simpa [lovsub_parent_unlock, cl_lock_state_set] using hslots
    · simp
    · constructor
      · intro h0; simp at h0
      · intro h0; exact absurd h0.2 hd
    · intro _
      simp [lovsub_parent_unlock, cl_lock_state_set, hheld]
    · refine ⟨[Event.get scan.lll_super, Event.mutex_get (LockId.top scan.lll_super),
        Event.unlink scan.lll_super scan.lll_idx sub,
        Event.state_set scan.lll_super CLS_NEW,
        Event.mutex_put (LockId.top scan.lll_super), Event.put scan.lll_super], ?_, ?_⟩
      · simp [lovsub_parent_unlock, cl_lock_state_set, htrace]
      · intro _ q; simp
  · rw [e] at h
    simp at h

end delete_step

section delete_loop

theorem handled_of_moved {a b : cl_lock_state}
    (h : b = a ∨ (a = CLS_CACHED ∧ b = CLS_NEW)) :
    delete_state_handled b ↔ delete_state_handled a := by
  rcases h with h | ⟨h1, h2⟩
  · rw [h]
  · rw [h1, h2]; unfold delete_state_handled; decide

theorem delete_rel_refl (sub : Nat) (s : State) : delete_rel sub s s :=
  ⟨fun _ => Or.inl rfl, fun _ h => h, fun _ h => Or.inl h, fun _ h => h, fun _ _ => rfl⟩

theorem delete_rel_trans {sub : Nat} {s t u : State}
    (h1 : delete_rel sub s t) (h2 : delete_rel sub t u) : delete_rel sub s u := by
  obtain ⟨a1, b1, c1, d1, e1⟩ := h1
  obtain ⟨a2, b2, c2, d2, e2⟩ := h2
  refine ⟨?_, fun q h => b2 q (b1 q h), ?_, fun l h => d1 l (d2 l h), ?_⟩
  · intro q
    rcases a2 q with h | ⟨h, h'⟩
    · rw [h]; exact a1 q
    · rcases a1 q with g | ⟨g, g'⟩
      · right; exact ⟨by rw [← g]; exact h, h'⟩
      · right; exact ⟨g, h'⟩
  · intro l hl
    rcases c1 l hl with h | ⟨h, h'⟩
    · rcases c2 l h with g | ⟨g, g'⟩
      · exact Or.inl g
      · exact Or.inr ⟨g, (handled_of_moved (a1 l.lll_super)).1 g'⟩
    · right
      refine ⟨?_, h'⟩
      rcases a2 l.lll_super with g | ⟨g, g'⟩
      · rw [g]; exact h
      · rw [g']; decide
  · intro c hc
    rw [e2 c hc, e1 c hc]

theorem delete_rel_mutex_get (sub : Nat) (s : State) (m : LockId) :
    delete_rel sub s (cl_lock_mutex_get s m) :=
  ⟨fun _ => Or.inl rfl, fun _ h => h, fun _ h => Or.inl h, fun _ h => h, fun _ _ => rfl⟩

/-- One turn of the loop of lovsub_lock_delete is within `delete_rel`. -/
theorem delete_step_rel (s : State) (sub : Nat) (scan : lov_lock_link)
    (s1 : State) (r : Int)
    (h : lovsub_lock_delete_step s sub scan = Except.ok (s1, r)) :
    delete_rel sub s s1 := by
  obtain ⟨hsub, htop, hh, hst, -, -, hnr, hfill, -, -, -, -, -⟩ :=
    delete_step_ok s sub scan s1 r h
  have hnc : (s1.top scan.lll_super).cll_state ≠ CLS_CACHED := by
    rw [hst]; split
    · decide
    · assumption
  refine ⟨?_, ?_, ?_, ?_, ?_⟩
  · intro q
    by_cases hq : q = scan.lll_super
    · subst hq
      rw [hst]
      by_cases hc : (s.top scan.lll_super).cll_state = CLS_CACHED
      · right; simp [hc]
      · left; simp [hc]
    · left; rw [htop q hq]
  · intro q hfull
    by_cases hq : q = scan.lll_super
    · subst hq
      intro hc; exact absurd hc hnc
    · rw [htop q hq]; exact hfull
  · intro l hl
    by_cases hls : l = scan
    · subst hls; exact Or.inr ⟨hnc, hh⟩
    · left
      rw [hsub]; simp
      exact (List.mem_erase_of_ne hls).2 hl
  · intro l hl
    rw [hsub] at hl; simp at hl
    exact List.mem_of_mem_erase hl
  · intro c hc
    rw [hsub]; simp [Function.update_noteq hc]

/-- One turn of the loop stops only by LBUG, on an unhandled state. -/
theorem delete_step_error (s : State) (sub : Nat) (scan : lov_lock_link) (e : Halt)
    (h : lovsub_lock_delete_step s sub scan = Except.error e) :
    e = Halt.LBUG ∧ ¬ delete_state_handled (s.top scan.lll_super).cll_state := by
  obtain ⟨s3, -, -, hst, -, -, -, -, -, -, -, -, heq⟩ := delete_step_unfold s sub scan
  rw [heq] at h
  rcases delete_one_cases s3 sub scan.lll_super with
    ⟨_, e1⟩ | ⟨_, e1⟩ | ⟨_, _, e1⟩ | ⟨_, _, e1⟩ | ⟨hc, e1⟩
  · rw [e1] at h; simp at h
  · rw [e1] at h; simp at h
  · rw [e1] at h; simp at h
  · rw [e1] at h; simp at h
  · rw [e1] at h
    simp only [Except.error.injEq] at h
    rw [hst] at hc
    exact ⟨h.symm, hc⟩

/-- A pass over the parent links is within `delete_rel`; when the list
scanned is the live parent list, a pass without restart empties it and a
pass with restart shortens it. -/
theorem delete_scan_ok (sub : Nat) (links : List lov_lock_link) :
    ∀ (s s1 : State) (r : Int),
      lovsub_lock_delete_scan sub links s = Except.ok (s1, r) →
      delete_rel sub s s1 ∧ (r = 0 ∨ r = 1) ∧
      ((s.sub sub).lss_parents = links →
        (r = 0 → (s1.sub sub).lss_parents = []) ∧
        (r ≠ 0 → (s1.sub sub).lss_parents.length < links.length)) := by
  induction links with
  | nil =>
    intro s s1 r h
    simp only [lovsub_lock_delete_scan, Except.ok.injEq, Prod.mk.injEq] at h
    obtain ⟨rfl, rfl⟩ := h
    exact ⟨delete_rel_refl sub s, Or.inl rfl, fun hl => ⟨fun _ => hl, fun h => absurd rfl h⟩⟩
  | cons scan rest ih =>
    intro s s1 r h
    rw [lovsub_lock_delete_scan] at h
    cases hstep : lovsub_lock_delete_step s sub scan with
    | error e => rw [hstep] at h; simp at h
    | ok res =>
      obtain ⟨s2, r2⟩ := res
      rw [hstep] at h
      simp only at h
      have hrel := delete_step_rel s sub scan s2 r2 hstep
      obtain ⟨hsub, -, -, -, -, -, -, -, -, hr01, -, -, -⟩ := delete_step_ok s sub scan s2 r2 hstep
      by_cases hr : r2 ≠ 0
      · rw [if_pos hr] at h
        simp only [Except.ok.injEq, Prod.mk.injEq] at h
        obtain ⟨rfl, rfl⟩ := h
        refine ⟨delete_rel_trans hrel (delete_rel_mutex_get sub s2 _), hr01, ?_⟩
        intro hlive
        refine ⟨fun h0 => absurd h0 hr, fun _ => ?_⟩
        simp [hsub, hlive]
      · rw [if_neg hr] at h
        obtain ⟨hrel2, h01, hlen⟩ := ih s2 s1 r h
        refine ⟨delete_rel_trans hrel hrel2, h01, ?_⟩
        intro hlive
        have hlive2 : (s2.sub sub).lss_parents = rest := by
          simp [hsub, hlive]
        obtain ⟨ha, hb⟩ := hlen hlive2
        refine ⟨ha, fun h0 => ?_⟩
        have := hb h0
        simp only [List.length_cons]
        omega

/-- A pass over the parent links stops only by LBUG, on a link whose
top-lock is in an unhandled state. -/
theorem delete_scan_error (sub : Nat) (links : List lov_lock_link) :
    ∀ (s : State) (e : Halt),
      lovsub_lock_delete_scan sub links s = Except.error e →
      e = Halt.LBUG ∧ ∃ l ∈ links, ¬ delete_state_handled (s.top l.lll_super).cll_state := by
  induction links with
  | nil =>
    intro s e h
    simp [lovsub_lock_delete_scan] at h
  | cons scan rest ih =>
    intro s e h
    rw [lovsub_lock_delete_scan] at h
    cases hstep : lovsub_lock_delete_step s sub scan with
    | error e1 =>
      rw [hstep] at h
      simp only [Except.error.injEq] at h
      subst h
      obtain ⟨he, hn⟩ := delete_step_error s sub scan e1 hstep
      exact ⟨he, scan, List.mem_cons_self _ _, hn⟩
    | ok res =>
      obtain ⟨s2, r2⟩ := res
      rw [hstep] at h
      simp only at h
      by_cases hr : r2 ≠ 0
      · rw [if_pos hr] at h; simp at h
      · rw [if_neg hr] at h
        obtain ⟨he, l, hl, hn⟩ := ih s2 e h
        obtain ⟨hmove, -, -, -, -⟩ := delete_step_rel s sub scan s2 r2 hstep
        refine ⟨he, l, List.mem_cons_of_mem _ hl, ?_⟩
        intro hh
        exact hn ((handled_of_moved (hmove l.lll_super)).2 hh)

/-- The restart loop, when it returns, is within `delete_rel` and leaves the
parent list empty. -/
theorem delete_loop_ok (sub : Nat) :
    ∀ (fuel : Nat) (s s1 : State),
      lovsub_lock_delete_loop sub fuel s = Except.ok s1 →
      delete_rel sub s s1 ∧ (s1.sub sub).lss_parents = [] := by
  intro fuel
  induction fuel with
  | zero => intro s s1 h; simp [lovsub_lock_delete_loop] at h
  | succ n ih =>
    intro s s1 h
    rw [lovsub_lock_delete_loop] at h
    cases hscan : lovsub_lock_delete_scan sub (s.sub sub).lss_parents s with
    | error e => rw [hscan] at h; simp at h
    | ok res =>
      obtain ⟨s2, r2⟩ := res
      rw [hscan] at h
      simp only at h
      obtain ⟨hrel, -, hlen⟩ := delete_scan_ok sub _ s s2 r2 hscan
      by_cases hr : r2 ≠ 0
      · rw [if_pos hr] at h
        obtain ⟨hrel2, hnil⟩ := ih s2 s1 h
        exact ⟨delete_rel_trans hrel hrel2, hnil⟩
      · rw [if_neg hr] at h
        simp only [Except.ok.injEq] at h
        subst h
        exact ⟨hrel, (hlen rfl).1 (not_not.1 hr)⟩

/-- The restart loop stops only by LBUG on an unhandled parent state, or by
lack of fuel when the fuel does not exceed the number of parent links. -/
theorem delete_loop_error (sub : Nat) :
    ∀ (fuel : Nat) (s : State) (e : Halt),
      lovsub_lock_delete_loop sub fuel s = Except.error e →
      (e = Halt.LBUG ∧
        ∃ l ∈ (s.sub sub).lss_parents, ¬ delete_state_handled (s.top l.lll_super).cll_state) ∨
      (e = Halt.OUT_OF_FUEL ∧ fuel ≤ (s.sub sub).lss_parents.length) := by
  intro fuel
  induction fuel with
  | zero =>
    intro s e h
    simp only [lovsub_lock_delete_loop, Except.error.injEq] at h
    exact Or.inr ⟨h.symm, Nat.zero_le _⟩
  | succ n ih =>
    intro s e h
    rw [lovsub_lock_delete_loop] at h
    cases hscan : lovsub_lock_delete_scan sub (s.sub sub).lss_parents s with
    | error e1 =>
      rw [hscan] at h
      simp only [Except.error.injEq] at h
      subst h
      exact Or.inl (delete_scan_error sub _ s e1 hscan)
    | ok res =>
      obtain ⟨s2, r2⟩ := res
      rw [hscan] at h
      simp only at h
      obtain ⟨⟨hmove, -, -, hback, -⟩, -, hlen⟩ := delete_scan_ok sub _ s s2 r2 hscan
      by_cases hr : r2 ≠ 0
      · rw [if_pos hr] at h
        rcases ih s2 e h with ⟨he, l, hl, hn⟩ | ⟨he, hf⟩
        · left
          refine ⟨he, l, hback l hl, fun hh => ?_⟩
          exact hn ((handled_of_moved (hmove l.lll_super)).2 hh)
        · right
          have := (hlen rfl).2 hr
          exact ⟨he, by omega⟩
      · rw [if_neg hr] at h; simp at h

end delete_loop

section claims_delete

/-- C2: lovsub_lock_delete_one stops by LBUG exactly when the parent state is
HELD or outside the six handled states, and it stops in no other way; a run
of lovsub_lock_delete on a sub-lock one of whose parents is HELD never
returns a normal result, and with the sub-lock mutex held and more fuel than
parent links it stops by LBUG. -/
theorem lovsub_lock_delete_one_lbug (s : State) (child lov : Nat)
    (fuel sub : Nat) (l : lov_lock_link) :
    (lovsub_lock_delete_one s child lov = Except.error Halt.LBUG ↔
      ((s.top lov).cll_state = CLS_HELD ∨
        ¬ delete_state_handled (s.top lov).cll_state)) ∧
    (∀ e, lovsub_lock_delete_one s child lov = Except.error e → e = Halt.LBUG) ∧
    (l ∈ (s.sub sub).lss_parents → (s.top l.lll_super).cll_state = CLS_HELD →
      (∀ s1, lovsub_lock_delete fuel s sub ≠ Except.ok s1) ∧
      (cl_lock_is_mutexed s (LockId.sub sub) = true →
        (s.sub sub).lss_parents.length < fuel →
        lovsub_lock_delete fuel s sub = Except.error Halt.LBUG)) := by
  have hheld : ∀ st : cl_lock_state, st = CLS_HELD → ¬ delete_state_handled st := by
    intro st h; rw [h]; unfold delete_state_handled; decide
  refine ⟨?_, ?_, ?_⟩
  · constructor
    · intro h
      right
      rcases delete_one_cases s child lov with
        ⟨_, e1⟩ | ⟨_, e1⟩ | ⟨_, _, e1⟩ | ⟨_, _, e1⟩ | ⟨hc, _⟩
      · rw [e1] at h; simp at h
      · rw [e1] at h; simp at h
      · rw [e1] at h; simp at h
      · rw [e1] at h; simp at h
      · exact hc
    · intro h
      have hn : ¬ delete_state_handled (s.top lov).cll_state := by
        rcases h with h | h
        · exact hheld _ h
        · exact h
      rcases delete_one_cases s child lov with
        ⟨hc, _⟩ | ⟨hc, _⟩ | ⟨hc, _, _⟩ | ⟨hc, _, _⟩ | ⟨_, e1⟩
      · exact absurd (by unfold delete_state_handled; tauto) hn
      · exact absurd (by unfold delete_state_handled; tauto) hn
      · exact absurd (by unfold delete_state_handled; tauto) hn
      · exact absurd (by unfold delete_state_handled; tauto) hn
      · exact e1
  · intro e h
    rcases delete_one_cases s child lov with
      ⟨_, e1⟩ | ⟨_, e1⟩ | ⟨_, _, e1⟩ | ⟨_, _, e1⟩ | ⟨_, e1⟩
    · rw [e1] at h; simp at h
    · rw [e1] at h; simp at h
    · rw [e1] at h; simp at h
    · rw [e1] at h; simp at h
    · rw [e1] at h
      simp only [Except.error.injEq] at h
      exact h.symm
  · intro hl hst
    have hno : ∀ s1, lovsub_lock_delete_loop sub fuel s ≠ Except.ok s1 := by
      intro s1 h
      obtain ⟨⟨-, -, hlost, -, -⟩, hnil⟩ := delete_loop_ok sub fuel s s1 h
      rcases hlost l hl with h1 | ⟨-, h1⟩
      · rw [hnil] at h1; simp at h1
      · exact hheld _ hst h1
    constructor
    · intro s1 h
      unfold lovsub_lock_delete at h
      split at h
      · exact hno s1 h
      · simp at h
    · intro hm hfuel
      unfold lovsub_lock_delete
      rw [if_pos hm]
      cases hres : lovsub_lock_delete_loop sub fuel s with
      | ok s1 => exact absurd hres (hno s1)
      | error e =>
        rcases delete_loop_error sub fuel s e hres with ⟨he, -⟩ | ⟨-, hf⟩
        · rw [he]
        · omega

/-- Witness for C2: sub-lock 12 with the HELD top-lock 0 as parent. -/
theorem lovsub_lock_delete_one_lbug_witness :
    lovsub_lock_delete 2 mem_held_parent 12 = Except.error Halt.LBUG :=
  ((lovsub_lock_delete_one_lbug mem_held_parent 12 0 2 12
      { lll_super := 0, lll_idx := 2 }).2.2 (by decide) rfl).2 rfl (by decide)

/-- Deleting a sub-lock whose only parent is in a handled state and is not
destroyed: a single turn of the loop, one pass, no restart. -/
theorem delete_single_parent (s : State) (p c idx fuel : Nat) (hfuel : 0 < fuel)
    (hpar : (s.sub c).lss_parents = [{ lll_super := p, lll_idx := idx }])
    (hm : cl_lock_is_mutexed s (LockId.sub c) = true)
    (hh : delete_state_handled (s.top p).cll_state)
    (hno : ¬ ((s.top p).cll_state = CLS_CACHED ∧ (s.top p).lls_nr_filled - 1 = 0 ∧
      s.held.length + 1 = 2)) :
    ∃ s1, lovsub_lock_delete fuel s c = Except.ok s1 ∧
      lovsub_lock_delete_scan c (s.sub c).lss_parents s = Except.ok (s1, 0) ∧
      lovsub_lock_delete_step s c { lll_super := p, lll_idx := idx } = Except.ok (s1, 0) := by
  cases hstep : lovsub_lock_delete_step s c { lll_super := p, lll_idx := idx } with
  | error e => exact absurd hh (delete_step_error s c _ e hstep).2
  | ok res =>
    obtain ⟨s2, r2⟩ := res
    obtain ⟨-, -, -, -, -, -, -, -, -, hr01, hr1, -, -⟩ := delete_step_ok s c _ s2 r2 hstep
    have hr : r2 = 0 := by
      rcases hr01 with h | h
      · exact h
      · exact absurd (hr1.1 h) hno
    subst hr
    have hscan : lovsub_lock_delete_scan c (s.sub c).lss_parents s = Except.ok (s2, 0) := by
      rw [hpar]
      simp [lovsub_lock_delete_scan, hstep]
    refine ⟨s2, ?_, hscan, rfl⟩
    obtain ⟨k, rfl⟩ : ∃ k, fuel = k + 1 := ⟨fuel - 1, by omega⟩
    simp [lovsub_lock_delete, hm, lovsub_lock_delete_loop, hscan]

/-- C3 (Scenario A): with a CACHED top-lock `p` of `n ≥ 2` slots, all filled,
deleting the sub-lock `c` that fills slot `idx` and has `p` as only parent
leaves `p` in state NEW with fill count `n - 1`, cancels and destroys
nothing, takes one pass without restart, and leaves every other slot of `p`
and every other sub-lock (with its parent links) unchanged. -/
theorem lovsub_lock_delete_scenario_a (s : State) (p c idx n fuel : Nat)
    (hn : 2 ≤ n) (hfuel : 0 < fuel)
    (hst : (s.top p).cll_state = CLS_CACHED)
    (hnr : (s.top p).lls_nr = n)
    (hfill : (s.top p).lls_nr_filled = (n : Int))
    (_hall : ∀ j, j < n → ((s.top p).lls_sub j).sub_lock ≠ none)
    (_hidx : idx < n)
    (_hslot : ((s.top p).lls_sub idx).sub_lock = some c)
    (hpar : (s.sub c).lss_parents = [{ lll_super := p, lll_idx := idx }])
    (hm : cl_lock_is_mutexed s (LockId.sub c) = true) :
    ∃ s1 evs, lovsub_lock_delete fuel s c = Except.ok s1 ∧
      lovsub_lock_delete_scan c (s.sub c).lss_parents s = Except.ok (s1, 0) ∧
      (s1.top p).cll_state = CLS_NEW ∧
      (s1.top p).lls_nr_filled = (n : Int) - 1 ∧
      (s1.top p).lls_nr = n ∧
      s1.trace = s.trace ++ evs ∧
      (∀ q, Event.cancel q ∉ evs ∧ Event.delete q ∉ evs) ∧
      (∀ j, j ≠ idx → (s1.top p).lls_sub j = (s.top p).lls_sub j) ∧
      ((s1.top p).lls_sub idx).sub_lock = none ∧
      (∀ q, q ≠ p → s1.top q = s.top q) ∧
      (∀ c1, c1 ≠ c → s1.sub c1 = s.sub c1) ∧
      (s1.sub c).lss_parents = [] ∧
      s1.held = s.held := by
  have hno : ¬ ((s.top p).cll_state = CLS_CACHED ∧ (s.top p).lls_nr_filled - 1 = 0 ∧
      s.held.length + 1 = 2) := by
    rintro ⟨-, h, -⟩
    rw [hfill] at h
    omega
  have hh : delete_state_handled (s.top p).cll_state := by
    rw [hst]; unfold delete_state_handled; decide
  obtain ⟨s1, hdel, hscan, hstep⟩ := delete_single_parent s p c idx fuel hfuel hpar hm hh hno
  obtain ⟨hsub, htop, -, hst1, -, -, hnr1, hfill1, hslots, -, -, hheld, evs, htr, hev⟩ :=
    delete_step_ok s c _ s1 0 hstep
  simp only at hsub htop hst1 hnr1 hfill1 hslots
  refine ⟨s1, evs, hdel, hscan, ?_, ?_, ?_, htr, hev rfl, ?_, ?_, htop, ?_, ?_, hheld rfl⟩
  · rw [hst1, if_pos hst]
  · rw [hfill1, hfill]
  · rw [hnr1, hnr]
  · intro j hj
    rw [hslots, Function.update_noteq hj]
  · rw [hslots]; simp
  · intro c1 hc1
    rw [hsub, Function.update_noteq hc1]
  · rw [hsub]; simp [hpar]

/-- Witness for C3: Scenario A itself, 4 slots and stripe 2. -/
theorem lovsub_lock_delete_scenario_a_witness :
    ∃ s1 evs, lovsub_lock_delete 1 mem_scenario_a 12 = Except.ok s1 ∧
      lovsub_lock_delete_scan 12 (mem_scenario_a.sub 12).lss_parents mem_scenario_a =
        Except.ok (s1, 0) ∧
      (s1.top 0).cll_state = CLS_NEW ∧
      (s1.top 0).lls_nr_filled = ((4 : Nat) : Int) - 1 ∧
      (s1.top 0).lls_nr = 4 ∧
      s1.trace = mem_scenario_a.trace ++ evs ∧
      (∀ q, Event.cancel q ∉ evs ∧ Event.delete q ∉ evs) ∧
      (∀ j, j ≠ 2 → (s1.top 0).lls_sub j = (mem_scenario_a.top 0).lls_sub j) ∧
      ((s1.top 0).lls_sub 2).sub_lock = none ∧
      (∀ q, q ≠ 0 → s1.top q = mem_scenario_a.top q) ∧
      (∀ c1, c1 ≠ 12 → s1.sub c1 = mem_scenario_a.sub c1) ∧
      (s1.sub 12).lss_parents = [] ∧
      s1.held = mem_scenario_a.held :=
  lovsub_lock_delete_scenario_a mem_scenario_a 0 12 2 4 1 (by decide) (by decide)
    rfl rfl rfl (by decide) (by decide) rfl rfl rfl

/-- C4, as stated, fails on Scenario B: the deletion of the last sub-lock (13)
finds top-lock 0 in state NEW, with exactly two mutices held; the fill count
reaches zero, yet the pass reports no restart and the top-lock is neither
cancelled nor deleted. -/
theorem scenario_b_no_destroy :
    ∃ s3 s4, mem_scenario_b_two = Except.ok s3 ∧
      (s3.top 0).cll_state = CLS_NEW ∧
      (s3.top 0).lls_nr_filled = 1 ∧
      cl_lock_nr_mutexed (lovsub_parent_lock (scenario_b_switch s3 11 13) 0) = 2 ∧
      lovsub_lock_delete_scan 13 ((scenario_b_switch s3 11 13).sub 13).lss_parents
        (scenario_b_switch s3 11 13) = Except.ok (s4, 0) ∧
      mem_scenario_b_end = Except.ok s4 ∧
      (s4.top 0).lls_nr_filled = 0 ∧
      Event.cancel 0 ∉ s4.trace ∧ Event.delete 0 ∉ s4.trace :=
  ⟨_, _, rfl, by decide, by decide, by decide, rfl, rfl, by decide, by decide, by decide⟩

/-- C4 as amended (Scenario B): the top-lock that Scenario A leaves behind is
in state NEW with 3 filled slots.  Deleting the three remaining sub-locks one
at a time, each with that top-lock as only parent, the caller switching
mutices in between, every deletion takes one pass without restart; the
top-lock stays NEW, its fill count reaches zero, and nothing is cancelled or
destroyed. -/
theorem lovsub_lock_delete_scenario_b (s : State) (p a b c ia ib ic fuel : Nat)
    (hfuel : 0 < fuel)
    (hst : (s.top p).cll_state = CLS_NEW)
    (hfill : (s.top p).lls_nr_filled = 3)
    (hab : a ≠ b) (hac : a ≠ c) (hbc : b ≠ c)
    (hpa : (s.sub a).lss_parents = [{ lll_super := p, lll_idx := ia }])
    (hpb : (s.sub b).lss_parents = [{ lll_super := p, lll_idx := ib }])
    (hpc : (s.sub c).lss_parents = [{ lll_super := p, lll_idx := ic }])
    (hm : cl_lock_is_mutexed s (LockId.sub a) = true) :
    ∃ s1 s2 s3 evs,
      lovsub_lock_delete fuel s a = Except.ok s1 ∧
      lovsub_lock_delete_scan a (s.sub a).lss_parents s = Except.ok (s1, 0) ∧
      lovsub_lock_delete fuel (scenario_b_switch s1 a b) b = Except.ok s2 ∧
      lovsub_lock_delete_scan b ((scenario_b_switch s1 a b).sub b).lss_parents
        (scenario_b_switch s1 a b) = Except.ok (s2, 0) ∧
      lovsub_lock_delete fuel (scenario_b_switch s2 b c) c = Except.ok s3 ∧
      lovsub_lock_delete_scan c ((scenario_b_switch s2 b c).sub c).lss_parents
        (scenario_b_switch s2 b c) = Except.ok (s3, 0) ∧
      (s1.top p).cll_state = CLS_NEW ∧ (s2.top p).cll_state = CLS_NEW ∧
      (s3.top p).cll_state = CLS_NEW ∧
      (s3.top p).lls_nr_filled = 0 ∧
      s3.trace = s.trace ++ evs ∧
      (∀ q, Event.cancel q ∉ evs ∧ Event.delete q ∉ evs) := by
  have hnew : ∀ t : State, (t.top p).cll_state = CLS_NEW →
      delete_state_handled (t.top p).cll_state ∧
      ¬ ((t.top p).cll_state = CLS_CACHED ∧ (t.top p).lls_nr_filled - 1 = 0 ∧
        t.held.length + 1 = 2) := by
    intro t ht
    rw [ht]
    exact ⟨by unfold delete_state_handled; decide, fun h => absurd h.1 (by decide)⟩
  -- first deletion
  obtain ⟨s1, hd1, hs1, hstep1⟩ :=
    delete_single_parent s p a ia fuel hfuel hpa hm (hnew s hst).1 (hnew s hst).2
  obtain ⟨hsub1, -, -, hst1, -, -, -, hfill1, -, -, -, -, e1, htr1, hev1⟩ :=
    delete_step_ok s a _ s1 0 hstep1
  simp only at hsub1 hst1 hfill1
  rw [hst] at hst1
  have hst1a : (s1.top p).cll_state = CLS_NEW := by rw [hst1]; decide
  -- second deletion
  let t1 := scenario_b_switch s1 a b
  have ht1p : (t1.top p).cll_state = CLS_NEW := hst1a
  have hpb1 : (t1.sub b).lss_parents = [{ lll_super := p, lll_idx := ib }] := by
    show (s1.sub b).lss_parents = _
    rw [hsub1, Function.update_noteq (Ne.symm hab)]; exact hpb
  have hm1 : cl_lock_is_mutexed t1 (LockId.sub b) = true := by
    simp [t1, cl_lock_is_mutexed, scenario_b_switch]
  obtain ⟨s2, hd2, hs2, hstep2⟩ :=
    delete_single_parent t1 p b ib fuel hfuel hpb1 hm1 (hnew t1 ht1p).1 (hnew t1 ht1p).2
  obtain ⟨hsub2, -, -, hst2, -, -, -, hfill2, -, -, -, -, e2, htr2, hev2⟩ :=
    delete_step_ok t1 b _ s2 0 hstep2
  simp only at hsub2 hst2 hfill2
  rw [ht1p] at hst2
  have hst2a : (s2.top p).cll_state = CLS_NEW := by rw [hst2]; decide
  -- third deletion
  let t2 := scenario_b_switch s2 b c
  have ht2p : (t2.top p).cll_state = CLS_NEW := hst2a
  have hpc2 : (t2.sub c).lss_parents = [{ lll_super := p, lll_idx := ic }] := by
    show (s2.sub c).lss_parents = _
    rw [hsub2, Function.update_noteq (Ne.symm hbc)]
    show (s1.sub c).lss_parents = _
    rw [hsub1, Function.update_noteq (Ne.symm hac)]; exact hpc
  have hm2 : cl_lock_is_mutexed t2 (LockId.sub c) = true := by
    simp [t2, cl_lock_is_mutexed, scenario_b_switch]
  obtain ⟨s3, hd3, hs3, hstep3⟩ :=
    delete_single_parent t2 p c ic fuel hfuel hpc2 hm2 (hnew t2 ht2p).1 (hnew t2 ht2p).2
  obtain ⟨-, -, -, hst3, -, -, -, hfill3, -, -, -, -, e3, htr3, hev3⟩ :=
    delete_step_ok t2 c _ s3 0 hstep3
  simp only at hst3 hfill3
  rw [ht2p] at hst3
  have hst3a : (s3.top p).cll_state = CLS_NEW := by rw [hst3]; decide
  refine ⟨s1, s2, s3,
    e1 ++ ([Event.mutex_put (LockId.sub a), Event.mutex_get (LockId.sub b)] ++
      (e2 ++ ([Event.mutex_put (LockId.sub b), Event.mutex_get (LockId.sub c)] ++ e3))),
    hd1, hs1, hd2, hs2, hd3, hs3, hst1a, hst2a, hst3a, ?_, ?_, ?_⟩
  · have h2 : (t2.top p).lls_nr_filled = (s2.top p).lls_nr_filled := rfl
    have h1 : (t1.top p).lls_nr_filled = (s1.top p).lls_nr_filled := rfl
    rw [hfill3, h2, hfill2, h1, hfill1, hfill]
    norm_num
  · have h2 : t2.trace = s2.trace ++
        [Event.mutex_put (LockId.sub b), Event.mutex_get (LockId.sub c)] := by
      simp [t2, scenario_b_switch]
    have h1 : t1.trace = s1.trace ++
        [Event.mutex_put (LockId.sub a), Event.mutex_get (LockId.sub b)] := by
      simp [t1, scenario_b_switch]
    rw [htr3, h2, htr2, h1, htr1]
    simp only [List.append_assoc]
  · intro q
    have a1 := hev1 rfl q
    have a2 := hev2 rfl q
    have a3 := hev3 rfl q
    simp only [List.mem_append, List.mem_cons, List.mem_singleton, not_or]
    simp
    tauto

/-- Witness for C4 as amended: the memory left by Scenario A, sub-locks 10,
11 and 13 deleted in turn. -/
theorem lovsub_lock_delete_scenario_b_witness :
    ∃ s1 s2 s3 evs,
      lovsub_lock_delete 1 mem_scenario_b 10 = Except.ok s1 ∧
      lovsub_lock_delete_scan 10 (mem_scenario_b.sub 10).lss_parents mem_scenario_b =
        Except.ok (s1, 0) ∧
      lovsub_lock_delete 1 (scenario_b_switch s1 10 11) 11 = Except.ok s2 ∧
      lovsub_lock_delete_scan 11 ((scenario_b_switch s1 10 11).sub 11).lss_parents
        (scenario_b_switch s1 10 11) = Except.ok (s2, 0) ∧
      lovsub_lock_delete 1 (scenario_b_switch s2 11 13) 13 = Except.ok s3 ∧
      lovsub_lock_delete_scan 13 ((scenario_b_switch s2 11 13).sub 13).lss_parents
        (scenario_b_switch s2 11 13) = Except.ok (s3, 0) ∧
      (s1.top 0).cll_state = CLS_NEW ∧ (s2.top 0).cll_state = CLS_NEW ∧
      (s3.top 0).cll_state = CLS_NEW ∧
      (s3.top 0).lls_nr_filled = 0 ∧
      s3.trace = mem_scenario_b.trace ++ evs ∧
      (∀ q, Event.cancel q ∉ evs ∧ Event.delete q ∉ evs) :=
  lovsub_lock_delete_scenario_b mem_scenario_b 0 10 11 13 0 1 3 1
    (by decide) rfl rfl (by decide) (by decide) (by decide) rfl rfl rfl rfl

/-- C5: lovsub_lock_delete keeps the invariant "CACHED implies fill count =
slot count".  If it holds for every top-lock and no parent of the sub-lock is
HELD, then whenever lovsub_lock_delete returns it holds for every top-lock
again, the parent list is empty and no top-lock that was a parent is CACHED;
and it does return when the sub-lock mutex is held, every parent state is an
enumerator of cl_lock_state and the fuel exceeds the number of parent
links. -/
theorem lovsub_lock_delete_keeps_cached_full (s : State) (sub : Nat)
    (hinv : ∀ q, cached_full (s.top q))
    (hnoheld : ∀ l ∈ (s.sub sub).lss_parents, (s.top l.lll_super).cll_state ≠ CLS_HELD) :
    (∀ fuel s1, lovsub_lock_delete fuel s sub = Except.ok s1 →
      (∀ q, cached_full (s1.top q)) ∧
      (s1.sub sub).lss_parents = [] ∧
      (∀ l ∈ (s.sub sub).lss_parents, (s1.top l.lll_super).cll_state ≠ CLS_CACHED)) ∧
    ((∀ l ∈ (s.sub sub).lss_parents,
        delete_state_handled (s.top l.lll_super).cll_state ∨
          (s.top l.lll_super).cll_state = CLS_HELD) →
      cl_lock_is_mutexed s (LockId.sub sub) = true →
      ∀ fuel, (s.sub sub).lss_parents.length < fuel →
        ∃ s1, lovsub_lock_delete fuel s sub = Except.ok s1) := by
  constructor
  · intro fuel s1 h
    unfold lovsub_lock_delete at h
    split at h
    · obtain ⟨⟨-, hfull, hlost, -, -⟩, hnil⟩ := delete_loop_ok sub fuel s s1 h
      refine ⟨fun q => hfull q (hinv q), hnil, ?_⟩
      intro l hl
      rcases hlost l hl with h1 | ⟨h1, -⟩
      · rw [hnil] at h1; simp at h1
      · exact h1
    · simp at h
  · intro hval hm fuel hfuel
    unfold lovsub_lock_delete
    rw [if_pos hm]
    cases hres : lovsub_lock_delete_loop sub fuel s with
    | ok s1 => exact ⟨s1, rfl⟩
    | error e =>
      rcases delete_loop_error sub fuel s e hres with ⟨-, l, hl, hn⟩ | ⟨-, hf⟩
      · rcases hval l hl with h1 | h1
        · exact absurd h1 hn
        · exact absurd h1 (hnoheld l hl)
      · omega

/-- Witness for C5: the memory of Scenario A satisfies the invariant, no
parent is HELD, and the deletion of sub-lock 12 returns with the invariant
kept. -/
theorem lovsub_lock_delete_keeps_cached_full_witness :
    ∃ s1, lovsub_lock_delete 2 mem_scenario_a 12 = Except.ok s1 ∧
      (∀ q, cached_full (s1.top q)) ∧
      (s1.sub 12).lss_parents = [] ∧
      (∀ l ∈ (mem_scenario_a.sub 12).lss_parents,
        (s1.top l.lll_super).cll_state ≠ CLS_CACHED) := by
  have hinv : ∀ q, cached_full (mem_scenario_a.top q) := by
    intro q
    by_cases hq : q = 0
    · subst hq; intro _; rfl
    · intro hc
      simp [mem_scenario_a, hq, top_empty] at hc
  have h := lovsub_lock_delete_keeps_cached_full mem_scenario_a 12 hinv (by decide)
  obtain ⟨s1, h1⟩ := h.2 (by decide) rfl 2 (by decide)
  exact ⟨s1, h1, h.1 2 s1 h1⟩

end claims_delete

section extent_map

theorem to_ulong_nat (w k : Nat) : to_ulong w (k : Int) = k % 2 ^ w := by
  unfold to_ulong
  rw [← Int.natCast_mod, Int.toNat_natCast]

/-- Word arithmetic of the offset translation agrees with the exact value
modulo the word size. -/
theorem uadd_umul_exact (w a q c size k : Nat) :
    uadd w a (uadd w (umul w q (umul w c size)) (umul w (to_ulong w (k : Int)) size)) =
      (a + q * (c * size) + k * size) % 2 ^ w := by
  rw [to_ulong_nat]
  unfold uadd umul
  simp [Nat.add_mod, Nat.mul_mod, Nat.add_assoc]

/-- Arithmetic of striping: the translated offset lies in stripe `k` and
converts back to the stripe-relative offset. -/
theorem stripe_div (x size c k : Nat) (hsize : 0 < size) (hc : 1 ≤ c) (hk : k < c) :
    (x + x / size * ((c - 1) * size) + k * size) / size % c = k ∧
    (x + x / size * ((c - 1) * size) + k * size) / (size * c) * size +
      (x + x / size * ((c - 1) * size) + k * size) % size = x := by
  obtain ⟨c, rfl⟩ : ∃ c1, c = c1 + 1 := ⟨c - 1, by omega⟩
  simp only [Nat.add_sub_cancel]
  have hx := Nat.div_add_mod x size
  have hr := Nat.mod_lt x hsize
  generalize x / size = q at *
  generalize x % size = r at *
  subst hx
  have e : size * q + r + q * (c * size) + k * size = r + size * (q * (c + 1) + k) := by ring
  rw [e]
  have d1 : (r + size * (q * (c + 1) + k)) / size = q * (c + 1) + k := by
    rw [Nat.add_mul_div_left _ _ hsize, Nat.div_eq_of_lt hr, Nat.zero_add]
  have m1 : (r + size * (q * (c + 1) + k)) % size = r := by
    rw [Nat.add_mul_mod_self_left, Nat.mod_eq_of_lt hr]
  have d2 : (r + size * (q * (c + 1) + k)) / (size * (c + 1)) = q := by
    have e2 : r + size * (q * (c + 1) + k) = (r + size * k) + (size * (c + 1)) * q := by ring
    rw [e2, Nat.add_mul_div_left _ _ (by positivity)]
    have : r + size * k < size * (c + 1) := by nlinarith
    rw [Nat.div_eq_of_lt this, Nat.zero_add]
  rw [d1, m1, d2]
  constructor
  · rw [Nat.add_comm, Nat.add_mul_mod_self_right, Nat.mod_eq_of_lt hk]
  · ring

/-- The object and mode of the output are not written. -/
theorem descr_map_obj_mode (E : Env) (d out : cl_lock_descr) (lsm : lov_stripe_md)
    (stripe : Int) :
    (lovsub_lock_descr_map E d lsm stripe out).cld_obj = out.cld_obj ∧
    (lovsub_lock_descr_map E d lsm stripe out).cld_mode = out.cld_mode := by
  unfold lovsub_lock_descr_map
  simp only
  split_ifs <;> exact ⟨rfl, rfl⟩

/-- With at most one stripe both offsets are copied. -/
theorem descr_map_one (E : Env) (d out : cl_lock_descr) (lsm : lov_stripe_md)
    (stripe : Int) (h : lsm.lsm_stripe_count ≤ 1) :
    (lovsub_lock_descr_map E d lsm stripe out).cld_start = d.cld_start ∧
    (lovsub_lock_descr_map E d lsm stripe out).cld_end = d.cld_end := by
  unfold lovsub_lock_descr_map
  simp only
  rw [if_neg (by omega)]
  exact ⟨rfl, rfl⟩

/-- With several stripes the start is the exact translation modulo the word
size. -/
theorem descr_map_start (E : Env) (d out : cl_lock_descr) (lsm : lov_stripe_md)
    (k : Nat) (h : 1 < lsm.lsm_stripe_count) :
    (lovsub_lock_descr_map E d lsm (k : Int) out).cld_start =
      (d.cld_start + d.cld_start / E.cl_index lsm.lsm_stripe_size *
        ((lsm.lsm_stripe_count - 1) * E.cl_index lsm.lsm_stripe_size) +
        k * E.cl_index lsm.lsm_stripe_size) % 2 ^ E.BITS_PER_LONG := by
  unfold lovsub_lock_descr_map
  simp only
  rw [if_pos h]
  split_ifs <;> exact uadd_umul_exact _ _ _ _ _ _

/-- The sentinel end is copied. -/
theorem descr_map_end_eof (E : Env) (d out : cl_lock_descr) (lsm : lov_stripe_md)
    (stripe : Int) (h : d.cld_end = CL_PAGE_EOF E.BITS_PER_LONG) :
    (lovsub_lock_descr_map E d lsm stripe out).cld_end = CL_PAGE_EOF E.BITS_PER_LONG := by
  unfold lovsub_lock_descr_map
  simp only
  split_ifs <;> first | rfl | exact h | contradiction

/-- With several stripes an end that is not the sentinel and whose exact
translation fits in the word is translated exactly. -/
theorem descr_map_end (E : Env) (d out : cl_lock_descr) (lsm : lov_stripe_md)
    (k : Nat) (h : 1 < lsm.lsm_stripe_count)
    (hne : d.cld_end ≠ CL_PAGE_EOF E.BITS_PER_LONG)
    (hfit : d.cld_end + d.cld_end / E.cl_index lsm.lsm_stripe_size *
        ((lsm.lsm_stripe_count - 1) * E.cl_index lsm.lsm_stripe_size) +
        k * E.cl_index lsm.lsm_stripe_size < 2 ^ E.BITS_PER_LONG) :
    (lovsub_lock_descr_map E d lsm (k : Int) out).cld_end =
      d.cld_end + d.cld_end / E.cl_index lsm.lsm_stripe_size *
        ((lsm.lsm_stripe_count - 1) * E.cl_index lsm.lsm_stripe_size) +
        k * E.cl_index lsm.lsm_stripe_size := by
  unfold lovsub_lock_descr_map
  simp only
  rw [if_pos h, if_pos hne]
  simp only [uadd_umul_exact]
  rw [Nat.mod_eq_of_lt hfit]
  rw [if_neg (by
    have : d.cld_end ≤ d.cld_end + d.cld_end / E.cl_index lsm.lsm_stripe_size *
        ((lsm.lsm_stripe_count - 1) * E.cl_index lsm.lsm_stripe_size) +
        k * E.cl_index lsm.lsm_stripe_size := by
      rw [Nat.add_assoc]; exact Nat.le_add_right _ _
    omega)]

end extent_map

section claims_extent

/-- With at least one stripe and an index below the stripe count, a start
whose exact translation fits in the word is translated exactly. -/
theorem descr_map_start_fit (E : Env) (d out : cl_lock_descr) (lsm : lov_stripe_md)
    (k : Nat) (hc : 1 ≤ lsm.lsm_stripe_count) (hk : k < lsm.lsm_stripe_count)
    (hfit : d.cld_start + d.cld_start / E.cl_index lsm.lsm_stripe_size *
        ((lsm.lsm_stripe_count - 1) * E.cl_index lsm.lsm_stripe_size) +
        k * E.cl_index lsm.lsm_stripe_size < 2 ^ E.BITS_PER_LONG) :
    (lovsub_lock_descr_map E d lsm (k : Int) out).cld_start =
      d.cld_start + d.cld_start / E.cl_index lsm.lsm_stripe_size *
        ((lsm.lsm_stripe_count - 1) * E.cl_index lsm.lsm_stripe_size) +
        k * E.cl_index lsm.lsm_stripe_size := by
  by_cases h : 1 < lsm.lsm_stripe_count
  · rw [descr_map_start E d out lsm k h, Nat.mod_eq_of_lt hfit]
  · have h1 : lsm.lsm_stripe_count = 1 := by omega
    have hk0 : k = 0 := by omega
    rw [(descr_map_one E d out lsm k (by omega)).1, h1, hk0]
    simp

/-- The same for an end that is not the sentinel. -/
theorem descr_map_end_fit (E : Env) (d out : cl_lock_descr) (lsm : lov_stripe_md)
    (k : Nat) (hc : 1 ≤ lsm.lsm_stripe_count) (hk : k < lsm.lsm_stripe_count)
    (hne : d.cld_end ≠ CL_PAGE_EOF E.BITS_PER_LONG)
    (hfit : d.cld_end + d.cld_end / E.cl_index lsm.lsm_stripe_size *
        ((lsm.lsm_stripe_count - 1) * E.cl_index lsm.lsm_stripe_size) +
        k * E.cl_index lsm.lsm_stripe_size < 2 ^ E.BITS_PER_LONG) :
    (lovsub_lock_descr_map E d lsm (k : Int) out).cld_end =
      d.cld_end + d.cld_end / E.cl_index lsm.lsm_stripe_size *
        ((lsm.lsm_stripe_count - 1) * E.cl_index lsm.lsm_stripe_size) +
        k * E.cl_index lsm.lsm_stripe_size := by
  by_cases h : 1 < lsm.lsm_stripe_count
  · exact descr_map_end E d out lsm k h hne hfit
  · have h1 : lsm.lsm_stripe_count = 1 := by omega
    have hk0 : k = 0 := by omega
    rw [(descr_map_one E d out lsm k (by omega)).2, h1, hk0]
    simp

/-- C6: lovsub_lock_descr_map agrees with the reference map_extent whenever
the exact results fit in the word: identity for at most one stripe, and
otherwise start and end moved by floor(offset/size)*skip + index*size with
the sentinel end kept. -/
theorem lovsub_lock_descr_map_eq_map_extent (E : Env) (d out : cl_lock_descr)
    (lsm : lov_stripe_md) (k : Nat)
    (_hsize : 1 < lsm.lsm_stripe_count → 0 < E.cl_index lsm.lsm_stripe_size)
    (hfit1 : (map_extent (CL_PAGE_EOF E.BITS_PER_LONG) d.cld_start d.cld_end
      lsm.lsm_stripe_count (E.cl_index lsm.lsm_stripe_size) k).1 < 2 ^ E.BITS_PER_LONG)
    (hfit2 : (map_extent (CL_PAGE_EOF E.BITS_PER_LONG) d.cld_start d.cld_end
      lsm.lsm_stripe_count (E.cl_index lsm.lsm_stripe_size) k).2 < 2 ^ E.BITS_PER_LONG) :
    ((lovsub_lock_descr_map E d lsm (k : Int) out).cld_start,
      (lovsub_lock_descr_map E d lsm (k : Int) out).cld_end) =
      map_extent (CL_PAGE_EOF E.BITS_PER_LONG) d.cld_start d.cld_end
        lsm.lsm_stripe_count (E.cl_index lsm.lsm_stripe_size) k ∧
    (lsm.lsm_stripe_count ≤ 1 →
      (lovsub_lock_descr_map E d lsm (k : Int) out).cld_start = d.cld_start ∧
      (lovsub_lock_descr_map E d lsm (k : Int) out).cld_end = d.cld_end) ∧
    (1 < lsm.lsm_stripe_count →
      (lovsub_lock_descr_map E d lsm (k : Int) out).cld_start =
        d.cld_start + d.cld_start / E.cl_index lsm.lsm_stripe_size *
          ((lsm.lsm_stripe_count - 1) * E.cl_index lsm.lsm_stripe_size) +
          k * E.cl_index lsm.lsm_stripe_size ∧
      (lovsub_lock_descr_map E d lsm (k : Int) out).cld_end =
        (if d.cld_end = CL_PAGE_EOF E.BITS_PER_LONG then CL_PAGE_EOF E.BITS_PER_LONG
         else d.cld_end + d.cld_end / E.cl_index lsm.lsm_stripe_size *
          ((lsm.lsm_stripe_count - 1) * E.cl_index lsm.lsm_stripe_size) +
          k * E.cl_index lsm.lsm_stripe_size)) := by
  have hmulti : 1 < lsm.lsm_stripe_count →
      (lovsub_lock_descr_map E d lsm (k : Int) out).cld_start =
        d.cld_start + d.cld_start / E.cl_index lsm.lsm_stripe_size *
          ((lsm.lsm_stripe_count - 1) * E.cl_index lsm.lsm_stripe_size) +
          k * E.cl_index lsm.lsm_stripe_size ∧
      (lovsub_lock_descr_map E d lsm (k : Int) out).cld_end =
        (if d.cld_end = CL_PAGE_EOF E.BITS_PER_LONG then CL_PAGE_EOF E.BITS_PER_LONG
         else d.cld_end + d.cld_end / E.cl_index lsm.lsm_stripe_size *
          ((lsm.lsm_stripe_count - 1) * E.cl_index lsm.lsm_stripe_size) +
          k * E.cl_index lsm.lsm_stripe_size) := by
    intro h
    have hn : ¬ lsm.lsm_stripe_count ≤ 1 := by omega
    simp only [map_extent, if_neg hn] at hfit1 hfit2
    refine ⟨?_, ?_⟩
    · rw [descr_map_start E d out lsm k h, Nat.mod_eq_of_lt hfit1]
    · by_cases he : d.cld_end = CL_PAGE_EOF E.BITS_PER_LONG
      · rw [if_pos he]; exact descr_map_end_eof E d out lsm k he
      · rw [if_neg he] at hfit2 ⊢
        exact descr_map_end E d out lsm k h he hfit2
  refine ⟨?_, descr_map_one E d out lsm k, hmulti⟩
  by_cases h : 1 < lsm.lsm_stripe_count
  · have hn : ¬ lsm.lsm_stripe_count ≤ 1 := by omega
    obtain ⟨h1, h2⟩ := hmulti h
    rw [h1, h2]
    simp only [map_extent, if_neg hn]
  · have hn : lsm.lsm_stripe_count ≤ 1 := by omega
    obtain ⟨h1, h2⟩ := descr_map_one E d out lsm k hn
    rw [h1, h2]
    simp only [map_extent, if_pos hn]

/-- Witness for C6 (Scenario C): [0, 9999] with 3 stripes of 1000 pages and
stripe index 1 maps to [1000, 28999]; an end at the sentinel stays there. -/
theorem lovsub_lock_descr_map_eq_map_extent_witness :
    ((lovsub_lock_descr_map env64 descr_scenario_c lsm_scenario_c ((1 : Nat) : Int)
        descr_zero).cld_start,
      (lovsub_lock_descr_map env64 descr_scenario_c lsm_scenario_c ((1 : Nat) : Int)
        descr_zero).cld_end) = (1000, 28999) ∧
    ((lovsub_lock_descr_map env64 descr_scenario_c_eof lsm_scenario_c ((1 : Nat) : Int)
        descr_zero).cld_start,
      (lovsub_lock_descr_map env64 descr_scenario_c_eof lsm_scenario_c ((1 : Nat) : Int)
        descr_zero).cld_end) = (1000, CL_PAGE_EOF 64) :=
  ⟨(lovsub_lock_descr_map_eq_map_extent env64 descr_scenario_c descr_zero lsm_scenario_c 1
      (by decide) (by decide) (by decide)).1.trans (by decide),
   (lovsub_lock_descr_map_eq_map_extent env64 descr_scenario_c_eof descr_zero lsm_scenario_c 1
      (by decide) (by decide) (by decide)).1.trans (by decide)⟩

/-- C7 fails on the code: on a 32-bit word, with 9 stripes of 256 pages and
stripe index 0, the end 2^29 is not the sentinel and its exact translation
2^29 + 2^32 does not fit in the word (the product floor(end/size)*skip alone
is 2^32 and wraps to 0), yet the output end is 2^29, the wrapped value, and
not the sentinel. -/
theorem lovsub_lock_descr_map_end_wraps :
    descr_two_tib.cld_end ≠ CL_PAGE_EOF 32 ∧
    env32.cl_index lsm_nine_mib.lsm_stripe_size = 256 ∧
    descr_two_tib.cld_end + descr_two_tib.cld_end / 256 * ((9 - 1) * 256) + 0 * 256
      = 2 ^ 29 + 2 ^ 32 ∧
    ¬ (2 ^ 29 + 2 ^ 32 < 2 ^ 32) ∧
    (lovsub_lock_descr_map env32 descr_two_tib lsm_nine_mib 0 descr_zero).cld_end
      = 2 ^ 29 ∧
    (lovsub_lock_descr_map env32 descr_two_tib lsm_nine_mib 0 descr_zero).cld_end
      = (2 ^ 29 + 2 ^ 32) % 2 ^ 32 ∧
    (lovsub_lock_descr_map env32 descr_two_tib lsm_nine_mib 0 descr_zero).cld_end
      ≠ CL_PAGE_EOF 32 := by
  decide

/-- C8: the translation has a left inverse.  With at least one stripe of
positive size, an index below the stripe count and no overflow, the mapped
offset f of a stripe offset x lies in stripe `k` (floor(f/size) mod count =
k) and floor(f/(size*count))*size + f mod size = x, for the start and for an
end that is not the sentinel; hence two starts with the same image are
equal. -/
theorem lovsub_lock_descr_map_left_inverse (E : Env) (d d2 out : cl_lock_descr)
    (lsm : lov_stripe_md) (k : Nat)
    (hc : 1 ≤ lsm.lsm_stripe_count)
    (hsize : 0 < E.cl_index lsm.lsm_stripe_size)
    (hk : k < lsm.lsm_stripe_count)
    (hfit : d.cld_start + d.cld_start / E.cl_index lsm.lsm_stripe_size *
        ((lsm.lsm_stripe_count - 1) * E.cl_index lsm.lsm_stripe_size) +
        k * E.cl_index lsm.lsm_stripe_size < 2 ^ E.BITS_PER_LONG)
    (hfit2 : d2.cld_start + d2.cld_start / E.cl_index lsm.lsm_stripe_size *
        ((lsm.lsm_stripe_count - 1) * E.cl_index lsm.lsm_stripe_size) +
        k * E.cl_index lsm.lsm_stripe_size < 2 ^ E.BITS_PER_LONG) :
    ((lovsub_lock_descr_map E d lsm (k : Int) out).cld_start /
        E.cl_index lsm.lsm_stripe_size % lsm.lsm_stripe_count = k ∧
      (lovsub_lock_descr_map E d lsm (k : Int) out).cld_start /
        (E.cl_index lsm.lsm_stripe_size * lsm.lsm_stripe_count) *
          E.cl_index lsm.lsm_stripe_size +
        (lovsub_lock_descr_map E d lsm (k : Int) out).cld_start %
          E.cl_index lsm.lsm_stripe_size = d.cld_start) ∧
    (d.cld_end ≠ CL_PAGE_EOF E.BITS_PER_LONG →
      d.cld_end + d.cld_end / E.cl_index lsm.lsm_stripe_size *
        ((lsm.lsm_stripe_count - 1) * E.cl_index lsm.lsm_stripe_size) +
        k * E.cl_index lsm.lsm_stripe_size < 2 ^ E.BITS_PER_LONG →
      (lovsub_lock_descr_map E d lsm (k : Int) out).cld_end /
        E.cl_index lsm.lsm_stripe_size % lsm.lsm_stripe_count = k ∧
      (lovsub_lock_descr_map E d lsm (k : Int) out).cld_end /
        (E.cl_index lsm.lsm_stripe_size * lsm.lsm_stripe_count) *
          E.cl_index lsm.lsm_stripe_size +
        (lovsub_lock_descr_map E d lsm (k : Int) out).cld_end %
          E.cl_index lsm.lsm_stripe_size = d.cld_end) ∧
    ((lovsub_lock_descr_map E d2 lsm (k : Int) out).cld_start =
        (lovsub_lock_descr_map E d lsm (k : Int) out).cld_start →
      d2.cld_start = d.cld_start) := by
  have h1 := stripe_div d.cld_start (E.cl_index lsm.lsm_stripe_size)
    lsm.lsm_stripe_count k hsize hc hk
  have h2 := stripe_div d2.cld_start (E.cl_index lsm.lsm_stripe_size)
    lsm.lsm_stripe_count k hsize hc hk
  have e1 := descr_map_start_fit E d out lsm k hc hk hfit
  have e2 := descr_map_start_fit E d2 out lsm k hc hk hfit2
  refine ⟨?_, ?_, ?_⟩
  · rw [e1]; exact h1
  · intro hne hfe
    rw [descr_map_end_fit E d out lsm k hc hk hne hfe]
    exact stripe_div d.cld_end (E.cl_index lsm.lsm_stripe_size)
      lsm.lsm_stripe_count k hsize hc hk
  · intro heq
    rw [e1, e2] at heq
    rw [← h2.2, ← h1.2, heq]

/-- Witness for C8: Scenario C, where the file extent [1000, 28999] converts
back to the stripe extent [0, 9999]. -/
theorem lovsub_lock_descr_map_left_inverse_witness :
    ((lovsub_lock_descr_map env64 descr_scenario_c lsm_scenario_c ((1 : Nat) : Int)
        descr_zero).cld_start / 1000 % 3 = 1 ∧
      (lovsub_lock_descr_map env64 descr_scenario_c lsm_scenario_c ((1 : Nat) : Int)
        descr_zero).cld_start / (1000 * 3) * 1000 +
        (lovsub_lock_descr_map env64 descr_scenario_c lsm_scenario_c ((1 : Nat) : Int)
          descr_zero).cld_start % 1000 = 0) ∧
    ((lovsub_lock_descr_map env64 descr_scenario_c lsm_scenario_c ((1 : Nat) : Int)
        descr_zero).cld_end / 1000 % 3 = 1 ∧
      (lovsub_lock_descr_map env64 descr_scenario_c lsm_scenario_c ((1 : Nat) : Int)
        descr_zero).cld_end / (1000 * 3) * 1000 +
        (lovsub_lock_descr_map env64 descr_scenario_c lsm_scenario_c ((1 : Nat) : Int)
          descr_zero).cld_end % 1000 = 9999) :=
  ⟨(lovsub_lock_descr_map_left_inverse env64 descr_scenario_c descr_scenario_c descr_zero
      lsm_scenario_c 1 (by decide) (by decide) (by decide) (by decide) (by decide)).1,
   (lovsub_lock_descr_map_left_inverse env64 descr_scenario_c descr_scenario_c descr_zero
      lsm_scenario_c 1 (by decide) (by decide) (by decide) (by decide) (by decide)).2.1
      (by decide) (by decide)⟩

end claims_extent

section claims_state

/-- The branch of lovsub_lock_state_one that signals the parent. -/
theorem state_one_signal (s : State) (c lov : Nat)
    (hact : (s.sub c).lss_active ≠ some lov)
    (h : (s.sub c).cll_error = 0 ∨ (s.top lov).cll_error ≠ 0) :
    lovsub_lock_state_one s c lov =
      (lovsub_parent_unlock (cl_lock_signal (lovsub_parent_lock s lov) lov) lov, 0) := by
  unfold lovsub_lock_state_one
  rw [if_pos hact]
  simp only
  rw [if_neg]
  rintro ⟨h1, h2⟩
  rcases h with h | h
  · exact h1 h
  · exact h h2

/-- The branch of lovsub_lock_state_one that delivers the error. -/
theorem state_one_error (s : State) (c lov : Nat)
    (hact : (s.sub c).lss_active ≠ some lov)
    (h1 : (s.sub c).cll_error ≠ 0) (h2 : (s.top lov).cll_error = 0) :
    lovsub_lock_state_one s c lov =
      (lovsub_parent_unlock (cl_lock_error (cl_lock_mutex_put (lovsub_parent_lock s lov)
        (LockId.sub c)) lov (s.sub c).cll_error) lov, 1) := by
  unfold lovsub_lock_state_one
  rw [if_pos hact]
  simp only
  rw [if_pos ⟨h1, h2⟩]
  rfl

/-- Scenario D with the failed parent first in the parent list. -/
theorem scenario_d_failed_first (s : State) (c pe pc ie ic fuel : Nat)
    (hfuel : 2 ≤ fuel)
    (herr : (s.sub c).cll_error ≠ 0)
    (hne : pe ≠ pc)
    (hpar : (s.sub c).lss_parents =
      [{ lll_super := pe, lll_idx := ie }, { lll_super := pc, lll_idx := ic }])
    (hact_e : (s.sub c).lss_active ≠ some pe)
    (hact_c : (s.sub c).lss_active ≠ some pc)
    (hpe : (s.top pe).cll_error ≠ 0)
    (hpc : (s.top pc).cll_error = 0)
    (hm : cl_lock_is_mutexed s (LockId.sub c) = true) :
    ∃ s1 s2 evs,
      lovsub_lock_state_scan c (s.sub c).lss_parents s = (s1, 1) ∧
      lovsub_lock_state_scan c (s1.sub c).lss_parents s1 = (s2, 0) ∧
      lovsub_lock_state fuel s c = Except.ok s2 ∧
      s2.trace = s.trace ++ evs ∧
      error_events evs = [Event.error pc (s.sub c).cll_error] ∧
      Event.signal pe ∈ evs ∧
      (s2.top pc).cll_error = (s.sub c).cll_error ∧
      (s2.top pe).cll_error = (s.top pe).cll_error := by
  have h1 := state_one_signal s c pe hact_e (Or.inr hpe)
  generalize ha1 : lovsub_parent_unlock (cl_lock_signal (lovsub_parent_lock s pe) pe) pe = a1
    at h1
  have a1sub : a1.sub = s.sub := by rw [← ha1]; rfl
  have a1top : a1.top = s.top := by rw [← ha1]; rfl
  have a1tr : a1.trace = s.trace ++ [Event.get pe, Event.mutex_get (LockId.top pe),
      Event.signal pe, Event.mutex_put (LockId.top pe), Event.put pe] := by
    rw [← ha1]; simp [lovsub_parent_unlock, cl_lock_signal, lovsub_parent_lock]
  have h2 := state_one_error a1 c pc (by rw [a1sub]; exact hact_c)
    (by rw [a1sub]; exact herr) (by rw [a1top]; exact hpc)
  generalize ha2 : lovsub_parent_unlock (cl_lock_error (cl_lock_mutex_put
    (lovsub_parent_lock a1 pc) (LockId.sub c)) pc (a1.sub c).cll_error) pc = a2 at h2
  have a2sub : a2.sub = s.sub := by rw [← ha2, ← a1sub]; rfl
  have a2top : a2.top = Function.update s.top pc
      { s.top pc with cll_error := (s.sub c).cll_error } := by
    rw [← ha2, ← a1sub, ← a1top]; rfl
  have a2tr : a2.trace = a1.trace ++ [Event.get pc, Event.mutex_get (LockId.top pc),
      Event.mutex_put (LockId.sub c), Event.error pc (s.sub c).cll_error,
      Event.mutex_put (LockId.top pc), Event.put pc] := by
    rw [← ha2, ← a1sub]
    simp [lovsub_parent_unlock, cl_lock_error, lovsub_parent_lock]
  generalize hs1 : cl_lock_mutex_get a2 (LockId.sub c) = s1
  have s1sub : s1.sub = s.sub := by rw [← hs1, ← a2sub]; rfl
  have s1top : s1.top = Function.update s.top pc
      { s.top pc with cll_error := (s.sub c).cll_error } := by
    rw [← hs1, ← a2top]; rfl
  have s1tr : s1.trace = a2.trace ++ [Event.mutex_get (LockId.sub c)] := by
    rw [← hs1]; rfl
  have h3 := state_one_signal s1 c pe (by rw [s1sub]; exact hact_e)
    (Or.inr (by rw [s1top, Function.update_noteq hne]; exact hpe))
  generalize hb1 : lovsub_parent_unlock (cl_lock_signal (lovsub_parent_lock s1 pe) pe) pe = b1
    at h3
  have b1sub : b1.sub = s.sub := by rw [← hb1, ← s1sub]; rfl
  have b1top : b1.top = s1.top := by rw [← hb1]; rfl
  have b1tr : b1.trace = s1.trace ++ [Event.get pe, Event.mutex_get (LockId.top pe),
      Event.signal pe, Event.mutex_put (LockId.top pe), Event.put pe] := by
    rw [← hb1]; simp [lovsub_parent_unlock, cl_lock_signal, lovsub_parent_lock]
  have h4 := state_one_signal b1 c pc (by rw [b1sub]; exact hact_c)
    (Or.inr (by rw [b1top, s1top]; simpa using herr))
  generalize hs2 : lovsub_parent_unlock (cl_lock_signal (lovsub_parent_lock b1 pc) pc) pc = s2
    at h4
  have s2top : s2.top = s1.top := by rw [← hs2, ← b1top]; rfl
  have s2tr : s2.trace = b1.trace ++ [Event.get pc, Event.mutex_get (LockId.top pc),
      Event.signal pc, Event.mutex_put (LockId.top pc), Event.put pc] := by
    rw [← hs2]; simp [lovsub_parent_unlock, cl_lock_signal, lovsub_parent_lock]
  have hscan1 : lovsub_lock_state_scan c (s.sub c).lss_parents s = (s1, 1) := by
    rw [hpar]
    simp [lovsub_lock_state_scan, h1, h2, hs1]
  have hscan2 : lovsub_lock_state_scan c (s1.sub c).lss_parents s1 = (s2, 0) := by
    rw [s1sub, hpar]
    simp [lovsub_lock_state_scan, h3, h4]
  refine ⟨s1, s2,
    [Event.get pe, Event.mutex_get (LockId.top pe), Event.signal pe,
      Event.mutex_put (LockId.top pe), Event.put pe] ++
    ([Event.get pc, Event.mutex_get (LockId.top pc), Event.mutex_put (LockId.sub c),
      Event.error pc (s.sub c).cll_error, Event.mutex_put (LockId.top pc), Event.put pc] ++
    ([Event.mutex_get (LockId.sub c)] ++
    ([Event.get pe, Event.mutex_get (LockId.top pe), Event.signal pe,
      Event.mutex_put (LockId.top pe), Event.put pe] ++
    [Event.get pc, Event.mutex_get (LockId.top pc), Event.signal pc,
      Event.mutex_put (LockId.top pc), Event.put pc]))),
    hscan1, hscan2, ?_, ?_, ?_, ?_, ?_, ?_⟩
  · obtain ⟨n, rfl⟩ : ∃ n, fuel = n + 2 := ⟨fuel - 2, by omega⟩
    simp [lovsub_lock_state, hm, lovsub_lock_state_loop, hscan1, hscan2]
  · rw [s2tr, b1tr, s1tr, a2tr, a1tr]
    simp only [List.append_assoc]
  · simp [error_events]
  · simp
  · rw [s2top, s1top]; simp
  · rw [s2top, s1top, Function.update_noteq hne]

/-- Scenario D with the clean parent first in the parent list. -/
theorem scenario_d_clean_first (s : State) (c pe pc ie ic fuel : Nat)
    (hfuel : 2 ≤ fuel)
    (herr : (s.sub c).cll_error ≠ 0)
    (hne : pe ≠ pc)
    (hpar : (s.sub c).lss_parents =
      [{ lll_super := pc, lll_idx := ic }, { lll_super := pe, lll_idx := ie }])
    (hact_e : (s.sub c).lss_active ≠ some pe)
    (hact_c : (s.sub c).lss_active ≠ some pc)
    (hpe : (s.top pe).cll_error ≠ 0)
    (hpc : (s.top pc).cll_error = 0)
    (hm : cl_lock_is_mutexed s (LockId.sub c) = true) :
    ∃ s1 s2 evs,
      lovsub_lock_state_scan c (s.sub c).lss_parents s = (s1, 1) ∧
      lovsub_lock_state_scan c (s1.sub c).lss_parents s1 = (s2, 0) ∧
      lovsub_lock_state fuel s c = Except.ok s2 ∧
      s2.trace = s.trace ++ evs ∧
      error_events evs = [Event.error pc (s.sub c).cll_error] ∧
      Event.signal pe ∈ evs ∧
      (s2.top pc).cll_error = (s.sub c).cll_error ∧
      (s2.top pe).cll_error = (s.top pe).cll_error := by
  have h2 := state_one_error s c pc hact_c herr hpc
  generalize ha2 : lovsub_parent_unlock (cl_lock_error (cl_lock_mutex_put
    (lovsub_parent_lock s pc) (LockId.sub c)) pc (s.sub c).cll_error) pc = a2 at h2
  have a2sub : a2.sub = s.sub := by rw [← ha2]; rfl
  have a2top : a2.top = Function.update s.top pc
      { s.top pc with cll_error := (s.sub c).cll_error } := by
    rw [← ha2]; rfl
  have a2tr : a2.trace = s.trace ++ [Event.get pc, Event.mutex_get (LockId.top pc),
      Event.mutex_put (LockId.sub c), Event.error pc (s.sub c).cll_error,
      Event.mutex_put (LockId.top pc), Event.put pc] := by
    rw [← ha2]
    simp [lovsub_parent_unlock, cl_lock_error, lovsub_parent_lock]
  generalize hs1 : cl_lock_mutex_get a2 (LockId.sub c) = s1
  have s1sub : s1.sub = s.sub := by rw [← hs1, ← a2sub]; rfl
  have s1top : s1.top = Function.update s.top pc
      { s.top pc with cll_error := (s.sub c).cll_error } := by
    rw [← hs1, ← a2top]; rfl
  have s1tr : s1.trace = a2.trace ++ [Event.mutex_get (LockId.sub c)] := by
    rw [← hs1]; rfl
  have h3 := state_one_signal s1 c pc (by rw [s1sub]; exact hact_c)
    (Or.inr (by rw [s1top]; simpa using herr))
  generalize hb1 : lovsub_parent_unlock (cl_lock_signal (lovsub_parent_lock s1 pc) pc) pc = b1
    at h3
  have b1sub : b1.sub = s.sub := by rw [← hb1, ← s1sub]; rfl
  have b1top : b1.top = s1.top := by rw [← hb1]; rfl
  have b1tr : b1.trace = s1.trace ++ [Event.get pc, Event.mutex_get (LockId.top pc),
      Event.signal pc, Event.mutex_put (LockId.top pc), Event.put pc] := by
    rw [← hb1]; simp [lovsub_parent_unlock, cl_lock_signal, lovsub_parent_lock]
  have h4 := state_one_signal b1 c pe (by rw [b1sub]; exact hact_e)
    (Or.inr (by rw [b1top, s1top, Function.update_noteq hne]; exact hpe))
  generalize hs2 : lovsub_parent_unlock (cl_lock_signal (lovsub_parent_lock b1 pe) pe) pe = s2
    at h4
  have s2top : s2.top = s1.top := by rw [← hs2, ← b1top]; rfl
  have s2tr : s2.trace = b1.trace ++ [Event.get pe, Event.mutex_get (LockId.top pe),
      Event.signal pe, Event.mutex_put (LockId.top pe), Event.put pe] := by
    rw [← hs2]; simp [lovsub_parent_unlock, cl_lock_signal, lovsub_parent_lock]
  have hscan1 : lovsub_lock_state_scan c (s.sub c).lss_parents s = (s1, 1) := by
    rw [hpar]
    simp [lovsub_lock_state_scan, h2, hs1]
  have hscan2 : lovsub_lock_state_scan c (s1.sub c).lss_parents s1 = (s2, 0) := by
    rw [s1sub, hpar]
    simp [lovsub_lock_state_scan, h3, h4]
  refine ⟨s1, s2,
    [Event.get pc, Event.mutex_get (LockId.top pc), Event.mutex_put (LockId.sub c),
      Event.error pc (s.sub c).cll_error, Event.mutex_put (LockId.top pc), Event.put pc] ++
    ([Event.mutex_get (LockId.sub c)] ++
    ([Event.get pc, Event.mutex_get (LockId.top pc), Event.signal pc,
      Event.mutex_put (LockId.top pc), Event.put pc] ++
    [Event.get pe, Event.mutex_get (LockId.top pe), Event.signal pe,
      Event.mutex_put (LockId.top pe), Event.put pe])),
    hscan1, hscan2, ?_, ?_, ?_, ?_, ?_, ?_⟩
  · obtain ⟨n, rfl⟩ : ∃ n, fuel = n + 2 := ⟨fuel - 2, by omega⟩
    simp [lovsub_lock_state, hm, lovsub_lock_state_loop, hscan1, hscan2]
  · rw [s2tr, b1tr, s1tr, a2tr]
    simp only [List.append_assoc]
  · simp [error_events]
  · simp
  · rw [s2top, s1top]; simp
  · rw [s2top, s1top, Function.update_noteq hne]

/-- C9 (Scenario D): a sub-lock with a non-zero error and two non-active
parents, `pe` already failed and `pc` clean, in either order.  The first pass
of lovsub_lock_state ends with restart 1, the second with restart 0, and the
function returns; the only error delivered, once, is the sub-lock's code to
`pc`, while `pe` is signalled and keeps its own error. -/
theorem lovsub_lock_state_scenario_d (s : State) (c pe pc ie ic fuel : Nat)
    (hfuel : 2 ≤ fuel)
    (herr : (s.sub c).cll_error ≠ 0)
    (hne : pe ≠ pc)
    (hpar : (s.sub c).lss_parents =
        [{ lll_super := pe, lll_idx := ie }, { lll_super := pc, lll_idx := ic }] ∨
      (s.sub c).lss_parents =
        [{ lll_super := pc, lll_idx := ic }, { lll_super := pe, lll_idx := ie }])
    (hact_e : (s.sub c).lss_active ≠ some pe)
    (hact_c : (s.sub c).lss_active ≠ some pc)
    (hpe : (s.top pe).cll_error ≠ 0)
    (hpc : (s.top pc).cll_error = 0)
    (hm : cl_lock_is_mutexed s (LockId.sub c) = true) :
    ∃ s1 s2 evs,
      lovsub_lock_state_scan c (s.sub c).lss_parents s = (s1, 1) ∧
      lovsub_lock_state_scan c (s1.sub c).lss_parents s1 = (s2, 0) ∧
      lovsub_lock_state fuel s c = Except.ok s2 ∧
      s2.trace = s.trace ++ evs ∧
      error_events evs = [Event.error pc (s.sub c).cll_error] ∧
      Event.signal pe ∈ evs ∧
      (s2.top pc).cll_error = (s.sub c).cll_error ∧
      (s2.top pe).cll_error = (s.top pe).cll_error := by
  rcases hpar with h | h
  · exact scenario_d_failed_first s c pe pc ie ic fuel hfuel herr hne h hact_e hact_c hpe hpc hm
  · exact scenario_d_clean_first s c pe pc ie ic fuel hfuel herr hne h hact_e hact_c hpe hpc hm

/-- Witness for C9: sub-lock 20 with error -5, parents 1 (failed with -4)
and 2 (clean). -/
theorem lovsub_lock_state_scenario_d_witness :
    ∃ s1 s2 evs,
      lovsub_lock_state_scan 20 (mem_scenario_d.sub 20).lss_parents mem_scenario_d = (s1, 1) ∧
      lovsub_lock_state_scan 20 (s1.sub 20).lss_parents s1 = (s2, 0) ∧
      lovsub_lock_state 2 mem_scenario_d 20 = Except.ok s2 ∧
      s2.trace = mem_scenario_d.trace ++ evs ∧
      error_events evs = [Event.error 2 (mem_scenario_d.sub 20).cll_error] ∧
      Event.signal 1 ∈ evs ∧
      (s2.top 2).cll_error = (mem_scenario_d.sub 20).cll_error ∧
      (s2.top 1).cll_error = (mem_scenario_d.top 1).cll_error :=
  lovsub_lock_state_scenario_d mem_scenario_d 20 1 2 0 0 2 (by decide) (by decide)
    (by decide) (Or.inl rfl) (by decide) (by decide) (by decide) rfl rfl

end claims_state

section claims_modify

/-- C10 (mode non-propagation): whenever lov_sublock_modify returns, every
descriptor handed to the modify operation was handed to the top-lock `lov`
and carries the mode and object of that top-lock, and the mode and object of
the top-lock are unchanged; for a read top-lock and a write sub-lock
descriptor the call returns and the top-lock is still a read lock. -/
theorem lov_sublock_modify_mode (E : Env) (s : State) (lov sublock : Nat)
    (d : cl_lock_descr) (idx : Nat) :
    (∀ s1 r, lov_sublock_modify E s lov sublock d idx = Except.ok (s1, r) →
      ∃ evs, s1.trace = s.trace ++ evs ∧
        (∀ p desc, Event.modify p desc ∈ evs →
          p = lov ∧ desc.cld_mode = (s.top lov).cll_descr.cld_mode ∧
            desc.cld_obj = (s.top lov).cll_descr.cld_obj) ∧
        (s1.top lov).cll_descr.cld_mode = (s.top lov).cll_descr.cld_mode ∧
        (s1.top lov).cll_descr.cld_obj = (s.top lov).cll_descr.cld_obj) ∧
    ((s.top lov).cll_descr.cld_mode = CLM_READ → d.cld_mode = CLM_WRITE →
      ∃ s1 r, lov_sublock_modify E s lov sublock d idx = Except.ok (s1, r) ∧
        (s1.top lov).cll_descr.cld_mode = CLM_READ) := by
  have hpd := descr_map_obj_mode E d
    { s.lti_ldescr with cld_obj := (s.top lov).cll_descr.cld_obj,
                        cld_mode := (s.top lov).cll_descr.cld_mode }
    (s.sub sublock).lso_lsm (s.sub sublock).lso_index
  simp only at hpd
  have main : ∀ s1 r, lov_sublock_modify E s lov sublock d idx = Except.ok (s1, r) →
      ∃ evs, s1.trace = s.trace ++ evs ∧
        (∀ p desc, Event.modify p desc ∈ evs →
          p = lov ∧ desc.cld_mode = (s.top lov).cll_descr.cld_mode ∧
            desc.cld_obj = (s.top lov).cll_descr.cld_obj) ∧
        (s1.top lov).cll_descr.cld_mode = (s.top lov).cll_descr.cld_mode ∧
        (s1.top lov).cll_descr.cld_obj = (s.top lov).cll_descr.cld_obj := by
    intro s1 r h
    unfold lov_sublock_modify at h
    simp only at h
    generalize lovsub_lock_descr_map E d (s.sub sublock).lso_lsm (s.sub sublock).lso_index
      { cld_obj := (s.top lov).cll_descr.cld_obj, cld_start := s.lti_ldescr.cld_start,
        cld_end := s.lti_ldescr.cld_end, cld_mode := (s.top lov).cll_descr.cld_mode } = pd
      at h hpd
    split at h
    · split at h
      · simp only [Except.ok.injEq, Prod.mk.injEq] at h
        obtain ⟨rfl, rfl⟩ := h
        exact ⟨[], by simp [State.set_top], by simp, by simp [State.set_top],
          by simp [State.set_top]⟩
      · simp only [Except.ok.injEq] at h
        unfold cl_lock_modify at h
        simp only at h
        split at h
        · simp only [Prod.mk.injEq] at h
          obtain ⟨rfl, rfl⟩ := h
          refine ⟨[Event.modify lov pd], by simp [State.set_top, State.log], ?_,
            by simp [State.set_top], by simp [State.set_top]⟩
          intro p desc hmem
          simp only [List.mem_singleton, Event.modify.injEq] at hmem
          obtain ⟨rfl, rfl⟩ := hmem
          exact ⟨rfl, hpd.2, hpd.1⟩
        · simp only [Prod.mk.injEq] at h
          obtain ⟨rfl, rfl⟩ := h
          refine ⟨[Event.modify lov pd], by simp [State.set_top, State.log], ?_, ?_, ?_⟩
          · intro p desc hmem
            simp only [List.mem_singleton, Event.modify.injEq] at hmem
            obtain ⟨rfl, rfl⟩ := hmem
            exact ⟨rfl, hpd.2, hpd.1⟩
          · simpa [State.set_top] using hpd.2
          · simpa [State.set_top] using hpd.1
    · simp at h
  refine ⟨main, ?_⟩
  intro hr hw
  have hmatch : cl_lock_mode_match d.cld_mode (s.top lov).cll_descr.cld_mode = true := by
    rw [hr, hw]; decide
  cases hres : lov_sublock_modify E s lov sublock d idx with
  | error e =>
    unfold lov_sublock_modify at hres
    simp only [hmatch, if_true] at hres
    split at hres <;> simp at hres
  | ok res =>
    obtain ⟨s1, r⟩ := res
    obtain ⟨-, -, -, hmode, -⟩ := main s1 r hres
    exact ⟨s1, r, rfl, by rw [hmode, hr]⟩

/-- Witness for C10: the read top-lock 0 of Scenario A and a write sub-lock
descriptor for slot 2. -/
theorem lov_sublock_modify_mode_witness :
    ∃ s1 r, lov_sublock_modify env64 mem_scenario_a 0 12 descr_write 2 = Except.ok (s1, r) ∧
      (s1.top 0).cll_descr.cld_mode = CLM_READ :=
  (lov_sublock_modify_mode env64 mem_scenario_a 0 12 descr_write 2).2 rfl rfl

end claims_modify

section claims_assert

/-- The assertion of lov_sublock_modify is the only way it stops, and it
fires exactly when the mode match fails. -/
theorem sublock_modify_result (E : Env) (s : State) (lov sublock : Nat)
    (d : cl_lock_descr) (idx : Nat) :
    (cl_lock_mode_match d.cld_mode (s.top lov).cll_descr.cld_mode = true →
      ∃ s1 r, lov_sublock_modify E s lov sublock d idx = Except.ok (s1, r)) ∧
    (cl_lock_mode_match d.cld_mode (s.top lov).cll_descr.cld_mode = false →
      lov_sublock_modify E s lov sublock d idx = Except.error Halt.LASSERT) := by
  constructor
  · intro h
    unfold lov_sublock_modify
    simp only [h, if_true]
    split
    · exact ⟨_, _, rfl⟩
    · exact ⟨_, _, rfl⟩
  · intro h
    unfold lov_sublock_modify
    simp [h]

/-- C11, as stated, fails: with a read top-lock and a write descriptor (the
stronger mode) lov_sublock_modify returns, and with a write top-lock and a
read descriptor (a mode that is no stronger) the assertion fires. -/
theorem lov_sublock_modify_stronger_passes :
    (mem_scenario_a.top 0).cll_descr.cld_mode = CLM_READ ∧
    descr_write.cld_mode = CLM_WRITE ∧
    (∃ s1 r, lov_sublock_modify env64 mem_scenario_a 0 12 descr_write 2 =
      Except.ok (s1, r)) ∧
    (mem_write_top.top 0).cll_descr.cld_mode = CLM_WRITE ∧
    descr_scenario_c.cld_mode = CLM_READ ∧
    lov_sublock_modify env64 mem_write_top 0 12 descr_scenario_c 2 =
      Except.error Halt.LASSERT :=
  ⟨rfl, rfl, ⟨_, _, rfl⟩, rfl, rfl, rfl⟩

/-- C11 as amended: lov_sublock_modify requires the mode of the new
descriptor to be at least as strong as the mode of the top-lock.  It stops by
LASSERT exactly when the descriptor mode is weaker than the top-lock mode,
it stops in no other way, and it returns whenever the descriptor mode is at
least as strong; lovsub_lock_modify asserts the same of the descriptor
against the mode of the sub-lock itself. -/
theorem lov_sublock_modify_assert (E : Env) (s : State) (lov sublock : Nat)
    (d : cl_lock_descr) (idx : Nat) :
    (lov_sublock_modify E s lov sublock d idx = Except.error Halt.LASSERT ↔
      d.cld_mode < (s.top lov).cll_descr.cld_mode) ∧
    (∀ e, lov_sublock_modify E s lov sublock d idx = Except.error e → e = Halt.LASSERT) ∧
    ((s.top lov).cll_descr.cld_mode ≤ d.cld_mode →
      ∃ s1 r, lov_sublock_modify E s lov sublock d idx = Except.ok (s1, r)) ∧
    (d.cld_mode < (s.sub sublock).cll_descr.cld_mode →
      lovsub_lock_modify E s sublock d = Except.error Halt.LASSERT) := by
  obtain ⟨hok, hbad⟩ := sublock_modify_result E s lov sublock d idx
  have hdec : cl_lock_mode_match d.cld_mode (s.top lov).cll_descr.cld_mode = true ↔
      (s.top lov).cll_descr.cld_mode ≤ d.cld_mode := by
    simp [cl_lock_mode_match]
  refine ⟨⟨?_, ?_⟩, ?_, ?_, ?_⟩
  · intro h
    by_contra hlt
    obtain ⟨s1, r, h1⟩ := hok (hdec.2 (Nat.le_of_not_lt hlt))
    rw [h1] at h
    simp at h
  · intro hlt
    apply hbad
    cases hm : cl_lock_mode_match d.cld_mode (s.top lov).cll_descr.cld_mode with
    | false => rfl
    | true => exact absurd (hdec.1 hm) (Nat.not_le_of_lt hlt)
  · intro e h
    cases hm : cl_lock_mode_match d.cld_mode (s.top lov).cll_descr.cld_mode with
    | false =>
      rw [hbad hm] at h
      simp only [Except.error.injEq] at h
      exact h.symm
    | true =>
      obtain ⟨s1, r, h1⟩ := hok hm
      rw [h1] at h
      simp at h
  · intro hle
    exact hok (hdec.2 hle)
  · intro hlt
    have hm : cl_lock_mode_match d.cld_mode (s.sub sublock).cll_descr.cld_mode = false := by
      simpa [cl_lock_mode_match] using hlt
    unfold lovsub_lock_modify
    simp [hm]

/-- Witness for C11 as amended: a read descriptor against the write
top-lock 0 stops by LASSERT, and a write descriptor against the read
top-lock 0 returns. -/
theorem lov_sublock_modify_assert_witness :
    lov_sublock_modify env64 mem_write_top 0 12 descr_scenario_c 2 =
      Except.error Halt.LASSERT ∧
    (∃ s1 r, lov_sublock_modify env64 mem_scenario_a 0 12 descr_write 2 =
      Except.ok (s1, r)) :=
  ⟨(lov_sublock_modify_assert env64 mem_write_top 0 12 descr_scenario_c 2).1.2 (by decide),
   (lov_sublock_modify_assert env64 mem_scenario_a 0 12 descr_write 2).2.2.1 (by decide)⟩

end claims_assert

section claims_modify_extent

/-- The extent written by lovsub_lock_descr_map does not depend on the
descriptor that receives it. -/
theorem descr_map_extent_indep (E : Env) (d out1 out2 : cl_lock_descr)
    (lsm : lov_stripe_md) (stripe : Int) :
    (lovsub_lock_descr_map E d lsm stripe out1).cld_start =
      (lovsub_lock_descr_map E d lsm stripe out2).cld_start ∧
    (lovsub_lock_descr_map E d lsm stripe out1).cld_end =
      (lovsub_lock_descr_map E d lsm stripe out2).cld_end := by
  unfold lovsub_lock_descr_map
  simp only
  split_ifs <;> exact ⟨rfl, rfl⟩

/-- What lov_sublock_modify computes once its assertion holds, by the outcome
of the extent match. -/
theorem sublock_modify_cases (E : Env) (s : State) (lov sublock : Nat)
    (d : cl_lock_descr) (idx : Nat) (pd : cl_lock_descr)
    (hpd : pd = lovsub_lock_descr_map E d (s.sub sublock).lso_lsm (s.sub sublock).lso_index
      { s.lti_ldescr with cld_obj := (s.top lov).cll_descr.cld_obj,
                          cld_mode := (s.top lov).cll_descr.cld_mode })
    (hm : cl_lock_mode_match d.cld_mode (s.top lov).cll_descr.cld_mode = true) :
    ∃ s2 : State,
      s2.sub = s.sub ∧ s2.held = s.held ∧ s2.trace = s.trace ∧
      s2.top = Function.update s.top lov
        { s.top lov with
          lls_sub := Function.update (s.top lov).lls_sub idx
            { (s.top lov).lls_sub idx with sub_got := d } } ∧
      (E.cl_lock_ext_match (s.top lov).cll_descr pd = true →
        lov_sublock_modify E s lov sublock d idx = Except.ok (s2, 0)) ∧
      (E.cl_lock_ext_match (s.top lov).cll_descr pd = false →
        lov_sublock_modify E s lov sublock d idx = Except.ok (cl_lock_modify E s2 lov pd)) := by
  subst hpd
  refine ⟨State.set_top
    { s with lti_ldescr := (lovsub_lock_descr_map E d (s.sub sublock).lso_lsm
        (s.sub sublock).lso_index
        { s.lti_ldescr with cld_obj := (s.top lov).cll_descr.cld_obj,
                            cld_mode := (s.top lov).cll_descr.cld_mode }) } lov
    { s.top lov with
      lls_sub := Function.update (s.top lov).lls_sub idx
        { (s.top lov).lls_sub idx with sub_got := d } }, ?_, ?_, ?_, ?_, ?_, ?_⟩
  rotate_left 4
  · intro h
    unfold lov_sublock_modify
    simp only [hm, if_true]
    rw [if_pos (by simpa [State.set_top] using h)]
  · intro h
    unfold lov_sublock_modify
    simp only [hm, if_true]
    rw [if_neg (by simpa [State.set_top] using h)]
  all_goals rfl

/-- C12: once its assertion holds, lov_sublock_modify invokes the modify
operation of the top-lock exactly when the extent match between the
descriptor of the top-lock and the mapped descriptor `pd` fails; then `pd`,
whose extent is the mapping of `d`, is what is passed and the result of the
operation is returned; when the match holds nothing is invoked, the
descriptor of the top-lock is unchanged and the result is 0. -/
theorem lov_sublock_modify_invokes (E : Env) (s : State) (lov sublock : Nat)
    (d : cl_lock_descr) (idx : Nat) (pd : cl_lock_descr)
    (hpd : pd = lovsub_lock_descr_map E d (s.sub sublock).lso_lsm (s.sub sublock).lso_index
      { s.lti_ldescr with cld_obj := (s.top lov).cll_descr.cld_obj,
                          cld_mode := (s.top lov).cll_descr.cld_mode })
    (hm : cl_lock_mode_match d.cld_mode (s.top lov).cll_descr.cld_mode = true) :
    ∃ s1 r evs, lov_sublock_modify E s lov sublock d idx = Except.ok (s1, r) ∧
      s1.trace = s.trace ++ evs ∧
      ((∃ p desc, Event.modify p desc ∈ evs) ↔
        E.cl_lock_ext_match (s.top lov).cll_descr pd = false) ∧
      (E.cl_lock_ext_match (s.top lov).cll_descr pd = false →
        evs = [Event.modify lov pd] ∧ r = E.clo_modify lov pd) ∧
      (E.cl_lock_ext_match (s.top lov).cll_descr pd = true →
        evs = [] ∧ r = 0 ∧ (s1.top lov).cll_descr = (s.top lov).cll_descr) ∧
      (∀ out, pd.cld_start = (lovsub_lock_descr_map E d (s.sub sublock).lso_lsm
          (s.sub sublock).lso_index out).cld_start ∧
        pd.cld_end = (lovsub_lock_descr_map E d (s.sub sublock).lso_lsm
          (s.sub sublock).lso_index out).cld_end) := by
  obtain ⟨s2, -, -, htr, htop, hyes, hno⟩ := sublock_modify_cases E s lov sublock d idx pd hpd hm
  have hext : ∀ out, pd.cld_start = (lovsub_lock_descr_map E d (s.sub sublock).lso_lsm
        (s.sub sublock).lso_index out).cld_start ∧
      pd.cld_end = (lovsub_lock_descr_map E d (s.sub sublock).lso_lsm
        (s.sub sublock).lso_index out).cld_end := by
    intro out
    rw [hpd]
    exact descr_map_extent_indep E d _ out _ _
  cases h : E.cl_lock_ext_match (s.top lov).cll_descr pd with
  | true =>
    refine ⟨s2, 0, [], hyes h, by simp [htr], by simp, by simp, ?_, hext⟩
    intro _
    refine ⟨rfl, rfl, ?_⟩
    rw [htop]; simp
  | false =>
    have hcall := hno h
    by_cases hrc : E.clo_modify lov pd ≠ 0
    · have hmod : cl_lock_modify E s2 lov pd =
          (s2.log (Event.modify lov pd), E.clo_modify lov pd) := by
        unfold cl_lock_modify
        simp only
        rw [if_pos hrc]
      rw [hmod] at hcall
      exact ⟨_, _, [Event.modify lov pd], hcall, by simp [htr],
        by simp, fun _ => ⟨rfl, rfl⟩, by simp, hext⟩
    · have hmod : cl_lock_modify E s2 lov pd =
          ((s2.log (Event.modify lov pd)).set_top lov
            { (s2.log (Event.modify lov pd)).top lov with cll_descr := pd }, 0) := by
        unfold cl_lock_modify
        simp only
        rw [if_neg hrc]
      rw [hmod] at hcall
      refine ⟨_, _, [Event.modify lov pd], hcall, by simp [htr],
        by simp, fun _ => ⟨rfl, ?_⟩, by simp, hext⟩
      exact (not_not.1 hrc).symm

/-- Witness for C12: slot 1 of top-lock 0 covers [0, 0]; the descriptor
[0, 9999] of stripe 1 maps to [1000, 28999], the match fails and the modify
operation is called with it. -/
theorem lov_sublock_modify_invokes_witness :
    ∃ s1 r, lov_sublock_modify env64 mem_striped 0 12 descr_scenario_c 1 = Except.ok (s1, r) ∧
      s1.trace = mem_striped.trace ++
        [Event.modify 0 { cld_obj := 0, cld_start := 1000, cld_end := 28999,
                          cld_mode := CLM_READ }] ∧
      r = 0 := by
  obtain ⟨s1, r, evs, h1, h2, -, h4, -, -⟩ :=
    lov_sublock_modify_invokes env64 mem_striped 0 12 descr_scenario_c 1
      { cld_obj := 0, cld_start := 1000, cld_end := 28999, cld_mode := CLM_READ }
      (by decide) (by decide)
  obtain ⟨e1, e2⟩ := h4 (by decide)
  exact ⟨s1, r, h1, by rw [h2, e1], by rw [e2]; rfl⟩

/-- C13, as stated, fails: after lov_sublock_modify with the descriptor
[0, 9999] of stripe 1 of 3 stripes of 1000 pages, the applied coverage of the
slot is [0, 9999], the descriptor passed, while the mapping of that
descriptor is [1000, 28999]. -/
theorem lov_sublock_modify_got_unmapped :
    ∃ s1 r, lov_sublock_modify env64 mem_striped 0 12 descr_scenario_c 1 = Except.ok (s1, r) ∧
      ((s1.top 0).lls_sub 1).sub_got = descr_scenario_c ∧
      ((s1.top 0).lls_sub 1).sub_got.cld_start = 0 ∧
      ((s1.top 0).lls_sub 1).sub_got.cld_end = 9999 ∧
      (lovsub_lock_descr_map env64 descr_scenario_c (mem_striped.sub 12).lso_lsm
        (mem_striped.sub 12).lso_index descr_zero).cld_start = 1000 ∧
      (lovsub_lock_descr_map env64 descr_scenario_c (mem_striped.sub 12).lso_lsm
        (mem_striped.sub 12).lso_index descr_zero).cld_end = 28999 :=
  ⟨_, _, rfl, by decide, by decide, by decide, by decide, by decide⟩

/-- C13 as amended: once its assertion holds, lov_sublock_modify records in
slot `idx` of the top-lock, as applied coverage, the descriptor `d` itself
(stripe-relative, not mapped); the requested descriptor and the sub-lock of
that slot, every other slot and every other top-lock are unchanged. -/
theorem lov_sublock_modify_got (E : Env) (s : State) (lov sublock : Nat)
    (d : cl_lock_descr) (idx : Nat)
    (hm : cl_lock_mode_match d.cld_mode (s.top lov).cll_descr.cld_mode = true) :
    ∃ s1 r, lov_sublock_modify E s lov sublock d idx = Except.ok (s1, r) ∧
      ((s1.top lov).lls_sub idx).sub_got = d ∧
      ((s1.top lov).lls_sub idx).sub_descr = ((s.top lov).lls_sub idx).sub_descr ∧
      ((s1.top lov).lls_sub idx).sub_lock = ((s.top lov).lls_sub idx).sub_lock ∧
      (∀ j, j ≠ idx → (s1.top lov).lls_sub j = (s.top lov).lls_sub j) ∧
      (∀ q, q ≠ lov → s1.top q = s.top q) := by
  obtain ⟨s2, -, -, -, htop, hyes, hno⟩ :=
    sublock_modify_cases E s lov sublock d idx _ rfl hm
  have key : ∀ s1 : State, (s1.top lov).lls_sub = (s2.top lov).lls_sub →
      (∀ q, q ≠ lov → s1.top q = s2.top q) →
      ((s1.top lov).lls_sub idx).sub_got = d ∧
      ((s1.top lov).lls_sub idx).sub_descr = ((s.top lov).lls_sub idx).sub_descr ∧
      ((s1.top lov).lls_sub idx).sub_lock = ((s.top lov).lls_sub idx).sub_lock ∧
      (∀ j, j ≠ idx → (s1.top lov).lls_sub j = (s.top lov).lls_sub j) ∧
      (∀ q, q ≠ lov → s1.top q = s.top q) := by
    intro s1 h1 h2
    rw [h1, htop]
    refine ⟨by simp, by simp, by simp, ?_, ?_⟩
    · intro j hj; simp [Function.update_noteq hj]
    · intro q hq; rw [h2 q hq, htop, Function.update_noteq hq]
  generalize hpd : lovsub_lock_descr_map E d (s.sub sublock).lso_lsm
    (s.sub sublock).lso_index
    { s.lti_ldescr with cld_obj := (s.top lov).cll_descr.cld_obj,
                        cld_mode := (s.top lov).cll_descr.cld_mode } = pd at hyes hno
  cases h : E.cl_lock_ext_match (s.top lov).cll_descr pd with
  | true => exact ⟨s2, 0, hyes h, key s2 rfl (fun _ _ => rfl)⟩
  | false =>
    refine ⟨(cl_lock_modify E s2 lov pd).1, (cl_lock_modify E s2 lov pd).2, hno h, ?_⟩
    apply key
    · unfold cl_lock_modify
      simp only
      split
      · rfl
      · simp
    · intro q hq
      unfold cl_lock_modify
      simp only
      split
      · rfl
      · simp [Function.update_noteq hq]

/-- Witness for C13 as amended: the call of the counterexample. -/
theorem lov_sublock_modify_got_witness :
    ∃ s1 r, lov_sublock_modify env64 mem_striped 0 12 descr_scenario_c 1 = Except.ok (s1, r) ∧
      ((s1.top 0).lls_sub 1).sub_got = descr_scenario_c ∧
      ((s1.top 0).lls_sub 1).sub_descr = ((mem_striped.top 0).lls_sub 1).sub_descr ∧
      ((s1.top 0).lls_sub 1).sub_lock = ((mem_striped.top 0).lls_sub 1).sub_lock ∧
      (∀ j, j ≠ 1 → (s1.top 0).lls_sub j = (mem_striped.top 0).lls_sub j) ∧
      (∀ q, q ≠ 0 → s1.top q = mem_striped.top q) :=
  lov_sublock_modify_got env64 mem_striped 0 12 descr_scenario_c 1 (by decide)

end claims_modify_extent

section claims_modify_all

theorem parent_visits_append (a b : List Event) :
    parent_visits (a ++ b) = parent_visits a ++ parent_visits b := by
  induction a with
  | nil => rfl
  | cons e es ih => cases e <;> simp [parent_visits, ih]

theorem first_nonzero_acc (acc rc : Int) (rcs : List Int) :
    first_nonzero ((if acc ≠ 0 then acc else rc) :: rcs) = first_nonzero (acc :: rc :: rcs) := by
  by_cases h : acc ≠ 0
  · simp [first_nonzero, h]
  · have h0 : acc = 0 := not_not.1 h
    simp [first_nonzero, h0]

/-- What lov_sublock_modify leaves alone: no parent is visited, the modes of
all top-locks, the sub-locks and the held mutices are unchanged. -/
theorem sublock_modify_frame (E : Env) (s : State) (lov sublock : Nat)
    (d : cl_lock_descr) (idx : Nat) (s1 : State) (r : Int)
    (h : lov_sublock_modify E s lov sublock d idx = Except.ok (s1, r)) :
    (∃ evs, s1.trace = s.trace ++ evs ∧ parent_visits evs = []) ∧
    (∀ q, (s1.top q).cll_descr.cld_mode = (s.top q).cll_descr.cld_mode) ∧
    s1.sub = s.sub ∧ s1.held = s.held := by
  cases hm : cl_lock_mode_match d.cld_mode (s.top lov).cll_descr.cld_mode with
  | false =>
    rw [(sublock_modify_result E s lov sublock d idx).2 hm] at h
    simp at h
  | true =>
    obtain ⟨s2, hsub, hheld, htr, htop, hyes, hno⟩ :=
      sublock_modify_cases E s lov sublock d idx _ rfl hm
    have hpdm := (descr_map_obj_mode E d
      { s.lti_ldescr with cld_obj := (s.top lov).cll_descr.cld_obj,
                          cld_mode := (s.top lov).cll_descr.cld_mode }
      (s.sub sublock).lso_lsm (s.sub sublock).lso_index).2
    simp only at hpdm
    generalize lovsub_lock_descr_map E d (s.sub sublock).lso_lsm
      (s.sub sublock).lso_index
      { s.lti_ldescr with cld_obj := (s.top lov).cll_descr.cld_obj,
                          cld_mode := (s.top lov).cll_descr.cld_mode } = pd
      at hyes hno hpdm
    have hmode2 : ∀ q, (s2.top q).cll_descr.cld_mode = (s.top q).cll_descr.cld_mode := by
      intro q
      rw [htop]
      by_cases hq : q = lov
      · subst hq; simp
      · rw [Function.update_noteq hq]
    cases hx : E.cl_lock_ext_match (s.top lov).cll_descr pd with
    | true =>
      rw [hyes hx] at h
      simp only [Except.ok.injEq, Prod.mk.injEq] at h
      obtain ⟨rfl, rfl⟩ := h
      exact ⟨⟨[], by simp [htr], rfl⟩, hmode2, hsub, hheld⟩
    | false =>
      rw [hno hx] at h
      simp only [Except.ok.injEq] at h
      unfold cl_lock_modify at h
      simp only at h
      split at h
      · simp only [Prod.mk.injEq] at h
        obtain ⟨rfl, rfl⟩ := h
        exact ⟨⟨[Event.modify lov pd], by simp [htr], rfl⟩, hmode2, hsub, hheld⟩
      · simp only [Prod.mk.injEq] at h
        obtain ⟨rfl, rfl⟩ := h
        refine ⟨⟨[Event.modify lov pd], by simp [htr], rfl⟩, ?_, hsub, hheld⟩
        intro q
        by_cases hq : q = lov
        · subst hq
          simp only [set_top_top, Function.update_same, log_top]
          rw [hpdm]
        · simp only [set_top_top, Function.update_noteq hq, log_top]
          exact hmode2 q

/-- The loop of lovsub_lock_modify returns the first non-zero among the value
remembered on entry and the results of all parents. -/
theorem modify_scan_eq (E : Env) (lock : Nat) (d : cl_lock_descr)
    (links : List lov_lock_link) :
    ∀ (s : State) (acc : Int),
      lovsub_lock_modify_scan E lock d links s acc =
        (modify_each_parent E lock d links s).map
          (fun r => (r.1, first_nonzero (acc :: r.2))) := by
  induction links with
  | nil =>
    intro s acc
    simp only [lovsub_lock_modify_scan, modify_each_parent, Except.map]
    by_cases h : acc ≠ 0
    · simp [first_nonzero, h]
    · simp [first_nonzero, not_not.1 h]
  | cons scan rest ih =>
    intro s acc
    rw [lovsub_lock_modify_scan, modify_each_parent]
    cases hcall : lov_sublock_modify E (lovsub_parent_lock s scan.lll_super) scan.lll_super
        lock d scan.lll_idx with
    | error e => rfl
    | ok res =>
      obtain ⟨s1, rc⟩ := res
      simp only
      rw [ih]
      cases hrest : modify_each_parent E lock d rest
          (lovsub_parent_unlock s1 scan.lll_super) with
      | error e => rfl
      | ok res2 =>
        obtain ⟨s2, rcs⟩ := res2
        simp only [Except.map]
        rw [first_nonzero_acc]

/-- When every parent was attempted: one result per parent, every parent
visited once and in order, modes and sub-locks unchanged. -/
theorem modify_each_ok (E : Env) (lock : Nat) (d : cl_lock_descr)
    (links : List lov_lock_link) :
    ∀ (s s1 : State) (rcs : List Int),
      modify_each_parent E lock d links s = Except.ok (s1, rcs) →
      rcs.length = links.length ∧
      (∃ evs, s1.trace = s.trace ++ evs ∧
        parent_visits evs = links.map (fun l => l.lll_super)) ∧
      (∀ q, (s1.top q).cll_descr.cld_mode = (s.top q).cll_descr.cld_mode) ∧
      s1.sub = s.sub := by
  induction links with
  | nil =>
    intro s s1 rcs h
    simp only [modify_each_parent, Except.ok.injEq, Prod.mk.injEq] at h
    obtain ⟨rfl, rfl⟩ := h
    exact ⟨rfl, ⟨[], by simp, rfl⟩, fun _ => rfl, rfl⟩
  | cons scan rest ih =>
    intro s s1 rcs h
    rw [modify_each_parent] at h
    cases hcall : lov_sublock_modify E (lovsub_parent_lock s scan.lll_super) scan.lll_super
        lock d scan.lll_idx with
    | error e => rw [hcall] at h; simp at h
    | ok res =>
      obtain ⟨s2, rc⟩ := res
      rw [hcall] at h
      simp only at h
      cases hrest : modify_each_parent E lock d rest
          (lovsub_parent_unlock s2 scan.lll_super) with
      | error e => rw [hrest] at h; simp at h
      | ok res2 =>
        obtain ⟨s3, rcs2⟩ := res2
        rw [hrest] at h
        simp only [Except.ok.injEq, Prod.mk.injEq] at h
        obtain ⟨rfl, rfl⟩ := h
        obtain ⟨⟨e1, htr1, hv1⟩, hmode1, hsub1, -⟩ :=
          sublock_modify_frame E _ _ _ _ _ s2 rc hcall
        obtain ⟨hlen, ⟨e2, htr2, hv2⟩, hmode2, hsub2⟩ := ih _ s3 rcs2 hrest
        refine ⟨by simp [hlen], ?_, ?_, ?_⟩
        · refine ⟨[Event.get scan.lll_super, Event.mutex_get (LockId.top scan.lll_super)] ++
            (e1 ++ ([Event.mutex_put (LockId.top scan.lll_super), Event.put scan.lll_super]
              ++ e2)), ?_, ?_⟩
          · rw [htr2]
            simp only [lovsub_parent_unlock, log_trace, mutex_put_trace, htr1,
              lovsub_parent_lock, mutex_get_trace, List.append_assoc]
            rfl
          · simp [parent_visits_append, hv1, hv2, parent_visits]
        · intro q
          rw [hmode2 q]
          exact hmode1 q
        · rw [hsub2]
          exact hsub1

/-- Every parent is attempted when the assertion holds for each of them. -/
theorem modify_each_total (E : Env) (lock : Nat) (d : cl_lock_descr)
    (links : List lov_lock_link) :
    ∀ (s : State),
      (∀ l ∈ links, cl_lock_mode_match d.cld_mode (s.top l.lll_super).cll_descr.cld_mode
        = true) →
      ∃ s1 rcs, modify_each_parent E lock d links s = Except.ok (s1, rcs) := by
  induction links with
  | nil => intro s _; exact ⟨s, [], rfl⟩
  | cons scan rest ih =>
    intro s hall
    rw [modify_each_parent]
    obtain ⟨s2, rc, hcall⟩ := (sublock_modify_result E (lovsub_parent_lock s scan.lll_super)
      scan.lll_super lock d scan.lll_idx).1 (hall scan (List.mem_cons_self _ _))
    rw [hcall]
    simp only
    obtain ⟨-, hmode, -, -⟩ := sublock_modify_frame E _ _ _ _ _ s2 rc hcall
    obtain ⟨s3, rcs, hrest⟩ := ih (lovsub_parent_unlock s2 scan.lll_super) (by
      intro l hl
      have := hall l (List.mem_cons_of_mem _ hl)
      have e : ((lovsub_parent_unlock s2 scan.lll_super).top l.lll_super).cll_descr.cld_mode
          = (s.top l.lll_super).cll_descr.cld_mode := hmode l.lll_super
      rw [e]; exact this)
    rw [hrest]
    exact ⟨s3, rc :: rcs, rfl⟩

/-- C14: lovsub_lock_modify applies lov_sublock_modify to every parent once,
in order, whatever the earlier results, and returns the first non-zero
result, 0 when there is none.  The loop agrees with the reference
`modify_each_parent`, which keeps one result per parent and visits each
parent once; and the function returns when its assertion and the assertion
of lov_sublock_modify for each parent hold. -/
theorem lovsub_lock_modify_every_parent (E : Env) (s : State) (lock : Nat)
    (d : cl_lock_descr) :
    lovsub_lock_modify_scan E lock d (s.sub lock).lss_parents s 0 =
      (modify_each_parent E lock d (s.sub lock).lss_parents s).map
        (fun r => (r.1, first_nonzero r.2)) ∧
    (∀ s1 rcs, modify_each_parent E lock d (s.sub lock).lss_parents s = Except.ok (s1, rcs) →
      rcs.length = (s.sub lock).lss_parents.length ∧
      ∃ evs, s1.trace = s.trace ++ evs ∧
        parent_visits evs = (s.sub lock).lss_parents.map (fun l => l.lll_super)) ∧
    (cl_lock_mode_match d.cld_mode (s.sub lock).cll_descr.cld_mode = true →
      (∀ l ∈ (s.sub lock).lss_parents,
        cl_lock_mode_match d.cld_mode (s.top l.lll_super).cll_descr.cld_mode = true) →
      ∃ s1 rcs, modify_each_parent E lock d (s.sub lock).lss_parents s = Except.ok (s1, rcs) ∧
        lovsub_lock_modify E s lock d = Except.ok (s1, first_nonzero rcs)) ∧
    (cl_lock_mode_match d.cld_mode (s.sub lock).cll_descr.cld_mode = true →
      (s.sub lock).lss_parents = [] →
      lovsub_lock_modify E s lock d = Except.ok (s, 0)) := by
  have heq : lovsub_lock_modify_scan E lock d (s.sub lock).lss_parents s 0 =
      (modify_each_parent E lock d (s.sub lock).lss_parents s).map
        (fun r => (r.1, first_nonzero r.2)) := by
    rw [modify_scan_eq]
    cases modify_each_parent E lock d (s.sub lock).lss_parents s with
    | error e => rfl
    | ok res => simp [Except.map, first_nonzero]
  refine ⟨heq, ?_, ?_, ?_⟩
  · intro s1 rcs h
    obtain ⟨hlen, hev, -, -⟩ := modify_each_ok E lock d _ s s1 rcs h
    exact ⟨hlen, hev⟩
  · intro hown hall
    obtain ⟨s1, rcs, h⟩ := modify_each_total E lock d _ s hall
    refine ⟨s1, rcs, h, ?_⟩
    unfold lovsub_lock_modify
    rw [if_pos hown, heq, h]
    rfl
  · intro hown hnil
    unfold lovsub_lock_modify
    rw [if_pos hown, hnil]
    rfl

/-- Witness for C14: sub-lock 20 has the parents 1 and 2, whose modify
operations fail with -5 and -7; both are attempted and -5 is returned. -/
theorem lovsub_lock_modify_every_parent_witness :
    ∃ s1, modify_each_parent env_refusing 20 descr_write (mem_scenario_d.sub 20).lss_parents
        mem_scenario_d = Except.ok (s1, [-5, -7]) ∧
      lovsub_lock_modify env_refusing mem_scenario_d 20 descr_write = Except.ok (s1, -5) ∧
      parent_visits s1.trace = [1, 2] := by
  obtain ⟨s1, rcs, h1, h2⟩ :=
    (lovsub_lock_modify_every_parent env_refusing mem_scenario_d 20 descr_write).2.2.1
      (by decide) (by decide)
  have h3 : modify_each_parent env_refusing 20 descr_write (mem_scenario_d.sub 20).lss_parents
      mem_scenario_d = Except.ok (_, [-5, -7]) := rfl
  rw [h3] at h1
  simp only [Except.ok.injEq, Prod.mk.injEq] at h1
  obtain ⟨rfl, rfl⟩ := h1
  exact ⟨_, rfl, h2, by decide⟩

end claims_modify_all

section claims_delete_frame

/-- C15: in lovsub_lock_delete_one, for a parent in state NEW, QUEUING,
ENQUEUED, FREEING or UNLOCKING the state is unchanged, nothing is cancelled
or deleted, no mutex is released and the result is 0; the parent is
signalled exactly in the first four states, and its race flag becomes 1
exactly in state UNLOCKING and is unchanged otherwise. -/
theorem lovsub_lock_delete_one_signal_or_race (s : State) (child lov : Nat)
    (hst : (s.top lov).cll_state = CLS_NEW ∨ (s.top lov).cll_state = CLS_QUEUING ∨
      (s.top lov).cll_state = CLS_ENQUEUED ∨ (s.top lov).cll_state = CLS_FREEING ∨
      (s.top lov).cll_state = CLS_UNLOCKING) :
    ∃ s1 evs, lovsub_lock_delete_one s child lov = Except.ok (s1, 0) ∧
      s1.trace = s.trace ++ evs ∧
      (s1.top lov).cll_state = (s.top lov).cll_state ∧
      (∀ q, Event.cancel q ∉ evs ∧ Event.delete q ∉ evs) ∧
      (∀ m, Event.mutex_put m ∉ evs) ∧
      s1.held = s.held ∧
      (Event.signal lov ∈ evs ↔
        ((s.top lov).cll_state = CLS_NEW ∨ (s.top lov).cll_state = CLS_QUEUING ∨
          (s.top lov).cll_state = CLS_ENQUEUED ∨ (s.top lov).cll_state = CLS_FREEING)) ∧
      (evs = [Event.signal lov] ∨ evs = []) ∧
      (s1.top lov).lls_unuse_race =
        (if (s.top lov).cll_state = CLS_UNLOCKING then 1 else (s.top lov).lls_unuse_race) ∧
      (s1.top lov).lls_nr_filled = (s.top lov).lls_nr_filled ∧
      (s1.top lov).lls_sub = (s.top lov).lls_sub ∧
      (∀ q, q ≠ lov → s1.top q = s.top q) ∧
      s1.sub = s.sub := by
  rcases delete_one_cases s child lov with
    ⟨hc, e⟩ | ⟨hc, e⟩ | ⟨hc, _, _⟩ | ⟨hc, _, _⟩ | ⟨hc, _⟩
  · have hnu : (s.top lov).cll_state ≠ CLS_UNLOCKING := by
      rcases hc with h | h | h | h <;> rw [h] <;> decide
    refine ⟨_, [Event.signal lov], e, ?_, ?_, ?_, ?_, ?_, ?_, Or.inl rfl, ?_, ?_, ?_, ?_, ?_⟩
    · simp [cl_lock_signal]
    · simp [cl_lock_signal]
    · intro q; simp
    · intro m; simp
    · simp [cl_lock_signal]
    · simp [hc]
    · simp [cl_lock_signal, hnu]
    · simp [cl_lock_signal]
    · simp [cl_lock_signal]
    · intro q _; simp [cl_lock_signal]
    · simp [cl_lock_signal]
  · have hn4 : ¬ ((s.top lov).cll_state = CLS_NEW ∨ (s.top lov).cll_state = CLS_QUEUING ∨
        (s.top lov).cll_state = CLS_ENQUEUED ∨ (s.top lov).cll_state = CLS_FREEING) := by
      rw [hc]; decide
    refine ⟨_, [], e, ?_, ?_, ?_, ?_, ?_, ?_, Or.inr rfl, ?_, ?_, ?_, ?_, ?_⟩
    · simp
    · simp
    · intro q; simp
    · intro m; simp
    · simp
    · simp [hn4]
    · simp [hc]
    · simp
    · simp
    · intro q hq; simp [Function.update_noteq hq]
    · simp
  · exfalso
    rw [hc] at hst
    revert hst; decide
  · exfalso
    rw [hc] at hst
    revert hst; decide
  · exfalso
    apply hc
    unfold delete_state_handled
    tauto

/-- Witness for C15: a NEW parent is signalled, an UNLOCKING parent gets its
race flag set. -/
theorem lovsub_lock_delete_one_signal_or_race_witness :
    (∃ s1, lovsub_lock_delete_one mem_scenario_b 10 0 = Except.ok (s1, 0) ∧
      s1.trace = mem_scenario_b.trace ++ [Event.signal 0]) ∧
    (∃ s1, lovsub_lock_delete_one mem_unlocking 12 0 = Except.ok (s1, 0) ∧
      s1.trace = mem_unlocking.trace ∧ (s1.top 0).lls_unuse_race = 1) := by
  obtain ⟨s1, evs, h1, h2, -, -, -, -, h7, -, -⟩ :=
    lovsub_lock_delete_one_signal_or_race mem_scenario_b 10 0 (Or.inl rfl)
  obtain ⟨s2, evs2, g1, g2, -, -, -, -, g7, g8, g9, -⟩ :=
    lovsub_lock_delete_one_signal_or_race mem_unlocking 12 0
      (Or.inr (Or.inr (Or.inr (Or.inr rfl))))
  refine ⟨⟨s1, h1, ?_⟩, ⟨s2, g1, ?_, ?_⟩⟩
  · have hm : Event.signal 0 ∈ evs := h7.2 (Or.inl rfl)
    have he : lovsub_lock_delete_one mem_scenario_b 10 0 =
        Except.ok (cl_lock_signal mem_scenario_b 0, 0) := rfl
    rw [he] at h1
    simp only [Except.ok.injEq, Prod.mk.injEq, and_true] at h1
    rw [← h1]; rfl
  · have hn : Event.signal 0 ∉ evs2 := fun h => absurd (g7.1 h) (by decide)
    rcases g8 with h | h
    · rw [h] at hn; simp at hn
    · rw [g2, h]; simp
  · rw [g9]; rfl

end claims_delete_frame

section claims_state_one

/-- Held mutices after the error path: the parent mutex taken and released,
the sub-lock mutex released. -/
theorem held_after_release (h : List LockId) (c lov : Nat) :
    ((LockId.top lov :: h).erase (LockId.sub c)).erase (LockId.top lov) =
      h.erase (LockId.sub c) := by
  have hne : (LockId.top lov == LockId.sub c) = false := by
    simp
  rw [List.erase_cons, hne]
  simp

/-- C16: lovsub_lock_state_one.  For the active parent nothing is done and 0
is returned.  Otherwise, if the sub-lock has an error and the top-lock has
none, the sub-lock mutex is released, the error of the sub-lock is delivered
to the top-lock and 1 is returned; in every other case the top-lock is
signalled, no error is delivered, the held mutices are unchanged and 0 is
returned.  The result is 1 exactly when an error was delivered. -/
theorem lovsub_lock_state_one_cases (s : State) (c lov : Nat) :
    ((s.sub c).lss_active = some lov → lovsub_lock_state_one s c lov = (s, 0)) ∧
    ((s.sub c).lss_active ≠ some lov → (s.sub c).cll_error ≠ 0 →
      (s.top lov).cll_error = 0 →
      ∃ s1, lovsub_lock_state_one s c lov = (s1, 1) ∧
        s1.trace = s.trace ++ [Event.get lov, Event.mutex_get (LockId.top lov),
          Event.mutex_put (LockId.sub c), Event.error lov (s.sub c).cll_error,
          Event.mutex_put (LockId.top lov), Event.put lov] ∧
        (s1.top lov).cll_error = (s.sub c).cll_error ∧
        s1.held = s.held.erase (LockId.sub c)) ∧
    ((s.sub c).lss_active ≠ some lov →
      ¬ ((s.sub c).cll_error ≠ 0 ∧ (s.top lov).cll_error = 0) →
      ∃ s1, lovsub_lock_state_one s c lov = (s1, 0) ∧
        s1.trace = s.trace ++ [Event.get lov, Event.mutex_get (LockId.top lov),
          Event.signal lov, Event.mutex_put (LockId.top lov), Event.put lov] ∧
        s1.top = s.top ∧ s1.held = s.held) ∧
    (∃ evs, (lovsub_lock_state_one s c lov).1.trace = s.trace ++ evs ∧
      ((lovsub_lock_state_one s c lov).2 = 0 ∨ (lovsub_lock_state_one s c lov).2 = 1) ∧
      ((lovsub_lock_state_one s c lov).2 = 1 ↔ error_events evs ≠ [])) := by
  have hact : (s.sub c).lss_active = some lov → lovsub_lock_state_one s c lov = (s, 0) := by
    intro h
    unfold lovsub_lock_state_one
    rw [if_neg (not_not.2 h)]
  have herr : (s.sub c).lss_active ≠ some lov → (s.sub c).cll_error ≠ 0 →
      (s.top lov).cll_error = 0 →
      ∃ s1, lovsub_lock_state_one s c lov = (s1, 1) ∧
        s1.trace = s.trace ++ [Event.get lov, Event.mutex_get (LockId.top lov),
          Event.mutex_put (LockId.sub c), Event.error lov (s.sub c).cll_error,
          Event.mutex_put (LockId.top lov), Event.put lov] ∧
        (s1.top lov).cll_error = (s.sub c).cll_error ∧
        s1.held = s.held.erase (LockId.sub c) := by
    intro h1 h2 h3
    refine ⟨_, state_one_error s c lov h1 h2 h3, ?_, ?_, ?_⟩
    · simp [lovsub_parent_unlock, cl_lock_error, lovsub_parent_lock]
    · simp [lovsub_parent_unlock, cl_lock_error, lovsub_parent_lock]
    · simp only [lovsub_parent_unlock, cl_lock_error, lovsub_parent_lock, log_held,
        mutex_put_held, set_top_held, mutex_get_held]
      exact held_after_release s.held c lov
  have hsig : (s.sub c).lss_active ≠ some lov →
      ¬ ((s.sub c).cll_error ≠ 0 ∧ (s.top lov).cll_error = 0) →
      ∃ s1, lovsub_lock_state_one s c lov = (s1, 0) ∧
        s1.trace = s.trace ++ [Event.get lov, Event.mutex_get (LockId.top lov),
          Event.signal lov, Event.mutex_put (LockId.top lov), Event.put lov] ∧
        s1.top = s.top ∧ s1.held = s.held := by
    intro h1 h2
    have h3 : (s.sub c).cll_error = 0 ∨ (s.top lov).cll_error ≠ 0 := by
      by_cases h : (s.sub c).cll_error = 0
      · exact Or.inl h
      · exact Or.inr (fun h' => h2 ⟨h, h'⟩)
    refine ⟨_, state_one_signal s c lov h1 h3, ?_, rfl, ?_⟩
    · simp [lovsub_parent_unlock, cl_lock_signal, lovsub_parent_lock]
    · simp [lovsub_parent_unlock, cl_lock_signal, lovsub_parent_lock]
  refine ⟨hact, herr, hsig, ?_⟩
  by_cases ha : (s.sub c).lss_active = some lov
  · rw [hact ha]
    exact ⟨[], by simp, Or.inl rfl, by simp [error_events]⟩
  · by_cases he : (s.sub c).cll_error ≠ 0 ∧ (s.top lov).cll_error = 0
    · obtain ⟨s1, h1, h2, -, -⟩ := herr ha he.1 he.2
      rw [h1]
      exact ⟨_, h2, Or.inr rfl, by simp [error_events]⟩
    · obtain ⟨s1, h1, h2, -, -⟩ := hsig ha he
      rw [h1]
      exact ⟨_, h2, Or.inl rfl, by simp [error_events]⟩

/-- Witness for C16: in Scenario D the clean top-lock 2 is delivered the
error -5 of sub-lock 20. -/
theorem lovsub_lock_state_one_cases_witness :
    ∃ s1, lovsub_lock_state_one mem_scenario_d 20 2 = (s1, 1) ∧
      s1.trace = mem_scenario_d.trace ++ [Event.get 2, Event.mutex_get (LockId.top 2),
        Event.mutex_put (LockId.sub 20), Event.error 2 (mem_scenario_d.sub 20).cll_error,
        Event.mutex_put (LockId.top 2), Event.put 2] ∧
      (s1.top 2).cll_error = (mem_scenario_d.sub 20).cll_error ∧
      s1.held = mem_scenario_d.held.erase (LockId.sub 20) :=
  (lovsub_lock_state_one_cases mem_scenario_d 20 2).2.1 (by decide) (by decide) rfl

end claims_state_one

section claims_closure_weigh

/-- A pass of the closure loop over parents that are all accepted. -/
theorem closure_scan_accepted (E : Env) (links : List lov_lock_link) :
    ∀ s : State, (∀ l ∈ links, E.cl_lock_closure_build l.lll_super = 0) →
      ∃ s1, lovsub_lock_closure_scan E links s = (s1, 0) ∧
        s1.trace = s.trace ++ links.map (fun l => Event.closure_build l.lll_super) ∧
        s1.top = s.top ∧ s1.sub = s.sub ∧ s1.held = s.held := by
  induction links with
  | nil => intro s _; exact ⟨s, rfl, by simp, rfl, rfl, rfl⟩
  | cons scan rest ih =>
    intro s hall
    have h0 := hall scan (List.mem_cons_self _ _)
    obtain ⟨s1, h1, h2, h3, h4, h5⟩ := ih (s.log (Event.closure_build scan.lll_super))
      (fun l hl => hall l (List.mem_cons_of_mem _ hl))
    refine ⟨s1, ?_, ?_, h3, h4, h5⟩
    · rw [lovsub_lock_closure_scan]
      simp only [cl_lock_closure_build, h0, ne_eq, not_true_eq_false, if_false]
      exact h1
    · rw [h2]; simp

/-- A pass of the closure loop stops at the first parent that is refused. -/
theorem closure_scan_refused (E : Env) (pre : List lov_lock_link) (l : lov_lock_link)
    (post : List lov_lock_link) :
    ∀ s : State, (∀ x ∈ pre, E.cl_lock_closure_build x.lll_super = 0) →
      E.cl_lock_closure_build l.lll_super ≠ 0 →
      ∃ s1, lovsub_lock_closure_scan E (pre ++ l :: post) s =
          (s1, E.cl_lock_closure_build l.lll_super) ∧
        s1.trace = s.trace ++
          (pre ++ [l]).map (fun x => Event.closure_build x.lll_super) ∧
        s1.top = s.top ∧ s1.sub = s.sub ∧ s1.held = s.held := by
  induction pre with
  | nil =>
    intro s _ hl
    refine ⟨s.log (Event.closure_build l.lll_super), ?_, by simp, rfl, rfl, rfl⟩
    simp only [List.nil_append]
    rw [lovsub_lock_closure_scan]
    simp only [cl_lock_closure_build]
    rw [if_pos hl]
  | cons scan rest ih =>
    intro s hall hl
    have h0 := hall scan (List.mem_cons_self _ _)
    obtain ⟨s1, h1, h2, h3, h4, h5⟩ := ih (s.log (Event.closure_build scan.lll_super))
      (fun x hx => hall x (List.mem_cons_of_mem _ hx)) hl
    refine ⟨s1, ?_, ?_, h3, h4, h5⟩
    · simp only [List.cons_append]
      rw [lovsub_lock_closure_scan]
      simp only [cl_lock_closure_build, h0, ne_eq, not_true_eq_false, if_false]
      exact h1
    · rw [h2]; simp

/-- C17: lovsub_lock_closure calls the closure-builder on the parents in
order.  It stops at the first parent for which the result is non-zero and
returns that result, no later parent being visited; when every result is
zero (or there is no parent) all parents are added and the result is 0. -/
theorem lovsub_lock_closure_first_failure (E : Env) (s : State) (sub : Nat)
    (hm : cl_lock_is_mutexed s (LockId.sub sub) = true) :
    (∀ pre l post, (s.sub sub).lss_parents = pre ++ l :: post →
      (∀ x ∈ pre, E.cl_lock_closure_build x.lll_super = 0) →
      E.cl_lock_closure_build l.lll_super ≠ 0 →
      ∃ s1, lovsub_lock_closure E s sub =
          Except.ok (s1, E.cl_lock_closure_build l.lll_super) ∧
        s1.trace = s.trace ++
          (pre ++ [l]).map (fun x => Event.closure_build x.lll_super)) ∧
    ((∀ l ∈ (s.sub sub).lss_parents, E.cl_lock_closure_build l.lll_super = 0) →
      ∃ s1, lovsub_lock_closure E s sub = Except.ok (s1, 0) ∧
        s1.trace = s.trace ++
          (s.sub sub).lss_parents.map (fun x => Event.closure_build x.lll_super)) := by
  constructor
  · intro pre l post hpar hpre hl
    obtain ⟨s1, h1, h2, -, -, -⟩ := closure_scan_refused E pre l post s hpre hl
    refine ⟨s1, ?_, h2⟩
    unfold lovsub_lock_closure
    rw [if_pos hm, hpar, h1]
  · intro hall
    obtain ⟨s1, h1, h2, -, -, -⟩ := closure_scan_accepted E _ s hall
    refine ⟨s1, ?_, h2⟩
    unfold lovsub_lock_closure
    rw [if_pos hm, h1]

/-- Witness for C17: of the parents 1, 2, 3 the second is refused with -11;
parents 1 and 2 are visited, parent 3 is not, and -11 is returned. -/
theorem lovsub_lock_closure_first_failure_witness :
    ∃ s1, lovsub_lock_closure env_closure mem_three_parents 20 = Except.ok (s1, -11) ∧
      s1.trace = [Event.closure_build 1, Event.closure_build 2] :=
  (lovsub_lock_closure_first_failure env_closure mem_three_parents 20 rfl).1
    [{ lll_super := 1, lll_idx := 0 }] { lll_super := 2, lll_idx := 0 }
    [{ lll_super := 3, lll_idx := 0 }] rfl (by decide) (by decide)

/-- C18: lovsub_lock_weigh returns 0 for a sub-lock without parents, asking
nobody; otherwise it returns, unmodified, the weight reported by the first
parent of the list, and that parent is the only one locked and asked. -/
theorem lovsub_lock_weigh_first_parent (E : Env) (s : State) (lock : Nat)
    (hm : cl_lock_is_mutexed s (LockId.sub lock) = true) :
    ((s.sub lock).lss_parents = [] → lovsub_lock_weigh E s lock = Except.ok (s, 0)) ∧
    (∀ first rest, (s.sub lock).lss_parents = first :: rest →
      ∃ s1, lovsub_lock_weigh E s lock = Except.ok (s1, E.cl_lock_weigh first.lll_super) ∧
        s1.trace = s.trace ++ [Event.get first.lll_super,
          Event.mutex_get (LockId.top first.lll_super), Event.weigh first.lll_super,
          Event.mutex_put (LockId.top first.lll_super), Event.put first.lll_super] ∧
        s1.top = s.top ∧ s1.sub = s.sub ∧ s1.held = s.held) := by
  constructor
  · intro h
    unfold lovsub_lock_weigh
    rw [if_pos hm, h]
  · intro first rest h
    refine ⟨lovsub_parent_unlock
      (cl_lock_weigh E (lovsub_parent_lock s first.lll_super) first.lll_super).1
      first.lll_super, ?_, ?_, ?_, ?_, ?_⟩
    · unfold lovsub_lock_weigh
      rw [if_pos hm, h]
      rfl
    · simp [lovsub_parent_unlock, cl_lock_weigh, lovsub_parent_lock]
    · rfl
    · rfl
    · simp [lovsub_parent_unlock, cl_lock_weigh, lovsub_parent_lock]

/-- Witness for C18: with the parents 1, 2, 3 the weight is the one of
parent 1. -/
theorem lovsub_lock_weigh_first_parent_witness :
    ∃ s1, lovsub_lock_weigh env_closure mem_three_parents 20 = Except.ok (s1, 101) ∧
      s1.trace = [Event.get 1, Event.mutex_get (LockId.top 1), Event.weigh 1,
        Event.mutex_put (LockId.top 1), Event.put 1] :=
  match (lovsub_lock_weigh_first_parent env_closure mem_three_parents 20 rfl).2
    { lll_super := 1, lll_idx := 0 }
    [{ lll_super := 2, lll_idx := 0 }, { lll_super := 3, lll_idx := 0 }] rfl with
  | ⟨s1, h1, h2, _⟩ => ⟨s1, h1, h2⟩

end claims_closure_weigh

section claims_termination

/-- C19: lovsub_lock_delete terminates and empties the parent list.  When
the sub-lock mutex is held, every parent state is an enumerator of
cl_lock_state and no parent is HELD, a number of passes of one per parent
link plus one is enough for the restart loop to finish; on return the
parent list is empty and the assertion of lovsub_lock_fini holds. -/
theorem lovsub_lock_delete_empties (s : State) (c : Nat)
    (hm : cl_lock_is_mutexed s (LockId.sub c) = true)
    (hval : ∀ l ∈ (s.sub c).lss_parents,
      delete_state_handled (s.top l.lll_super).cll_state ∨
        (s.top l.lll_super).cll_state = CLS_HELD)
    (hnoheld : ∀ l ∈ (s.sub c).lss_parents, (s.top l.lll_super).cll_state ≠ CLS_HELD) :
    ∀ fuel, (s.sub c).lss_parents.length + 1 ≤ fuel →
      ∃ s1, lovsub_lock_delete fuel s c = Except.ok s1 ∧
        (s1.sub c).lss_parents = [] ∧
        lovsub_lock_fini s1 c = Except.ok s1 := by
  intro fuel hfuel
  unfold lovsub_lock_delete
  rw [if_pos hm]
  cases hres : lovsub_lock_delete_loop c fuel s with
  | ok s1 =>
    obtain ⟨-, hnil⟩ := delete_loop_ok c fuel s s1 hres
    refine ⟨s1, rfl, hnil, ?_⟩
    unfold lovsub_lock_fini
    rw [if_pos hnil]
  | error e =>
    exfalso
    rcases delete_loop_error c fuel s e hres with ⟨-, l, hl, hn⟩ | ⟨-, hf⟩
    · rcases hval l hl with h1 | h1
      · exact hn h1
      · exact hnoheld l hl h1
    · omega

/-- Witness for C19: the last sub-lock of a CACHED top-lock; the first pass
destroys the top-lock and restarts, the second finds the list empty. -/
theorem lovsub_lock_delete_empties_witness :
    ∃ s1, lovsub_lock_delete 2 mem_last_sublock 10 = Except.ok s1 ∧
      (s1.sub 10).lss_parents = [] ∧
      lovsub_lock_fini s1 10 = Except.ok s1 :=
  lovsub_lock_delete_empties mem_last_sublock 10 rfl (by decide) (by decide) 2 (by decide)

end claims_termination

section claims_protocol

theorem protocol_run_append (c : Nat) (a b : List Event) :
    ∀ st : Protocol, protocol_run c st (a ++ b) =
      (protocol_run c st a).bind (fun st1 => protocol_run c st1 b) := by
  induction a with
  | nil => intro st; rfl
  | cons e es ih =>
    intro st
    simp only [List.cons_append, protocol_run]
    cases protocol_step c st e with
    | none => rfl
    | some st1 => exact ih st1

/-- A parent that is only signalled keeps the protocol. -/
theorem protocol_signal (c p : Nat) :
    protocol_run c protocol_idle [Event.get p, Event.mutex_get (LockId.top p),
      Event.signal p, Event.mutex_put (LockId.top p), Event.put p] = some protocol_idle := by
  simp [protocol_run, protocol_step, protocol_idle]

/-- The error path keeps the protocol and ends with the sub-lock mutex
released. -/
theorem protocol_error (c p : Nat) (code : Int) :
    protocol_run c protocol_idle [Event.get p, Event.mutex_get (LockId.top p),
      Event.mutex_put (LockId.sub c), Event.error p code,
      Event.mutex_put (LockId.top p), Event.put p] = some protocol_released := by
  simp [protocol_run, protocol_step, protocol_idle, protocol_released]

/-- The re-acquire of the sub-lock mutex ends the release. -/
theorem protocol_reacquire (c : Nat) :
    protocol_run c protocol_released [Event.mutex_get (LockId.sub c)] =
      some protocol_idle := by
  simp [protocol_run, protocol_step, protocol_idle, protocol_released]

end claims_protocol

section held_replay

/-- The replay step is what cl_lock_mutex_get does to the held mutices and
to the trace. -/
theorem held_step_mutex_get (s : State) (m : LockId) :
    (cl_lock_mutex_get s m).held = held_step s.held (Event.mutex_get m) ∧
    (cl_lock_mutex_get s m).trace = s.trace ++ [Event.mutex_get m] :=
  ⟨rfl, rfl⟩

/-- The replay step is what cl_lock_mutex_put does to the held mutices and
to the trace. -/
theorem held_step_mutex_put (s : State) (m : LockId) :
    (cl_lock_mutex_put s m).held = held_step s.held (Event.mutex_put m) ∧
    (cl_lock_mutex_put s m).trace = s.trace ++ [Event.mutex_put m] :=
  ⟨rfl, rfl⟩

theorem held_replay_append (h : List LockId) (a b : List Event) :
    held_replay h (a ++ b) = held_replay (held_replay h a) b := by
  simp [held_replay, List.foldl_append]

theorem held_replay_cons (h : List LockId) (e : Event) (es : List Event) :
    held_replay h (e :: es) = held_replay (held_step h e) es := rfl

theorem top_le_max_top (h : List LockId) (evs : List Event) :
    top_mutices h ≤ max_top_mutices h evs := by
  cases evs with
  | nil => exact Nat.le_refl _
  | cons e es => exact Nat.le_max_left _ _

theorem max_top_append (a b : List Event) :
    ∀ h : List LockId, max_top_mutices h (a ++ b) =
      max (max_top_mutices h a) (max_top_mutices (held_replay h a) b) := by
  induction a with
  | nil =>
    intro h
    have := top_le_max_top h b
    simp only [List.nil_append, max_top_mutices, held_replay, List.foldl_nil]
    omega
  | cons e es ih =>
    intro h
    show max_top_mutices h (e :: (es ++ b)) = _
    simp only [max_top_mutices, held_replay_cons]
    rw [ih]
    omega

theorem top_mutices_perm {h1 h : List LockId} (hp : h1.Perm h) :
    top_mutices h1 = top_mutices h :=
  hp.countP_eq is_top_mutex

@[simp] theorem top_mutices_cons_top (p : Nat) (h : List LockId) :
    top_mutices (LockId.top p :: h) = top_mutices h + 1 := by
  simp [top_mutices, is_top_mutex]

@[simp] theorem top_mutices_cons_sub (c : Nat) (h : List LockId) :
    top_mutices (LockId.sub c :: h) = top_mutices h := by
  simp [top_mutices, is_top_mutex]

@[simp] theorem top_mutices_erase_sub (c : Nat) (h : List LockId) :
    top_mutices (h.erase (LockId.sub c)) = top_mutices h := by
  by_cases hin : LockId.sub c ∈ h
  · have hp := List.perm_cons_erase hin
    rw [top_mutices_perm hp, top_mutices_cons_sub]
  · rw [List.erase_of_not_mem hin]

theorem balanced_nil (c : Nat) (h : List LockId) : balanced_run c h [] h :=
  ⟨rfl, rfl, List.Perm.refl _, Nat.le_succ _⟩

theorem balanced_append {c : Nat} {h h1 h2 : List LockId} {a b : List Event}
    (ha : balanced_run c h a h1) (hb : balanced_run c h1 b h2) :
    balanced_run c h (a ++ b) h2 := by
  obtain ⟨a1, a2, a3, a4⟩ := ha
  obtain ⟨b1, b2, b3, b4⟩ := hb
  refine ⟨?_, ?_, b3.trans a3, ?_⟩
  · rw [protocol_run_append, a1]; exact b1
  · rw [held_replay_append, a2, b2]
  · rw [max_top_append, a2]
    have := top_mutices_perm a3
    omega

/-- A parent that is locked, worked on without touching a mutex, and
unlocked: balanced, for the event lists of the paths that do not release the
sub-lock mutex. -/
theorem balanced_signal (c p : Nat) (h : List LockId) :
    balanced_run c h [Event.get p, Event.mutex_get (LockId.top p),
      Event.signal p, Event.mutex_put (LockId.top p), Event.put p] h := by
  refine ⟨protocol_signal c p, ?_, List.Perm.refl _, ?_⟩
  · simp [held_replay, held_step]
  · simp [max_top_mutices, held_step]

end held_replay

section claims_balance

/-- The error path of lovsub_lock_state_one, followed by the re-acquire of
the sub-lock mutex, is balanced. -/
theorem balanced_error (c p : Nat) (code : Int) (h : List LockId)
    (hin : LockId.sub c ∈ h) :
    balanced_run c h ([Event.get p, Event.mutex_get (LockId.top p),
      Event.mutex_put (LockId.sub c), Event.error p code,
      Event.mutex_put (LockId.top p), Event.put p] ++ [Event.mutex_get (LockId.sub c)])
      (LockId.sub c :: h.erase (LockId.sub c)) := by
  refine ⟨?_, ?_, (List.perm_cons_erase hin).symm, ?_⟩
  · rw [protocol_run_append, protocol_error]; exact protocol_reacquire c
  · simp [held_replay, held_step, held_after_release]
  · simp [max_top_mutices, held_step, held_after_release]

/-- The signalling turn of the loop of lovsub_lock_delete is balanced. -/
theorem balanced_delete_signal (c p idx : Nat) (h : List LockId) :
    balanced_run c h [Event.get p, Event.mutex_get (LockId.top p),
      Event.unlink p idx c, Event.signal p,
      Event.mutex_put (LockId.top p), Event.put p] h := by
  refine ⟨?_, ?_, List.Perm.refl _, ?_⟩
  · simp [protocol_run, protocol_step, protocol_idle]
  · simp [held_replay, held_step]
  · simp [max_top_mutices, held_step]

/-- The turn that sets the race flag is balanced. -/
theorem balanced_delete_race (c p idx : Nat) (h : List LockId) :
    balanced_run c h [Event.get p, Event.mutex_get (LockId.top p),
      Event.unlink p idx c,
      Event.mutex_put (LockId.top p), Event.put p] h := by
  refine ⟨?_, ?_, List.Perm.refl _, ?_⟩
  · simp [protocol_run, protocol_step, protocol_idle]
  · simp [held_replay, held_step]
  · simp [max_top_mutices, held_step]

/-- The turn that only demotes a CACHED top-lock is balanced. -/
theorem balanced_delete_keep (c p idx : Nat) (h : List LockId) :
    balanced_run c h [Event.get p, Event.mutex_get (LockId.top p),
      Event.unlink p idx c, Event.state_set p CLS_NEW,
      Event.mutex_put (LockId.top p), Event.put p] h := by
  refine ⟨?_, ?_, List.Perm.refl _, ?_⟩
  · simp [protocol_run, protocol_step, protocol_idle]
  · simp [held_replay, held_step]
  · simp [max_top_mutices, held_step]

/-- The turn that destroys the emptied top-lock, followed by the re-acquire
of the sub-lock mutex, is balanced. -/
theorem balanced_delete_destroy (c p idx : Nat) (h : List LockId)
    (hin : LockId.sub c ∈ h) :
    balanced_run c h ([Event.get p, Event.mutex_get (LockId.top p),
      Event.unlink p idx c, Event.state_set p CLS_NEW, Event.mutex_put (LockId.sub c),
      Event.cancel p, Event.delete p,
      Event.mutex_put (LockId.top p), Event.put p] ++ [Event.mutex_get (LockId.sub c)])
      (LockId.sub c :: h.erase (LockId.sub c)) := by
  refine ⟨?_, ?_, (List.perm_cons_erase hin).symm, ?_⟩
  · simp [protocol_run, protocol_step, protocol_idle, protocol_released]
  · simp [held_replay, held_step, held_after_release]
  · simp [max_top_mutices, held_step, held_after_release]

/-- One call of lovsub_lock_state_one: balanced as it stands when the result
is 0, and balanced together with the re-acquire of the sub-lock mutex when
the result is 1. -/
theorem state_one_balanced (s : State) (c lov : Nat) (hin : LockId.sub c ∈ s.held) :
    ∃ evs, (lovsub_lock_state_one s c lov).1.trace = s.trace ++ evs ∧
      (((lovsub_lock_state_one s c lov).2 = 0 ∧
          balanced_run c s.held evs (lovsub_lock_state_one s c lov).1.held) ∨
        ((lovsub_lock_state_one s c lov).2 = 1 ∧
          balanced_run c s.held (evs ++ [Event.mutex_get (LockId.sub c)])
            (LockId.sub c :: (lovsub_lock_state_one s c lov).1.held))) := by
  by_cases ha : (s.sub c).lss_active = some lov
  · have h : lovsub_lock_state_one s c lov = (s, 0) := by
      unfold lovsub_lock_state_one
      rw [if_neg (not_not.2 ha)]
    rw [h]
    exact ⟨[], by simp, Or.inl ⟨rfl, balanced_nil c s.held⟩⟩
  · by_cases he : (s.sub c).cll_error ≠ 0 ∧ (s.top lov).cll_error = 0
    · rw [state_one_error s c lov ha he.1 he.2]
      refine ⟨[Event.get lov, Event.mutex_get (LockId.top lov),
        Event.mutex_put (LockId.sub c), Event.error lov (s.sub c).cll_error,
        Event.mutex_put (LockId.top lov), Event.put lov], ?_, Or.inr ⟨rfl, ?_⟩⟩
      · simp [lovsub_parent_unlock, cl_lock_error, lovsub_parent_lock]
      · have hh : (lovsub_parent_unlock (cl_lock_error (cl_lock_mutex_put
            (lovsub_parent_lock s lov) (LockId.sub c)) lov (s.sub c).cll_error) lov).held
            = s.held.erase (LockId.sub c) := by
          simp only [lovsub_parent_unlock, cl_lock_error, lovsub_parent_lock, log_held,
            mutex_put_held, set_top_held, mutex_get_held]
          exact held_after_release s.held c lov
        simp only [hh]
        exact balanced_error c lov _ s.held hin
    · have h3 : (s.sub c).cll_error = 0 ∨ (s.top lov).cll_error ≠ 0 := by
        by_cases h : (s.sub c).cll_error = 0
        · exact Or.inl h
        · exact Or.inr (fun h' => he ⟨h, h'⟩)
      rw [state_one_signal s c lov ha h3]
      refine ⟨[Event.get lov, Event.mutex_get (LockId.top lov),
        Event.signal lov, Event.mutex_put (LockId.top lov), Event.put lov], ?_,
        Or.inl ⟨rfl, ?_⟩⟩
      · simp [lovsub_parent_unlock, cl_lock_signal, lovsub_parent_lock]
      · have hh : (lovsub_parent_unlock (cl_lock_signal (lovsub_parent_lock s lov) lov)
            lov).held = s.held := by
          simp [lovsub_parent_unlock, cl_lock_signal, lovsub_parent_lock]
        simp only [hh]
        exact balanced_signal c lov s.held

/-- A pass of lovsub_lock_state is balanced. -/
theorem state_scan_balanced (c : Nat) (links : List lov_lock_link) :
    ∀ s : State, LockId.sub c ∈ s.held →
      ∃ evs, (lovsub_lock_state_scan c links s).1.trace = s.trace ++ evs ∧
        balanced_run c s.held evs (lovsub_lock_state_scan c links s).1.held := by
  induction links with
  | nil =>
    intro s _
    exact ⟨[], by simp [lovsub_lock_state_scan], balanced_nil c s.held⟩
  | cons scan rest ih =>
    intro s hin
    obtain ⟨e1, htr, hcase⟩ := state_one_balanced s c scan.lll_super hin
    rw [lovsub_lock_state_scan]
    rcases hcase with ⟨hr, hbal⟩ | ⟨hr, hbal⟩
    · rw [if_neg (by rw [hr]; simp)]
      obtain ⟨e2, htr2, hbal2⟩ := ih (lovsub_lock_state_one s c scan.lll_super).1
        (hbal.2.2.1.symm.subset hin)
      exact ⟨e1 ++ e2, by rw [htr2, htr, List.append_assoc], balanced_append hbal hbal2⟩
    · rw [if_pos (by rw [hr]; simp)]
      exact ⟨e1 ++ [Event.mutex_get (LockId.sub c)], by simp [htr], hbal⟩

/-- The restart loop of lovsub_lock_state is balanced. -/
theorem state_loop_balanced (c : Nat) :
    ∀ (fuel : Nat) (s s1 : State), LockId.sub c ∈ s.held →
      lovsub_lock_state_loop c fuel s = Except.ok s1 →
      ∃ evs, s1.trace = s.trace ++ evs ∧ balanced_run c s.held evs s1.held := by
  intro fuel
  induction fuel with
  | zero => intro s s1 _ h; simp [lovsub_lock_state_loop] at h
  | succ n ih =>
    intro s s1 hin h
    rw [lovsub_lock_state_loop] at h
    obtain ⟨e1, htr, hbal⟩ := state_scan_balanced c (s.sub c).lss_parents s hin
    split at h
    · obtain ⟨e2, htr2, hbal2⟩ := ih _ s1 (hbal.2.2.1.symm.subset hin) h
      exact ⟨e1 ++ e2, by rw [htr2, htr, List.append_assoc], balanced_append hbal hbal2⟩
    · simp only [Except.ok.injEq] at h
      subst h
      exact ⟨e1, htr, hbal⟩

/-- One turn of the loop of lovsub_lock_delete: balanced as it stands when
the result is 0, and balanced together with the re-acquire of the sub-lock
mutex when the result is 1. -/
theorem delete_step_balanced (s : State) (c : Nat) (scan : lov_lock_link)
    (s1 : State) (r : Int) (hin : LockId.sub c ∈ s.held)
    (h : lovsub_lock_delete_step s c scan = Except.ok (s1, r)) :
    ∃ evs, s1.trace = s.trace ++ evs ∧
      ((r = 0 ∧ balanced_run c s.held evs s1.held) ∨
        (r = 1 ∧ balanced_run c s.held (evs ++ [Event.mutex_get (LockId.sub c)])
          (LockId.sub c :: s1.held))) := by
  obtain ⟨s3, -, -, -, -, -, -, -, -, -, hheld, htrace, heq⟩ :=
    delete_step_unfold s c scan
  rw [heq] at h
  rcases delete_one_cases s3 c scan.lll_super with
    ⟨-, e⟩ | ⟨-, e⟩ | ⟨-, -, e⟩ | ⟨-, -, e⟩ | ⟨-, e⟩
  · rw [e] at h
    simp only [Except.ok.injEq, Prod.mk.injEq] at h
    obtain ⟨rfl, rfl⟩ := h
    refine ⟨[Event.get scan.lll_super, Event.mutex_get (LockId.top scan.lll_super),
      Event.unlink scan.lll_super scan.lll_idx c, Event.signal scan.lll_super,
      Event.mutex_put (LockId.top scan.lll_super), Event.put scan.lll_super], ?_,
      Or.inl ⟨rfl, ?_⟩⟩
    · simp [lovsub_parent_unlock, cl_lock_signal, htrace]
    · have hh : (lovsub_parent_unlock (cl_lock_signal s3 scan.lll_super)
          scan.lll_super).held = s.held := by
        simp [lovsub_parent_unlock, cl_lock_signal, hheld]
      rw [hh]
      exact balanced_delete_signal c _ _ s.held
  · rw [e] at h
    simp only [Except.ok.injEq, Prod.mk.injEq] at h
    obtain ⟨rfl, rfl⟩ := h
    refine ⟨[Event.get scan.lll_super, Event.mutex_get (LockId.top scan.lll_super),
      Event.unlink scan.lll_super scan.lll_idx c,
      Event.mutex_put (LockId.top scan.lll_super), Event.put scan.lll_super], ?_,
      Or.inl ⟨rfl, ?_⟩⟩
    · simp [lovsub_parent_unlock, htrace]
    · have hh : (lovsub_parent_unlock (s3.set_top scan.lll_super
          { s3.top scan.lll_super with lls_unuse_race := 1 }) scan.lll_super).held
          = s.held := by
        simp [lovsub_parent_unlock, hheld]
      rw [hh]
      exact balanced_delete_race c _ _ s.held
  · rw [e] at h
    simp only [Except.ok.injEq, Prod.mk.injEq] at h
    obtain ⟨rfl, rfl⟩ := h
    refine ⟨[Event.get scan.lll_super, Event.mutex_get (LockId.top scan.lll_super),
      Event.unlink scan.lll_super scan.lll_idx c,
      Event.state_set scan.lll_super CLS_NEW, Event.mutex_put (LockId.sub c),
      Event.cancel scan.lll_super, Event.delete scan.lll_super,
      Event.mutex_put (LockId.top scan.lll_super), Event.put scan.lll_super], ?_,
      Or.inr ⟨rfl, ?_⟩⟩
    · simp [lovsub_parent_unlock, cl_lock_delete, cl_lock_cancel, cl_lock_state_set, htrace]
    · have hh : (lovsub_parent_unlock (cl_lock_delete (cl_lock_cancel (cl_lock_mutex_put
          (cl_lock_state_set s3 scan.lll_super CLS_NEW) (LockId.sub c)) scan.lll_super)
          scan.lll_super) scan.lll_super).held = s.held.erase (LockId.sub c) := by
        simp only [lovsub_parent_unlock, cl_lock_delete, cl_lock_cancel, cl_lock_state_set,
          log_held, mutex_put_held, set_top_held, hheld]
        exact held_after_release s.held c scan.lll_super
      rw [hh]
      exact balanced_delete_destroy c _ _ s.held hin
  · rw [e] at h
    simp only [Except.ok.injEq, Prod.mk.injEq] at h
    obtain ⟨rfl, rfl⟩ := h
    refine ⟨[Event.get scan.lll_super, Event.mutex_get (LockId.top scan.lll_super),
      Event.unlink scan.lll_super scan.lll_idx c,
      Event.state_set scan.lll_super CLS_NEW,
      Event.mutex_put (LockId.top scan.lll_super), Event.put scan.lll_super], ?_,
      Or.inl ⟨rfl, ?_⟩⟩
    · simp [lovsub_parent_unlock, cl_lock_state_set, htrace]
    · have hh : (lovsub_parent_unlock (cl_lock_state_set s3 scan.lll_super CLS_NEW)
          scan.lll_super).held = s.held := by
        simp [lovsub_parent_unlock, cl_lock_state_set, hheld]
      rw [hh]
      exact balanced_delete_keep c _ _ s.held
  · rw [e] at h
    simp at h

/-- A pass of lovsub_lock_delete is balanced. -/
theorem delete_scan_balanced (c : Nat) (links : List lov_lock_link) :
    ∀ (s s1 : State) (r : Int), LockId.sub c ∈ s.held →
      lovsub_lock_delete_scan c links s = Except.ok (s1, r) →
      ∃ evs, s1.trace = s.trace ++ evs ∧ balanced_run c s.held evs s1.held := by
  induction links with
  | nil =>
    intro s s1 r _ h
    simp only [lovsub_lock_delete_scan, Except.ok.injEq, Prod.mk.injEq] at h
    obtain ⟨rfl, rfl⟩ := h
    exact ⟨[], by simp, balanced_nil c s.held⟩
  | cons scan rest ih =>
    intro s s1 r hin h
    rw [lovsub_lock_delete_scan] at h
    cases hstep : lovsub_lock_delete_step s c scan with
    | error e => rw [hstep] at h; simp at h
    | ok res =>
      obtain ⟨s2, r2⟩ := res
      rw [hstep] at h
      simp only at h
      obtain ⟨e1, htr, hcase⟩ := delete_step_balanced s c scan s2 r2 hin hstep
      rcases hcase with ⟨hr, hbal⟩ | ⟨hr, hbal⟩
      · rw [if_neg (by rw [hr]; simp)] at h
        obtain ⟨e2, htr2, hbal2⟩ := ih s2 s1 r (hbal.2.2.1.symm.subset hin) h
        exact ⟨e1 ++ e2, by rw [htr2, htr, List.append_assoc], balanced_append hbal hbal2⟩
      · rw [if_pos (by rw [hr]; simp)] at h
        simp only [Except.ok.injEq, Prod.mk.injEq] at h
        obtain ⟨rfl, rfl⟩ := h
        exact ⟨e1 ++ [Event.mutex_get (LockId.sub c)], by simp [htr], hbal⟩

/-- The restart loop of lovsub_lock_delete is balanced. -/
theorem delete_loop_balanced (c : Nat) :
    ∀ (fuel : Nat) (s s1 : State), LockId.sub c ∈ s.held →
      lovsub_lock_delete_loop c fuel s = Except.ok s1 →
      ∃ evs, s1.trace = s.trace ++ evs ∧ balanced_run c s.held evs s1.held := by
  intro fuel
  induction fuel with
  | zero => intro s s1 _ h; simp [lovsub_lock_delete_loop] at h
  | succ n ih =>
    intro s s1 hin h
    rw [lovsub_lock_delete_loop] at h
    cases hscan : lovsub_lock_delete_scan c (s.sub c).lss_parents s with
    | error e => rw [hscan] at h; simp at h
    | ok res =>
      obtain ⟨s2, r2⟩ := res
      rw [hscan] at h
      simp only at h
      obtain ⟨e1, htr, hbal⟩ := delete_scan_balanced c _ s s2 r2 hin hscan
      split at h
      · obtain ⟨e2, htr2, hbal2⟩ := ih s2 s1 (hbal.2.2.1.symm.subset hin) h
        exact ⟨e1 ++ e2, by rw [htr2, htr, List.append_assoc], balanced_append hbal hbal2⟩
      · simp only [Except.ok.injEq] at h
        subst h
        exact ⟨e1, htr, hbal⟩

/-- C20, as stated, fails in its last clause: lovsub_lock_delete entered by
a thread that holds the mutex of sub-lock 10 and also the mutex of top-lock 5
returns, and while the parent top-lock 0 is locked the thread holds two
top-lock mutices (lovsub_lock_delete_one then sees three mutices and does not
destroy the emptied top-lock). -/
theorem lovsub_mutex_two_top_held :
    cl_lock_is_mutexed mem_caller_holds_top (LockId.sub 10) = true ∧
    (lovsub_parent_lock mem_caller_holds_top 0).held =
      [LockId.top 0, LockId.top 5, LockId.sub 10] ∧
    ∃ s1, lovsub_lock_delete 1 mem_caller_holds_top 10 = Except.ok s1 ∧
      s1.trace = [Event.get 0, Event.mutex_get (LockId.top 0), Event.unlink 0 0 10,
        Event.state_set 0 CLS_NEW, Event.mutex_put (LockId.top 0), Event.put 0] ∧
      held_replay mem_caller_holds_top.held s1.trace = s1.held ∧
      held_replay mem_caller_holds_top.held
        [Event.get 0, Event.mutex_get (LockId.top 0)] =
        [LockId.top 0, LockId.top 5, LockId.sub 10] ∧
      max_top_mutices mem_caller_holds_top.held s1.trace = 2 :=
  ⟨rfl, rfl, _, rfl, by decide, by decide, by decide, by decide⟩

/-- C20 as amended (mutex balance of the restart protocol): every run of
lovsub_lock_state and of lovsub_lock_delete that returns was entered with
the sub-lock mutex held and returns with it held, the held mutices being the
ones held on entry; its events pass the protocol checker from idle to idle,
that is each release of the sub-lock mutex is followed by one re-acquire
before the next parent is taken and each reference and mutex taken by
lovsub_parent_lock is released by the matching lovsub_parent_unlock; the
mutices held along the run are the replay of its events from the ones held
on entry, and at no point does the thread hold more than one top-lock mutex
beyond those it held on entry, so at most one when it held none. -/
theorem lovsub_mutex_balance (s : State) (c fuel : Nat) :
    (∀ s1, lovsub_lock_state fuel s c = Except.ok s1 →
      cl_lock_is_mutexed s (LockId.sub c) = true ∧
      cl_lock_is_mutexed s1 (LockId.sub c) = true ∧
      s1.held.Perm s.held ∧
      ∃ evs, s1.trace = s.trace ++ evs ∧
        protocol_run c protocol_idle evs = some protocol_idle ∧
        held_replay s.held evs = s1.held ∧
        max_top_mutices s.held evs ≤ top_mutices s.held + 1 ∧
        (top_mutices s.held = 0 → max_top_mutices s.held evs ≤ 1)) ∧
    (∀ s1, lovsub_lock_delete fuel s c = Except.ok s1 →
      cl_lock_is_mutexed s (LockId.sub c) = true ∧
      cl_lock_is_mutexed s1 (LockId.sub c) = true ∧
      s1.held.Perm s.held ∧
      ∃ evs, s1.trace = s.trace ++ evs ∧
        protocol_run c protocol_idle evs = some protocol_idle ∧
        held_replay s.held evs = s1.held ∧
        max_top_mutices s.held evs ≤ top_mutices s.held + 1 ∧
        (top_mutices s.held = 0 → max_top_mutices s.held evs ≤ 1)) := by
  constructor
  · intro s1 h
    unfold lovsub_lock_state at h
    split at h
    · rename_i hm
      have hin : LockId.sub c ∈ s.held := by simpa [cl_lock_is_mutexed] using hm
      obtain ⟨evs, htr, hrun, hrep, hperm, hmax⟩ := state_loop_balanced c fuel s s1 hin h
      refine ⟨hm, ?_, hperm, evs, htr, hrun, hrep, hmax, fun h0 => by omega⟩
      simpa [cl_lock_is_mutexed] using hperm.symm.subset hin
    · simp at h
  · intro s1 h
    unfold lovsub_lock_delete at h
    split at h
    · rename_i hm
      have hin : LockId.sub c ∈ s.held := by simpa [cl_lock_is_mutexed] using hm
      obtain ⟨evs, htr, hrun, hrep, hperm, hmax⟩ := delete_loop_balanced c fuel s s1 hin h
      refine ⟨hm, ?_, hperm, evs, htr, hrun, hrep, hmax, fun h0 => by omega⟩
      simpa [cl_lock_is_mutexed] using hperm.symm.subset hin
    · simp at h

/-- Witness for C20 as amended: Scenario D for lovsub_lock_state (one
release and re-acquire for the error delivery) and the last sub-lock of a
CACHED top-lock for lovsub_lock_delete (one release and re-acquire around
the cancel and delete of the top-lock); the caller holds no top-lock mutex
and at most one is held at any point. -/
theorem lovsub_mutex_balance_witness :
    (∃ s1, lovsub_lock_state 2 mem_scenario_d 20 = Except.ok s1 ∧
      cl_lock_is_mutexed s1 (LockId.sub 20) = true ∧
      s1.held.Perm mem_scenario_d.held ∧
      protocol_run 20 protocol_idle s1.trace = some protocol_idle ∧
      held_replay mem_scenario_d.held s1.trace = s1.held ∧
      max_top_mutices mem_scenario_d.held s1.trace ≤ 1 ∧
      Event.mutex_put (LockId.sub 20) ∈ s1.trace) ∧
    (∃ s1, lovsub_lock_delete 2 mem_last_sublock 10 = Except.ok s1 ∧
      cl_lock_is_mutexed s1 (LockId.sub 10) = true ∧
      s1.held.Perm mem_last_sublock.held ∧
      protocol_run 10 protocol_idle s1.trace = some protocol_idle ∧
      held_replay mem_last_sublock.held s1.trace = s1.held ∧
      max_top_mutices mem_last_sublock.held s1.trace ≤ 1 ∧
      Event.cancel 0 ∈ s1.trace) := by
  constructor
  · obtain ⟨s1, h1⟩ : ∃ s1, lovsub_lock_state 2 mem_scenario_d 20 = Except.ok s1 := ⟨_, rfl⟩
    obtain ⟨-, h2, h3, evs, h4, h5, h6, -, h8⟩ :=
      (lovsub_mutex_balance mem_scenario_d 20 2).1 s1 h1
    have htr : s1.trace = evs := by rw [h4]; rfl
    refine ⟨s1, h1, h2, h3, ?_, ?_, ?_, ?_⟩
    · rw [htr]; exact h5
    · rw [htr]; exact h6
    · rw [htr]; exact h8 (by decide)
    · have e : lovsub_lock_state 2 mem_scenario_d 20 = Except.ok _ := rfl
      rw [e] at h1
      simp only [Except.ok.injEq] at h1
      rw [← h1]; decide
  · obtain ⟨s1, h1⟩ : ∃ s1, lovsub_lock_delete 2 mem_last_sublock 10 = Except.ok s1 := ⟨_, rfl⟩
    obtain ⟨-, h2, h3, evs, h4, h5, h6, -, h8⟩ :=
      (lovsub_mutex_balance mem_last_sublock 10 2).2 s1 h1
    have htr : s1.trace = evs := by rw [h4]; rfl
    refine ⟨s1, h1, h2, h3, ?_, ?_, ?_, ?_⟩
    · rw [htr]; exact h5
    · rw [htr]; exact h6
    · rw [htr]; exact h8 (by decide)
    · have e : lovsub_lock_delete 2 mem_last_sublock 10 = Except.ok _ := rfl
      rw [e] at h1
      simp only [Except.ok.injEq] at h1
      rw [← h1]; decide

end claims_balance

end Lovsub
